import Mathlib

/-!
# Student attendance and result portal: the aggregation core

A shallow embedding of `src/js/results.js` (`ResultsManager`),
`src/js/attendance.js` (`AttendanceManager`) and the part of
`src/js/storage.js` (`StorageManager`) they call.

* Collections are lists; `StorageManager.get(key) || []` is `Option.getD _ []`.
* Identifiers, dates, timestamps and grades are strings, as in the source.
* Marks and counts are integers. Every JavaScript number is an IEEE 754 binary64
  value; integers of magnitude up to `2 ^ 53` are represented exactly. The sum of
  `calculateTotal` is embedded with its binary64 rounding (`jsAddInt`); lengths and
  counters are embedded as arithmetic on `ℤ` and `ℕ`.
* The value NaN is `none` where a computation can produce it: the total of points of
  `getStudentGPA` and the comparator of `getRecentActivity`.
* A division or a product whose result need not be an integer is embedded with the
  binary64 rounding `fl` (round to nearest, ties to even, 53 bit significand). The
  exponent range is not bounded: no quantity computed here comes near the overflow
  or underflow threshold of binary64.
* The clock (`new Date().toISOString()`) and the outcome of `localStorage.setItem`
  are inputs of the operations that use them (`Env`).
-/

namespace Portal

/-! ## Numbers -/

/-- Nearest integer to `q`, a tie going to the even neighbour. -/
def roundHalfEven (q : ℚ) : ℤ :=
  if q - ⌊q⌋ < 1 / 2 then ⌊q⌋
  else if 1 / 2 < q - ⌊q⌋ then ⌊q⌋ + 1
  else if ⌊q⌋ % 2 = 0 then ⌊q⌋ else ⌊q⌋ + 1

/-- Spacing of the binary64 values in the binade of `x`, for `0 < x`. -/
def ulp (x : ℚ) : ℚ := (2 : ℚ) ^ (Int.log 2 x - 52)

/-- Binary64 rounding of a magnitude `0 ≤ x`. -/
def flMag (x : ℚ) : ℚ := (roundHalfEven (x / ulp x) : ℚ) * ulp x

/-- Binary64 rounding (sign and rounded magnitude) of the exact result `x` of an
arithmetic operation. -/
def fl (x : ℚ) : ℚ := if 0 ≤ x then flMag x else -flMag (-x)

/-- The JavaScript operator `/` on two numbers. A call site has to show that its divisor
is not zero, so an expression of the embedding never divides by zero. -/
def jsDiv (a b : ℚ) (_h : b ≠ 0) : ℚ := fl (a / b)

/-- The JavaScript operator `*` on two numbers. -/
def jsMul (a b : ℚ) : ℚ := fl (a * b)

/-- The function `Math.round`: the nearest integer, a tie going up. -/
def mathRound (x : ℚ) : ℤ := ⌊x + 1 / 2⌋

/-- The JavaScript operator `+` on two numbers whose sum need not be an integer. -/
def jsAdd (a b : ℚ) : ℚ := fl (a + b)

/-- The JavaScript operator `+` on two numbers whose values are integers: the binary64
rounding of the exact sum. That rounding is again an integer (an integer below `2 ^ 53` in
magnitude is its own rounding, and from `2 ^ 52` on every binary64 value is an integer), so
the floor only changes the type. -/
def jsAddInt (a b : ℤ) : ℤ := ⌊fl ((a : ℚ) + (b : ℚ))⌋

/-- The JavaScript operator `+` on two numbers either of which may be NaN (`none`). -/
def addNumbers (a b : Option ℚ) : Option ℚ :=
  match a, b with
  | some x, some y => some (jsAdd x y)
  | _, _ => none

/-- The value denoted by the string `x.toFixed(2)`: the multiple `n / 100` nearest to the
number `x`, the larger `n` on a tie, computed on the magnitude when `x` is negative. -/
def toFixed2 (x : ℚ) : ℚ :=
  if x < 0 then -((⌊-x * 100 + 1 / 2⌋ : ℤ) : ℚ) / 100 else ((⌊x * 100 + 1 / 2⌋ : ℤ) : ℚ) / 100

/-- The array `[...new Set(xs)]`: the distinct values of `xs`, each at its first
occurrence. -/
def uniqueValues {α : Type} [DecidableEq α] : List α → List α
  | [] => []
  | x :: xs => x :: (uniqueValues xs).filter (fun y => decide (y ≠ x))

/-- The call `Math.max(...xs)` on a list that is not empty. -/
def mathMax (xs : List ℤ) (h : xs ≠ []) : ℤ := xs.tail.foldl max (xs.head h)

/-- The call `Math.min(...xs)` on a list that is not empty. -/
def mathMin (xs : List ℤ) (h : xs ≠ []) : ℤ := xs.tail.foldl min (xs.head h)

/-- The method `Array.prototype.findIndex`; `none` stands for the result `-1`. -/
def findIndex {α : Type} (p : α → Bool) : List α → Option ℕ
  | [] => none
  | x :: xs => if p x then some 0 else (findIndex p xs).map (· + 1)

/-- The method `Array.prototype.sort` with a comparator `cmp`: the sort is stable, and `a`
stays before `b` when `cmp a b ≤ 0`. -/
def arraySort {α : Type} (cmp : α → α → ℤ) (xs : List α) : List α :=
  xs.insertionSort (fun a b => cmp a b ≤ 0)

/-- Writing `r` over the first element that satisfies `p`, or appending it when there is
none: what the two branches after a `findIndex` do to a collection. -/
def replaceFirst {α : Type} (p : α → Bool) (r : α) : List α → List α
  | [] => [r]
  | x :: xs => if p x then r :: xs else x :: replaceFirst p r xs

/-! ## Records and the store -/

/-- A student of the `students` collection. -/
structure Student where
  id : String
  name : String
  email : String
  department : String
  semester : ℤ
  enrolledCourses : List String
  status : String
  enrollmentDate : String
  deriving DecidableEq, Repr

/-- A course of the `courses` collection; `credits` may be absent. -/
structure Course where
  id : String
  name : String
  code : String
  credits : Option ℤ
  teacherId : String
  teacherName : String
  department : String
  semester : String
  totalClasses : ℤ
  deriving DecidableEq, Repr

/-- A record of the `attendance` collection. -/
structure AttendanceRecord where
  id : String
  courseId : String
  studentId : String
  date : String
  status : String
  markedBy : String
  markedAt : String
  deriving DecidableEq, Repr

/-- A record of the `results` collection; the seeded records carry no `updatedAt`. -/
structure ResultRecord where
  id : String
  courseId : String
  studentId : String
  quiz1 : ℤ
  quiz2 : ℤ
  midterm : ℤ
  final : ℤ
  assignment : ℤ
  totalMarks : ℤ
  grade : String
  updatedAt : Option String
  deriving DecidableEq, Repr

/-- The session object stored under `currentUser`. -/
structure Session where
  userId : String
  name : String
  role : String
  loginTime : String
  deriving DecidableEq, Repr

/-- The contents of local storage that the aggregators read and write; a key that is
absent (or whose payload does not parse) is `none`. -/
structure Store where
  students : Option (List Student) := none
  courses : Option (List Course) := none
  attendance : Option (List AttendanceRecord) := none
  results : Option (List ResultRecord) := none
  currentUser : Option Session := none
  deriving DecidableEq, Repr

/-- What an operation takes from outside the store: the clock reading
`new Date().toISOString()` and whether `localStorage.setItem` succeeds. -/
structure Env where
  now : String
  writeOk : Bool
  deriving DecidableEq, Repr

/-- The outcome object `{ success, message }`. -/
structure Outcome where
  success : Bool
  message : String
  deriving DecidableEq, Repr

namespace StorageManager

/-- The function `StorageManager.set` for one key: `write` replaces the collection under the
key; when the write fails the store is unchanged and the result is `false`. -/
def set (env : Env) (st : Store) (write : Store → Store) : Store × Bool :=
  if env.writeOk then (write st, true) else (st, false)

end StorageManager

/-! ## Results: grades and totals -/

namespace ResultsManager

/-- Lower bounds of the grade bands, `ResultsManager.GRADE_BOUNDARIES`. -/
structure GradeBoundaries where
  A_PLUS : ℚ
  A : ℚ
  A_MINUS : ℚ
  B_PLUS : ℚ
  B : ℚ
  B_MINUS : ℚ
  C_PLUS : ℚ
  C : ℚ
  C_MINUS : ℚ
  D : ℚ
  F : ℚ

/-- The constant `ResultsManager.GRADE_BOUNDARIES`. -/
def GRADE_BOUNDARIES : GradeBoundaries :=
  { A_PLUS := 90, A := 85, A_MINUS := 80, B_PLUS := 75, B := 70, B_MINUS := 65,
    C_PLUS := 60, C := 55, C_MINUS := 50, D := 45, F := 0 }

/-- Maximum marks of each component, `ResultsManager.MAX_MARKS`. -/
structure MaxMarks where
  quiz1 : ℚ
  quiz2 : ℚ
  midterm : ℚ
  final : ℚ
  assignment : ℚ
  total : ℚ

/-- The constant `ResultsManager.MAX_MARKS`. -/
def MAX_MARKS : MaxMarks :=
  { quiz1 := 20, quiz2 := 20, midterm := 50, final := 100, assignment := 30, total := 220 }

/-- The local `percentage` of `calculateGrade`: `(totalMarks / this.MAX_MARKS.total) * 100`. -/
def gradePercentage (totalMarks : ℚ) : ℚ :=
  jsMul (jsDiv totalMarks MAX_MARKS.total (by simp [MAX_MARKS])) 100

/-- The function `ResultsManager.calculateGrade`. -/
def calculateGrade (totalMarks : ℚ) : String :=
  let percentage := gradePercentage totalMarks
  if percentage ≥ GRADE_BOUNDARIES.A_PLUS then "A+"
  else if percentage ≥ GRADE_BOUNDARIES.A then "A"
  else if percentage ≥ GRADE_BOUNDARIES.A_MINUS then "A-"
  else if percentage ≥ GRADE_BOUNDARIES.B_PLUS then "B+"
  else if percentage ≥ GRADE_BOUNDARIES.B then "B"
  else if percentage ≥ GRADE_BOUNDARIES.B_MINUS then "B-"
  else if percentage ≥ GRADE_BOUNDARIES.C_PLUS then "C+"
  else if percentage ≥ GRADE_BOUNDARIES.C then "C"
  else if percentage ≥ GRADE_BOUNDARIES.C_MINUS then "C-"
  else if percentage ≥ GRADE_BOUNDARIES.D then "D"
  else "F"

/-- The `marks` argument of `calculateTotal` and `saveResult`; a component that the object
does not have is `none`. -/
structure Marks where
  quiz1 : Option ℤ := none
  quiz2 : Option ℤ := none
  midterm : Option ℤ := none
  final : Option ℤ := none
  assignment : Option ℤ := none
  deriving DecidableEq, Repr

/-- The expression `x || 0` on a component that may be absent. -/
def orZero (x : Option ℤ) : ℤ := x.getD 0

/-- The function `ResultsManager.calculateTotal`. -/
def calculateTotal (marks : Marks) : ℤ :=
  jsAddInt (jsAddInt (jsAddInt (jsAddInt (orZero marks.quiz1) (orZero marks.quiz2))
    (orZero marks.midterm)) (orZero marks.final)) (orZero marks.assignment)

/-- The object `{ success, message, result }` that `saveResult` returns. -/
structure SaveOutcome where
  success : Bool
  message : String
  result : ResultRecord
  deriving DecidableEq, Repr

/-- The function `ResultsManager.saveResult`: the store after the call and the object
returned. -/
def saveResult (env : Env) (st : Store) (courseId studentId : String) (marks : Marks) :
    Store × SaveOutcome :=
  let results := st.results.getD []
  let totalMarks := calculateTotal marks
  let grade := calculateGrade totalMarks
  let resultRecord : ResultRecord :=
    { id := courseId ++ "_" ++ studentId
      courseId := courseId
      studentId := studentId
      quiz1 := orZero marks.quiz1
      quiz2 := orZero marks.quiz2
      midterm := orZero marks.midterm
      final := orZero marks.final
      assignment := orZero marks.assignment
      totalMarks := totalMarks
      grade := grade
      updatedAt := some env.now }
  let existingIndex := findIndex (fun r => r.courseId == courseId && r.studentId == studentId) results
  let results' :=
    match existingIndex with
    | some i => results.set i resultRecord
    | none => results ++ [resultRecord]
  let st' := (StorageManager.set env st (fun s => { s with results := some results' })).1
  (st', { success := true, message := "Results saved successfully", result := resultRecord })

/-- The function `ResultsManager.getStudentCourseResult`; `none` stands for `null`. -/
def getStudentCourseResult (st : Store) (studentId courseId : String) : Option ResultRecord :=
  (st.results.getD []).find? (fun r => r.studentId == studentId && r.courseId == courseId)

/-- The function `ResultsManager.getStudentResults`. -/
def getStudentResults (st : Store) (studentId : String) : List ResultRecord :=
  (st.results.getD []).filter (fun r => r.studentId == studentId)

/-- The function `ResultsManager.getCourseResults`. -/
def getCourseResults (st : Store) (courseId : String) : List ResultRecord :=
  (st.results.getD []).filter (fun r => r.courseId == courseId)

end ResultsManager

/-- The grade bands of the specification, highest first: grade and lower bound in percent. -/
def gradeBands : List (String × ℚ) :=
  [("A+", 90), ("A", 85), ("A-", 80), ("B+", 75), ("B", 70), ("B-", 65),
   ("C+", 60), ("C", 55), ("C-", 50), ("D", 45), ("F", 0)]

/-- The grade `g` is the grade of the highest band of the table whose lower bound is at
most the percentage `p`. -/
def IsHighestBand (g : String) (p : ℚ) : Prop :=
  ∃ b, (g, b) ∈ gradeBands ∧ b ≤ p ∧ ∀ g' b', (g', b') ∈ gradeBands → b' ≤ p → b' ≤ b

/-- The records of a results collection with the key `(courseId, studentId)`. -/
def resultsFor (rs : List ResultRecord) (courseId studentId : String) : List ResultRecord :=
  rs.filter (fun r => r.courseId == courseId && r.studentId == studentId)

/-! ## Attendance -/

namespace AttendanceManager

/-- The function `AttendanceManager.markAttendance`: the store after the call and the object
returned. -/
def markAttendance (env : Env) (st : Store) (courseId studentId date status : String) :
    Store × Outcome :=
  let attendance := st.attendance.getD []
  let currentUser := st.currentUser
  let existingIndex := findIndex
    (fun a => a.courseId == courseId && a.studentId == studentId && a.date == date) attendance
  let record : AttendanceRecord :=
    { id := courseId ++ "_" ++ studentId ++ "_" ++ date
      courseId := courseId
      studentId := studentId
      date := date
      status := status
      markedBy := match currentUser with
        | some u => u.userId
        | none => "system"
      markedAt := env.now }
  let attendance' :=
    match existingIndex with
    | some i => attendance.set i record
    | none => attendance ++ [record]
  let st' := (StorageManager.set env st (fun s => { s with attendance := some attendance' })).1
  (st', { success := true, message := "Attendance marked successfully" })

/-- The function `AttendanceManager.getAttendanceByDate`. -/
def getAttendanceByDate (st : Store) (courseId date : String) : List AttendanceRecord :=
  (st.attendance.getD []).filter (fun a => a.courseId == courseId && a.date == date)

/-- The function `AttendanceManager.getStudentAttendance`. -/
def getStudentAttendance (st : Store) (studentId : String) : List AttendanceRecord :=
  (st.attendance.getD []).filter (fun a => a.studentId == studentId)

/-- The function `AttendanceManager.getStudentCourseAttendance`. -/
def getStudentCourseAttendance (st : Store) (studentId courseId : String) :
    List AttendanceRecord :=
  (st.attendance.getD []).filter (fun a => a.studentId == studentId && a.courseId == courseId)

/-- The statistics object `{ total, present, absent, percentage }`. -/
structure AttendanceStats where
  total : ℕ
  present : ℕ
  absent : ℕ
  percentage : ℤ
  deriving DecidableEq, Repr

/-- The statistics both `calculateAttendancePercentage` and `getOverallAttendance` compute
from the records they selected (the two bodies are the same text). -/
def statsOf (records : List AttendanceRecord) : AttendanceStats :=
  if h : records.length = 0 then
    { total := 0, present := 0, absent := 0, percentage := 0 }
  else
    let present := (records.filter (fun r => r.status == "present")).length
    let absent := (records.filter (fun r => r.status == "absent")).length
    let total := records.length
    let percentage := mathRound (jsMul (jsDiv present total (Nat.cast_ne_zero.mpr h)) 100)
    { total := total, present := present, absent := absent, percentage := percentage }

/-- The function `AttendanceManager.calculateAttendancePercentage`. -/
def calculateAttendancePercentage (st : Store) (studentId courseId : String) : AttendanceStats :=
  statsOf (getStudentCourseAttendance st studentId courseId)

/-- The function `AttendanceManager.getOverallAttendance`. -/
def getOverallAttendance (st : Store) (studentId : String) : AttendanceStats :=
  statsOf (getStudentAttendance st studentId)

/-- An element of the list `getStudentsAtRisk` returns: `{ ...student, attendancePercentage }`. -/
structure AtRiskStudent extends Student where
  attendancePercentage : ℤ
  deriving DecidableEq, Repr

/-- The function `AttendanceManager.getStudentsAtRisk`. -/
def getStudentsAtRisk (st : Store) (threshold : ℚ := 75) : List AtRiskStudent :=
  let students := st.students.getD []
  let atRisk := students.foldl
    (fun (acc : List AtRiskStudent) student =>
      let stats := getOverallAttendance st student.id
      if stats.total > 0 ∧ (stats.percentage : ℚ) < threshold then
        acc ++ [{ toStudent := student, attendancePercentage := stats.percentage }]
      else acc)
    []
  arraySort (fun a b => a.attendancePercentage - b.attendancePercentage) atRisk

end AttendanceManager

/-! ## Results: statistics, grade points, ranks, deletion -/

namespace ResultsManager

/-- The object `getCourseStatistics` returns; the grade distribution lists each grade with
its count in the order of first occurrence, and `passRate` is `none` when the object has no
such property. -/
structure CourseStatistics where
  totalStudents : ℕ
  averageMarks : ℤ
  highestMarks : ℤ
  lowestMarks : ℤ
  gradeDistribution : List (String × ℕ)
  passRate : Option ℤ
  deriving DecidableEq, Repr

/-- The statement `gradeDistribution[grade] = (gradeDistribution[grade] || 0) + 1`. -/
def countGrade (gradeDistribution : List (String × ℕ)) (grade : String) : List (String × ℕ) :=
  match gradeDistribution.lookup grade with
  | some _ => gradeDistribution.map (fun e => if e.1 == grade then (e.1, e.2 + 1) else e)
  | none => gradeDistribution ++ [(grade, 1)]

/-- The function `ResultsManager.getCourseStatistics`. -/
def getCourseStatistics (st : Store) (courseId : String) : CourseStatistics :=
  let results := getCourseResults st courseId
  if h : results.length = 0 then
    { totalStudents := 0, averageMarks := 0, highestMarks := 0, lowestMarks := 0,
      gradeDistribution := [], passRate := none }
  else
    let marks := results.map (fun r => r.totalMarks)
    let grades := results.map (fun r => r.grade)
    let gradeDistribution := grades.foldl countGrade []
    have hm : marks ≠ [] := by
      intro hc
      exact h (by simpa [marks] using congrArg List.length hc)
    { totalStudents := results.length
      averageMarks := mathRound (jsDiv ((marks.foldl jsAddInt 0 : ℤ) : ℚ) (marks.length : ℚ)
        (by simpa [marks] using h))
      highestMarks := mathMax marks hm
      lowestMarks := mathMin marks hm
      gradeDistribution := gradeDistribution
      passRate := some (mathRound (jsMul (jsDiv
        ((results.filter (fun r => r.grade != "F")).length : ℚ) (results.length : ℚ)
        (Nat.cast_ne_zero.mpr h)) 100)) }

/-- The own properties of the object literal `gradePoints` of `getStudentGPA`: each literal
is the binary64 value nearest to it, and a grade that is not a key of the literal has no
entry here. What the lookup `gradePoints[grade]` finds along the prototype chain is in
`pointsTimesCredits`. -/
def gradePoints (grade : String) : Option ℚ :=
  if grade = "A+" then some 4
  else if grade = "A" then some 4
  else if grade = "A-" then some (fl (37 / 10))
  else if grade = "B+" then some (fl (33 / 10))
  else if grade = "B" then some 3
  else if grade = "B-" then some (fl (27 / 10))
  else if grade = "C+" then some (fl (23 / 10))
  else if grade = "C" then some 2
  else if grade = "C-" then some (fl (17 / 10))
  else if grade = "D" then some 1
  else if grade = "F" then some 0
  else none

/-- The expression `course.credits || 3`. -/
def creditsOrDefault (credits : Option ℤ) : ℤ :=
  match credits with
  | some c => if c = 0 then 3 else c
  | none => 3

/-- The names of the properties that an object literal inherits from `Object.prototype`:
the value of each is a function or an object, never a number. -/
def inheritedProperties : List String :=
  ["constructor", "__proto__", "hasOwnProperty", "isPrototypeOf", "propertyIsEnumerable",
   "toLocaleString", "toString", "valueOf", "__defineGetter__", "__defineSetter__",
   "__lookupGetter__", "__lookupSetter__"]

/-- The product `points * credits` of `getStudentGPA` with `points` the value of
`gradePoints[result.grade] || 0`: an entry of the table, the number 0 for a grade that names
no property, and for a grade that names an inherited property a function or an object,
which is truthy and whose product with a number is NaN (`none`). -/
def pointsTimesCredits (grade : String) (credits : ℤ) : Option ℚ :=
  match gradePoints grade with
  | some points => some (jsMul points (credits : ℚ))
  | none => if grade ∈ inheritedProperties then none else some (jsMul 0 (credits : ℚ))

/-- The object `{ gpa, totalCredits }`; `gpa` is the number 0, or the value that the string
`toFixed(2)` returns denotes, `none` for the string `NaN`. -/
structure GPAInfo where
  gpa : Option ℚ
  totalCredits : ℤ
  deriving DecidableEq, Repr

/-- The body of the `forEach` of `getStudentGPA` on the pair `(totalPoints, totalCredits)`;
a total of points that is NaN is `none`. -/
def addResultPoints (courses : List Course) (acc : Option ℚ × ℤ) (result : ResultRecord) :
    Option ℚ × ℤ :=
  match courses.find? (fun c => c.id == result.courseId) with
  | some course =>
    let credits := creditsOrDefault course.credits
    (addNumbers acc.1 (pointsTimesCredits result.grade credits), acc.2 + credits)
  | none => acc

/-- The function `ResultsManager.getStudentGPA`. -/
def getStudentGPA (st : Store) (studentId : String) : GPAInfo :=
  let results := getStudentResults st studentId
  let courses := st.courses.getD []
  if results.length = 0 then
    { gpa := some 0, totalCredits := 0 }
  else
    let totals := results.foldl (addResultPoints courses) (some 0, 0)
    let totalPoints := totals.1
    let totalCredits := totals.2
    { gpa := if h : totalCredits > 0 then
        totalPoints.map (fun t =>
          toFixed2 (jsDiv t (totalCredits : ℚ) (Int.cast_ne_zero.mpr (ne_of_gt h))))
        else some 0
      totalCredits := totalCredits }

/-- The object `{ rank, totalStudents }`; the rank `null` is `none`. -/
structure RankInfo where
  rank : Option ℕ
  totalStudents : ℕ
  deriving DecidableEq, Repr

/-- The function `ResultsManager.getStudentRank`. -/
def getStudentRank (st : Store) (studentId courseId : String) : RankInfo :=
  let results := getCourseResults st courseId
  let sorted := arraySort (fun a b => b.totalMarks - a.totalMarks) results
  let studentIndex := findIndex (fun r => r.studentId == studentId) sorted
  { rank := match studentIndex with
      | some i => some (i + 1)
      | none => none
    totalStudents := results.length }

/-- The function `ResultsManager.deleteResult`: the store after the call and the object
returned. -/
def deleteResult (env : Env) (st : Store) (courseId studentId : String) : Store × Outcome :=
  let results := st.results.getD []
  let filteredResults :=
    results.filter (fun r => !(r.courseId == courseId && r.studentId == studentId))
  let st' := (StorageManager.set env st (fun s => { s with results := some filteredResults })).1
  (st', { success := true, message := "Result deleted successfully" })

/-- The function `ResultsManager.getPercentage`. -/
def getPercentage (totalMarks : ℚ) : ℤ :=
  mathRound (jsMul (jsDiv totalMarks MAX_MARKS.total (by simp [MAX_MARKS])) 100)

end ResultsManager

/-- The branch that the click handler `saveResult` of `teacher-results.js` takes on the
object `ResultsManager.saveResult` returned: the text of the toast it shows. -/
def saveResultToast (result : ResultsManager.SaveOutcome) : String :=
  if result.success then "Result saved successfully!" else "Failed to save result"

/-! ## Attendance: bulk marking, course summary, recent activity -/

namespace AttendanceManager

/-- An element `{ studentId, status }` of the argument of `markBulkAttendance`. -/
structure BulkEntry where
  studentId : String
  status : String
  deriving DecidableEq, Repr

/-- The `forEach` of `markBulkAttendance`: the store and `successCount` after the entries.
The call for the entry at index `i` runs in the environment `env i`. -/
def markBulkAttendanceLoop (env : ℕ → Env) (st : Store) (courseId date : String)
    (attendanceData : List BulkEntry) : Store × ℕ :=
  attendanceData.enum.foldl
    (fun (acc : Store × ℕ) data =>
      let result := markAttendance (env data.1) acc.1 courseId data.2.studentId date data.2.status
      (result.1, if result.2.success then acc.2 + 1 else acc.2))
    (st, 0)

/-- The function `AttendanceManager.markBulkAttendance`. -/
def markBulkAttendance (env : ℕ → Env) (st : Store) (courseId date : String)
    (attendanceData : List BulkEntry) : Store × Outcome :=
  let loop := markBulkAttendanceLoop env st courseId date attendanceData
  (loop.1, { success := true
             message := "Attendance marked for " ++ toString loop.2 ++ " students" })

/-- An element of `studentSummaries`: `{ studentId, studentName, ...stats }`. -/
structure StudentSummary extends AttendanceStats where
  studentId : String
  studentName : String
  deriving DecidableEq, Repr

/-- The object `getCourseAttendanceSummary` returns. -/
structure CourseAttendanceSummary where
  courseId : String
  courseName : String
  totalClasses : ℕ
  totalStudents : ℕ
  averageAttendance : ℤ
  studentSummaries : List StudentSummary
  deriving DecidableEq, Repr

/-- The function `AttendanceManager.getCourseAttendanceSummary`. -/
def getCourseAttendanceSummary (st : Store) (courseId : String) : CourseAttendanceSummary :=
  let attendance := st.attendance.getD []
  let students := st.students.getD []
  let courses := st.courses.getD []
  let course := courses.find? (fun c => c.id == courseId)
  let enrolledStudents := students.filter (fun s => s.enrolledCourses.contains courseId)
  let courseAttendance := attendance.filter (fun a => a.courseId == courseId)
  let uniqueDates := uniqueValues (courseAttendance.map (fun a => a.date))
  let studentSummaries : List StudentSummary := enrolledStudents.map (fun student =>
    let stats := calculateAttendancePercentage st student.id courseId
    { toAttendanceStats := stats, studentId := student.id, studentName := student.name })
  let totalClasses := uniqueDates.length
  let avgAttendance : ℤ :=
    if h : studentSummaries.length > 0 then
      mathRound (jsDiv ((studentSummaries.foldl (fun sum s => sum + s.percentage) 0 : ℤ) : ℚ)
        (studentSummaries.length : ℚ) (Nat.cast_ne_zero.mpr (Nat.pos_iff_ne_zero.mp h)))
    else 0
  { courseId := courseId
    courseName := match course with
      | some c => c.name
      | none => "Unknown"
    totalClasses := totalClasses
    totalStudents := enrolledStudents.length
    averageAttendance := avgAttendance
    studentSummaries := studentSummaries }

/-- The function `AttendanceManager.getCourseAttendance`. -/
def getCourseAttendance (st : Store) (courseId : String) : List AttendanceRecord :=
  (st.attendance.getD []).filter (fun a => a.courseId == courseId)

/-- The comparator `(a, b) => new Date(b.markedAt) - new Date(a.markedAt)` as `sort` reads
it. The time value of a timestamp, a number of milliseconds, is given by `dateValue`, which
is `none` for a string that does not parse (an invalid date, whose time value is NaN); a
difference that is NaN counts as 0 in the sort. -/
def compareRecent (dateValue : String → Option ℤ) (a b : AttendanceRecord) : ℤ :=
  match dateValue b.markedAt, dateValue a.markedAt with
  | some x, some y => x - y
  | _, _ => 0

/-- The function `AttendanceManager.getRecentActivity`. -/
def getRecentActivity (dateValue : String → Option ℤ) (st : Store) (limit : ℕ := 10) :
    List AttendanceRecord :=
  let attendance := st.attendance.getD []
  (arraySort (compareRecent dateValue) attendance).take limit

end AttendanceManager

/-- The spec of `markBulkAttendance`: `markAttendance` applied for each entry in list order,
the call for the entry at index `i` in the environment `env i`. -/
def markEach (env : ℕ → Env) (courseId date : String) :
    ℕ → List AttendanceManager.BulkEntry → Store → Store
  | _, [], st => st
  | i, e :: es, st =>
    markEach env courseId date (i + 1) es
      (AttendanceManager.markAttendance (env i) st courseId e.studentId date e.status).1

/-! ## Sample inputs -/

/-- A clock reading and a write that succeeds. -/
def sampleEnv : Env := { now := "2024-11-05T10:00:00.000Z", writeOk := true }

/-- A later clock reading and a write that succeeds. -/
def sampleEnvLater : Env := { now := "2024-11-05T10:05:00.000Z", writeOk := true }

/-- The marks of the scenario of the specification: 18, 17, 42, 85 and 28. -/
def sampleMarks : ResultsManager.Marks :=
  { quiz1 := some 18, quiz2 := some 17, midterm := some 42, final := some 85,
    assignment := some 28 }

/-- Forty class dates. -/
def sampleDates : List String :=
  ["2024-09-02", "2024-09-03", "2024-09-04", "2024-09-05", "2024-09-06",
   "2024-09-09", "2024-09-10", "2024-09-11", "2024-09-12", "2024-09-13",
   "2024-09-16", "2024-09-17", "2024-09-18", "2024-09-19", "2024-09-20",
   "2024-09-23", "2024-09-24", "2024-09-25", "2024-09-26", "2024-09-27",
   "2024-09-30", "2024-10-01", "2024-10-02", "2024-10-03", "2024-10-04",
   "2024-10-07", "2024-10-08", "2024-10-09", "2024-10-10", "2024-10-11",
   "2024-10-14", "2024-10-15", "2024-10-16", "2024-10-17", "2024-10-18",
   "2024-10-21", "2024-10-22", "2024-10-23", "2024-10-24", "2024-10-25"]

/-- An attendance record of the student `student001` in the course `CS101`. -/
def sampleAttendanceRecord (status date : String) : AttendanceRecord :=
  { id := "CS101_student001_" ++ date, courseId := "CS101", studentId := "student001",
    date := date, status := status, markedBy := "teacher001",
    markedAt := "2024-11-05T10:00:00.000Z" }

/-- Forty attendance records of one student in one course, on forty dates: present on the
first 23 dates, absent on the other 17. -/
def sampleAttendance : List AttendanceRecord :=
  (sampleDates.take 23).map (sampleAttendanceRecord "present") ++
    (sampleDates.drop 23).map (sampleAttendanceRecord "absent")

/-- The first seeded student of `StorageManager.getDefaultStudents`. -/
def sampleStudent : Student :=
  { id := "student001", name := "John Smith", email := "john.smith@university.edu",
    department := "Computer Science", semester := 5,
    enrolledCourses := ["CS101", "CS201", "CS301"], status := "Enrolled",
    enrollmentDate := "2022-09-01" }

/-- A store that holds the forty sample attendance records and the sample student. -/
def sampleStore : Store :=
  { students := some [sampleStudent], attendance := some sampleAttendance }

/-- The records of an attendance collection with the key `(courseId, studentId, date)`. -/
def attendanceFor (att : List AttendanceRecord) (courseId studentId date : String) :
    List AttendanceRecord :=
  att.filter (fun a => a.courseId == courseId && a.studentId == studentId && a.date == date)

/-- A course with the given identifier and credits. -/
def sampleCourse (id : String) (credits : Option ℤ) : Course :=
  { id := id, name := "Course " ++ id, code := id, credits := credits, teacherId := "teacher001",
    teacherName := "Dr. Sarah Johnson", department := "Computer Science",
    semester := "Fall 2024", totalClasses := 30 }

/-- A result record with the given key, total and grade. -/
def sampleResult (courseId studentId : String) (totalMarks : ℤ) (grade : String) :
    ResultRecord :=
  { id := courseId ++ "_" ++ studentId, courseId := courseId, studentId := studentId,
    quiz1 := 0, quiz2 := 0, midterm := 0, final := 0, assignment := 0,
    totalMarks := totalMarks, grade := grade, updatedAt := none }

/-- Four courses of 3 credits and the results of one student in them: three `A` and one
`C+`. -/
def gpaStore : Store :=
  { courses := some [sampleCourse "CS101" (some 3), sampleCourse "CS301" (some 3),
      sampleCourse "CS401" (some 3), sampleCourse "CS501" (some 3)],
    results := some [sampleResult "CS101" "student001" 190 "A",
      sampleResult "CS301" "student001" 188 "A", sampleResult "CS401" "student001" 187 "A",
      sampleResult "CS501" "student001" 135 "C+"] }

/-- A store whose only result of the student refers to a course that does not exist. -/
def danglingStore : Store :=
  { courses := some [sampleCourse "CS101" (some 3)],
    results := some [sampleResult "CS999" "student001" 190 "A"] }

/-- A store with three results in the course `CS101`, two of them with the same total, and
one result in another course. -/
def rankStore : Store :=
  { results := some [sampleResult "CS101" "student001" 150 "B-",
      sampleResult "CS101" "student002" 190 "A", sampleResult "CS101" "student003" 150 "B-",
      sampleResult "CS201" "student001" 200 "A+"] }

/-- Forty student identifiers. -/
def sampleStudentIds : List String :=
  ["student001", "student002", "student003", "student004", "student005",
   "student006", "student007", "student008", "student009", "student010",
   "student011", "student012", "student013", "student014", "student015",
   "student016", "student017", "student018", "student019", "student020",
   "student021", "student022", "student023", "student024", "student025",
   "student026", "student027", "student028", "student029", "student030",
   "student031", "student032", "student033", "student034", "student035",
   "student036", "student037", "student038", "student039", "student040"]

/-- Forty results in the course `CS101`, of forty students: the first 23 passed with the
grade `B-`, the other 17 failed with the grade `F`. -/
def passStore : Store :=
  { results := some ((sampleStudentIds.take 23).map (fun s => sampleResult "CS101" s 150 "B-") ++
      (sampleStudentIds.drop 23).map (fun s => sampleResult "CS101" s 80 "F")) }

/-- The lower bound of the band of a grade, read in the table of the specification. -/
def bandLowerBound (g : String) : ℚ := (gradeBands.lookup g).getD 0

/-- A clock reading and a write that fails. -/
def failingEnv : Env := { now := "2024-11-05T10:00:00.000Z", writeOk := false }

/-- An attendance record of the course `CS101` on 4 November 2024. -/
def frameRecord (studentId status : String) : AttendanceRecord :=
  { id := "CS101_" ++ studentId ++ "_2024-11-04", courseId := "CS101", studentId := studentId,
    date := "2024-11-04", status := status, markedBy := "teacher001",
    markedAt := "2024-11-04T09:00:00.000Z" }

/-- A store that holds three attendance records, the second and third with the same
triple. -/
def frameStore : Store :=
  { attendance := some [frameRecord "student002" "present", frameRecord "student001" "absent",
      frameRecord "student001" "present"] }

/-- The time values of two timestamps; every other string does not parse as a date. -/
def sampleDateValue (s : String) : Option ℤ :=
  if s = "2024-11-05T10:00:00.000Z" then some 1730800800000
  else if s = "2024-11-05T11:00:00.000Z" then some 1730804400000
  else none

/-- An attendance record of the course `CS101` on 5 November 2024 with the given
`markedAt`. -/
def recentRecord (studentId markedAt : String) : AttendanceRecord :=
  { id := "CS101_" ++ studentId ++ "_2024-11-05", courseId := "CS101", studentId := studentId,
    date := "2024-11-05", status := "present", markedBy := "teacher001", markedAt := markedAt }

/-- Three records: marked at 10:00, with a `markedAt` that is not a date, marked at 11:00. -/
def recentStore : Store :=
  { attendance := some [recentRecord "student001" "2024-11-05T10:00:00.000Z",
      recentRecord "student002" "not a date",
      recentRecord "student003" "2024-11-05T11:00:00.000Z"] }

/-- Three records whose `markedAt` all parse: marked at 10:00, at 11:00 and at 10:00. -/
def recentValidStore : Store :=
  { attendance := some [recentRecord "student001" "2024-11-05T10:00:00.000Z",
      recentRecord "student002" "2024-11-05T11:00:00.000Z",
      recentRecord "student003" "2024-11-05T10:00:00.000Z"] }

/-- A store whose only result has the grade `constructor`, the name of a property that every
object inherits, in an existing course of 3 credits. -/
def inheritedGradeStore : Store :=
  { courses := some [sampleCourse "CS101" (some 3)],
    results := some [sampleResult "CS101" "student001" 190 "constructor"] }

/-- Two existing courses of 3 and 4 credits and the results of one student in them: an `A`
and a grade that names no property. -/
def unknownGradeStore : Store :=
  { courses := some [sampleCourse "CS101" (some 3), sampleCourse "CS201" (some 4)],
    results := some [sampleResult "CS101" "student001" 190 "A",
      sampleResult "CS201" "student001" 120 "E"] }

/-- A store that holds two attendance records with different triples. -/
def markedStore : Store :=
  { attendance := some [frameRecord "student002" "present", frameRecord "student001" "absent"] }

/-! ## Rounding lemmas -/

theorem floor_le_roundHalfEven (q : ℚ) : ⌊q⌋ ≤ roundHalfEven q := by
  unfold roundHalfEven
  split_ifs <;> omega

theorem roundHalfEven_le_floor_succ (q : ℚ) : roundHalfEven q ≤ ⌊q⌋ + 1 := by
  unfold roundHalfEven
  split_ifs <;> omega

theorem roundHalfEven_intCast (n : ℤ) : roundHalfEven (n : ℚ) = n := by
  simp [roundHalfEven]

theorem roundHalfEven_mono {a b : ℚ} (h : a ≤ b) : roundHalfEven a ≤ roundHalfEven b := by
  rcases (Int.floor_mono h).lt_or_eq with hlt | heq
  · calc roundHalfEven a ≤ ⌊a⌋ + 1 := roundHalfEven_le_floor_succ a
      _ ≤ ⌊b⌋ := hlt
      _ ≤ roundHalfEven b := floor_le_roundHalfEven b
  · unfold roundHalfEven
    rw [heq]
    split_ifs <;> first | omega | (exfalso; linarith)

theorem roundHalfEven_eq_of_near {q : ℚ} {m : ℤ} (h1 : (m : ℚ) - 1 / 2 < q)
    (h2 : q < (m : ℚ) + 1 / 2) : roundHalfEven q = m := by
  have hlo : m - 1 ≤ ⌊q⌋ := by
    apply Int.le_floor.mpr
    push_cast
    linarith
  have hhi : ⌊q⌋ < m + 1 := by
    apply Int.floor_lt.mpr
    push_cast
    linarith
  have hf : ⌊q⌋ = m ∨ ⌊q⌋ = m - 1 := by omega
  unfold roundHalfEven
  rcases hf with hf | hf
  · rw [hf]
    have h3 : q - (m : ℚ) < 1 / 2 := by linarith
    rw [if_pos h3]
  · rw [hf]
    push_cast
    have h3 : ¬ (q - ((m : ℚ) - 1) < 1 / 2) := by
      intro h
      linarith
    have h4 : 1 / 2 < q - ((m : ℚ) - 1) := by linarith
    rw [if_neg h3, if_pos h4]
    ring

/-! ## Binary64 rounding lemmas -/

theorem two_zpow_log_le {x : ℚ} (hx : 0 < x) : (2 : ℚ) ^ Int.log 2 x ≤ x := by
  have h := Int.zpow_log_le_self (b := 2) (by norm_num) hx
  simpa using h

theorem lt_two_zpow_log_succ (x : ℚ) : x < (2 : ℚ) ^ (Int.log 2 x + 1) := by
  have h := Int.lt_zpow_succ_log_self (b := 2) (by norm_num) x
  simpa using h

theorem log_two_eq {x : ℚ} {e : ℤ} (h1 : (2 : ℚ) ^ e ≤ x) (h2 : x < (2 : ℚ) ^ (e + 1)) :
    Int.log 2 x = e := by
  have hx : 0 < x := lt_of_lt_of_le (by positivity) h1
  have h3 : e ≤ Int.log 2 x := by
    apply (Int.zpow_le_iff_le_log (b := 2) (by norm_num) hx).mp
    simpa using h1
  have h4 : Int.log 2 x < e + 1 := by
    apply (Int.lt_zpow_iff_log_lt (b := 2) (by norm_num) hx).mp
    simpa using h2
  omega

theorem ulp_pos (x : ℚ) : 0 < ulp x := by
  unfold ulp
  positivity

theorem two_zpow_mul_ulp (x : ℚ) (k : ℤ) :
    (2 : ℚ) ^ k * ulp x = (2 : ℚ) ^ (k + Int.log 2 x - 52) := by
  unfold ulp
  rw [← zpow_add₀ (by norm_num : (2 : ℚ) ≠ 0)]
  congr 1
  ring

theorem flMag_zero : flMag 0 = 0 := by
  simp [flMag, roundHalfEven]

theorem flMag_nonneg {x : ℚ} (hx : 0 ≤ x) : 0 ≤ flMag x := by
  unfold flMag
  have h1 : (0 : ℚ) ≤ x / ulp x := div_nonneg hx (ulp_pos x).le
  have h2 : roundHalfEven ((0 : ℤ) : ℚ) ≤ roundHalfEven (x / ulp x) :=
    roundHalfEven_mono (by simpa using h1)
  rw [roundHalfEven_intCast] at h2
  have h3 : (0 : ℚ) ≤ (roundHalfEven (x / ulp x) : ℚ) := by exact_mod_cast h2
  exact mul_nonneg h3 (ulp_pos x).le

theorem two_zpow_52_mul_ulp (x : ℚ) : (2 : ℚ) ^ (52 : ℤ) * ulp x = (2 : ℚ) ^ Int.log 2 x := by
  rw [two_zpow_mul_ulp]
  congr 1
  ring

theorem two_zpow_53_mul_ulp (x : ℚ) :
    (2 : ℚ) ^ (53 : ℤ) * ulp x = (2 : ℚ) ^ (Int.log 2 x + 1) := by
  rw [two_zpow_mul_ulp]
  congr 1
  ring

theorem le_flMag {x : ℚ} (hx : 0 < x) : (2 : ℚ) ^ Int.log 2 x ≤ flMag x := by
  have hu := ulp_pos x
  have hc : (((2 : ℤ) ^ 52 : ℤ) : ℚ) = (2 : ℚ) ^ (52 : ℤ) := by norm_num
  have h1 : (((2 : ℤ) ^ 52 : ℤ) : ℚ) ≤ x / ulp x := by
    rw [le_div_iff₀ hu, hc, two_zpow_52_mul_ulp]
    exact two_zpow_log_le hx
  have h2 := roundHalfEven_mono h1
  rw [roundHalfEven_intCast] at h2
  have h3 : (2 : ℚ) ^ (52 : ℤ) ≤ (roundHalfEven (x / ulp x) : ℚ) := by
    rw [← hc]
    exact_mod_cast h2
  calc (2 : ℚ) ^ Int.log 2 x = (2 : ℚ) ^ (52 : ℤ) * ulp x := (two_zpow_52_mul_ulp x).symm
    _ ≤ flMag x := mul_le_mul_of_nonneg_right h3 hu.le

theorem flMag_le (x : ℚ) : flMag x ≤ (2 : ℚ) ^ (Int.log 2 x + 1) := by
  have hu := ulp_pos x
  have hc : (((2 : ℤ) ^ 53 : ℤ) : ℚ) = (2 : ℚ) ^ (53 : ℤ) := by norm_num
  have h1 : x / ulp x ≤ (((2 : ℤ) ^ 53 : ℤ) : ℚ) := by
    rw [div_le_iff₀ hu, hc, two_zpow_53_mul_ulp]
    exact (lt_two_zpow_log_succ x).le
  have h2 := roundHalfEven_mono h1
  rw [roundHalfEven_intCast] at h2
  have h3 : (roundHalfEven (x / ulp x) : ℚ) ≤ (2 : ℚ) ^ (53 : ℤ) := by
    rw [← hc]
    exact_mod_cast h2
  calc flMag x ≤ (2 : ℚ) ^ (53 : ℤ) * ulp x := mul_le_mul_of_nonneg_right h3 hu.le
    _ = (2 : ℚ) ^ (Int.log 2 x + 1) := two_zpow_53_mul_ulp x

theorem flMag_mono {x y : ℚ} (hx : 0 < x) (hxy : x ≤ y) : flMag x ≤ flMag y := by
  have hy : 0 < y := lt_of_lt_of_le hx hxy
  rcases (Int.log_mono_right (b := 2) hx hxy).lt_or_eq with hlt | heq
  · calc flMag x ≤ (2 : ℚ) ^ (Int.log 2 x + 1) := flMag_le x
      _ ≤ (2 : ℚ) ^ Int.log 2 y := zpow_le_zpow_right₀ (by norm_num) (by omega)
      _ ≤ flMag y := le_flMag hy
  · have hu : ulp x = ulp y := by
      unfold ulp
      rw [heq]
    unfold flMag
    rw [hu]
    have h1 : x / ulp y ≤ y / ulp y := div_le_div_of_nonneg_right hxy (ulp_pos y).le
    have h2 : (roundHalfEven (x / ulp y) : ℚ) ≤ (roundHalfEven (y / ulp y) : ℚ) := by
      exact_mod_cast roundHalfEven_mono h1
    exact mul_le_mul_of_nonneg_right h2 (ulp_pos y).le

theorem fl_nonneg {x : ℚ} (hx : 0 ≤ x) : 0 ≤ fl x := by
  unfold fl
  rw [if_pos hx]
  exact flMag_nonneg hx

theorem fl_nonpos {x : ℚ} (hx : x ≤ 0) : fl x ≤ 0 := by
  unfold fl
  split_ifs with h
  · have : x = 0 := le_antisymm hx h
    rw [this, flMag_zero]
  · have := flMag_nonneg (x := -x) (by linarith)
    linarith

theorem fl_mono {x y : ℚ} (hxy : x ≤ y) : fl x ≤ fl y := by
  rcases le_or_lt x 0 with hx | hx
  · rcases le_or_lt 0 y with hy | hy
    · exact le_trans (fl_nonpos hx) (fl_nonneg hy)
    · have hx' : ¬ (0 ≤ x) := by linarith
      have hy' : ¬ (0 ≤ y) := by linarith
      unfold fl
      rw [if_neg hx', if_neg hy']
      have := flMag_mono (x := -y) (y := -x) (by linarith) (by linarith)
      linarith
  · have hy : 0 < y := lt_of_lt_of_le hx hxy
    unfold fl
    rw [if_pos hx.le, if_pos hy.le]
    exact flMag_mono hx hxy

/-- Evaluation of `fl` at a positive argument: the binade `e` and the rounded
significand `m` are checked by inequalities. -/
theorem fl_eq_of_bounds {x : ℚ} (e m : ℤ) (h1 : (2 : ℚ) ^ e ≤ x) (h2 : x < (2 : ℚ) ^ (e + 1))
    (h3 : (m : ℚ) - 1 / 2 < x / (2 : ℚ) ^ (e - 52))
    (h4 : x / (2 : ℚ) ^ (e - 52) < (m : ℚ) + 1 / 2) :
    fl x = (m : ℚ) * (2 : ℚ) ^ (e - 52) := by
  have hx : 0 < x := lt_of_lt_of_le (by positivity) h1
  unfold fl
  rw [if_pos hx.le]
  unfold flMag ulp
  rw [log_two_eq h1 h2, roundHalfEven_eq_of_near h3 h4]

/-! ## Grades -/

open ResultsManager

theorem gradePercentage_eq (t : ℚ) : gradePercentage t = fl (fl (t / 220) * 100) := by
  simp [gradePercentage, jsMul, jsDiv, MAX_MARKS]

theorem gradePercentage_mono {s t : ℚ} (h : s ≤ t) : gradePercentage s ≤ gradePercentage t := by
  rw [gradePercentage_eq, gradePercentage_eq]
  apply fl_mono
  apply mul_le_mul_of_nonneg_right _ (by norm_num)
  apply fl_mono
  exact div_le_div_of_nonneg_right h (by norm_num)

/-- Evaluation of the percentage of `calculateGrade` at a positive total: the two rounded
operations are checked by inequalities. -/
theorem gradePercentage_eq_of_bounds {t : ℚ} (e1 m1 e2 m2 : ℤ)
    (h1 : (2 : ℚ) ^ e1 ≤ t / 220) (h2 : t / 220 < (2 : ℚ) ^ (e1 + 1))
    (h3 : (m1 : ℚ) - 1 / 2 < t / 220 / (2 : ℚ) ^ (e1 - 52))
    (h4 : t / 220 / (2 : ℚ) ^ (e1 - 52) < (m1 : ℚ) + 1 / 2)
    (h5 : (2 : ℚ) ^ e2 ≤ (m1 : ℚ) * (2 : ℚ) ^ (e1 - 52) * 100)
    (h6 : (m1 : ℚ) * (2 : ℚ) ^ (e1 - 52) * 100 < (2 : ℚ) ^ (e2 + 1))
    (h7 : (m2 : ℚ) - 1 / 2 < (m1 : ℚ) * (2 : ℚ) ^ (e1 - 52) * 100 / (2 : ℚ) ^ (e2 - 52))
    (h8 : (m1 : ℚ) * (2 : ℚ) ^ (e1 - 52) * 100 / (2 : ℚ) ^ (e2 - 52) < (m2 : ℚ) + 1 / 2) :
    gradePercentage t = (m2 : ℚ) * (2 : ℚ) ^ (e2 - 52) := by
  rw [gradePercentage_eq, fl_eq_of_bounds e1 m1 h1 h2 h3 h4, fl_eq_of_bounds e2 m2 h5 h6 h7 h8]

theorem le_gradePercentage_iff (b lo hi : ℚ) (k : ℤ) (hlo : gradePercentage lo < b)
    (hhi : b ≤ gradePercentage hi) (hlo_eq : lo = (k : ℚ) - 1) (hhi_eq : hi = (k : ℚ)) (t : ℤ) :
    b ≤ gradePercentage (t : ℚ) ↔ k ≤ t := by
  constructor
  · intro h
    by_contra hk
    have h1 : t ≤ k - 1 := by omega
    have h2 : (t : ℚ) ≤ lo := by
      rw [hlo_eq]
      exact_mod_cast h1
    have h3 := gradePercentage_mono h2
    linarith
  · intro h
    have h2 : hi ≤ (t : ℚ) := by
      rw [hhi_eq]
      exact_mod_cast h
    exact le_trans hhi (gradePercentage_mono h2)

theorem gradePercentage_197 :
    gradePercentage 197 = (((6301201183181731 : ℤ) : ℚ)) * (2 : ℚ) ^ ((6 : ℤ) - 52) :=
  gradePercentage_eq_of_bounds (-1) 8065537514472616 6 6301201183181731
    (by norm_num) (by norm_num) (by norm_num) (by norm_num)
    (by norm_num) (by norm_num) (by norm_num) (by norm_num)

theorem gradePercentage_198 :
    gradePercentage 198 = (((6333186975989760 : ℤ) : ℚ)) * (2 : ℚ) ^ ((6 : ℤ) - 52) :=
  gradePercentage_eq_of_bounds (-1) 8106479329266893 6 6333186975989760
    (by norm_num) (by norm_num) (by norm_num) (by norm_num)
    (by norm_num) (by norm_num) (by norm_num) (by norm_num)

theorem le_gradePercentage_A_PLUS_iff (t : ℤ) :
    GRADE_BOUNDARIES.A_PLUS ≤ gradePercentage (t : ℚ) ↔ 198 ≤ t :=
  le_gradePercentage_iff GRADE_BOUNDARIES.A_PLUS 197 198 198
    (by rw [gradePercentage_197]; norm_num [GRADE_BOUNDARIES])
    (by rw [gradePercentage_198]; norm_num [GRADE_BOUNDARIES])
    (by norm_num) (by norm_num) t

theorem gradePercentage_186 :
    gradePercentage 186 = (((5949357462293411 : ℤ) : ℚ)) * (2 : ℚ) ^ ((6 : ℤ) - 52) :=
  gradePercentage_eq_of_bounds (-1) 7615177551735566 6 5949357462293411
    (by norm_num) (by norm_num) (by norm_num) (by norm_num)
    (by norm_num) (by norm_num) (by norm_num) (by norm_num)

theorem gradePercentage_187 :
    gradePercentage 187 = (((5981343255101440 : ℤ) : ℚ)) * (2 : ℚ) ^ ((6 : ℤ) - 52) :=
  gradePercentage_eq_of_bounds (-1) 7656119366529843 6 5981343255101440
    (by norm_num) (by norm_num) (by norm_num) (by norm_num)
    (by norm_num) (by norm_num) (by norm_num) (by norm_num)

theorem le_gradePercentage_A_iff (t : ℤ) :
    GRADE_BOUNDARIES.A ≤ gradePercentage (t : ℚ) ↔ 187 ≤ t :=
  le_gradePercentage_iff GRADE_BOUNDARIES.A 186 187 187
    (by rw [gradePercentage_186]; norm_num [GRADE_BOUNDARIES])
    (by rw [gradePercentage_187]; norm_num [GRADE_BOUNDARIES])
    (by norm_num) (by norm_num) t

theorem gradePercentage_175 :
    gradePercentage 175 = (((5597513741405091 : ℤ) : ℚ)) * (2 : ℚ) ^ ((6 : ℤ) - 52) :=
  gradePercentage_eq_of_bounds (-1) 7164817588998516 6 5597513741405091
    (by norm_num) (by norm_num) (by norm_num) (by norm_num)
    (by norm_num) (by norm_num) (by norm_num) (by norm_num)

theorem gradePercentage_176 :
    gradePercentage 176 = (((5629499534213120 : ℤ) : ℚ)) * (2 : ℚ) ^ ((6 : ℤ) - 52) :=
  gradePercentage_eq_of_bounds (-1) 7205759403792794 6 5629499534213120
    (by norm_num) (by norm_num) (by norm_num) (by norm_num)
    (by norm_num) (by norm_num) (by norm_num) (by norm_num)

theorem le_gradePercentage_A_MINUS_iff (t : ℤ) :
    GRADE_BOUNDARIES.A_MINUS ≤ gradePercentage (t : ℚ) ↔ 176 ≤ t :=
  le_gradePercentage_iff GRADE_BOUNDARIES.A_MINUS 175 176 176
    (by rw [gradePercentage_175]; norm_num [GRADE_BOUNDARIES])
    (by rw [gradePercentage_176]; norm_num [GRADE_BOUNDARIES])
    (by norm_num) (by norm_num) t

theorem gradePercentage_164 :
    gradePercentage 164 = (((5245670020516771 : ℤ) : ℚ)) * (2 : ℚ) ^ ((6 : ℤ) - 52) :=
  gradePercentage_eq_of_bounds (-1) 6714457626261467 6 5245670020516771
    (by norm_num) (by norm_num) (by norm_num) (by norm_num)
    (by norm_num) (by norm_num) (by norm_num) (by norm_num)

theorem gradePercentage_165 :
    gradePercentage 165 = (((5277655813324800 : ℤ) : ℚ)) * (2 : ℚ) ^ ((6 : ℤ) - 52) :=
  gradePercentage_eq_of_bounds (-1) 6755399441055744 6 5277655813324800
    (by norm_num) (by norm_num) (by norm_num) (by norm_num)
    (by norm_num) (by norm_num) (by norm_num) (by norm_num)

theorem le_gradePercentage_B_PLUS_iff (t : ℤ) :
    GRADE_BOUNDARIES.B_PLUS ≤ gradePercentage (t : ℚ) ↔ 165 ≤ t :=
  le_gradePercentage_iff GRADE_BOUNDARIES.B_PLUS 164 165 165
    (by rw [gradePercentage_164]; norm_num [GRADE_BOUNDARIES])
    (by rw [gradePercentage_165]; norm_num [GRADE_BOUNDARIES])
    (by norm_num) (by norm_num) t

theorem gradePercentage_153 :
    gradePercentage 153 = (((4893826299628451 : ℤ) : ℚ)) * (2 : ℚ) ^ ((6 : ℤ) - 52) :=
  gradePercentage_eq_of_bounds (-1) 6264097663524417 6 4893826299628451
    (by norm_num) (by norm_num) (by norm_num) (by norm_num)
    (by norm_num) (by norm_num) (by norm_num) (by norm_num)

theorem gradePercentage_154 :
    gradePercentage 154 = (((4925812092436480 : ℤ) : ℚ)) * (2 : ℚ) ^ ((6 : ℤ) - 52) :=
  gradePercentage_eq_of_bounds (-1) 6305039478318694 6 4925812092436480
    (by norm_num) (by norm_num) (by norm_num) (by norm_num)
    (by norm_num) (by norm_num) (by norm_num) (by norm_num)

theorem le_gradePercentage_B_iff (t : ℤ) :
    GRADE_BOUNDARIES.B ≤ gradePercentage (t : ℚ) ↔ 154 ≤ t :=
  le_gradePercentage_iff GRADE_BOUNDARIES.B 153 154 154
    (by rw [gradePercentage_153]; norm_num [GRADE_BOUNDARIES])
    (by rw [gradePercentage_154]; norm_num [GRADE_BOUNDARIES])
    (by norm_num) (by norm_num) t

theorem gradePercentage_142 :
    gradePercentage 142 = (((4541982578740131 : ℤ) : ℚ)) * (2 : ℚ) ^ ((6 : ℤ) - 52) :=
  gradePercentage_eq_of_bounds (-1) 5813737700787368 6 4541982578740131
    (by norm_num) (by norm_num) (by norm_num) (by norm_num)
    (by norm_num) (by norm_num) (by norm_num) (by norm_num)

theorem gradePercentage_143 :
    gradePercentage 143 = (((4573968371548160 : ℤ) : ℚ)) * (2 : ℚ) ^ ((6 : ℤ) - 52) :=
  gradePercentage_eq_of_bounds (-1) 5854679515581645 6 4573968371548160
    (by norm_num) (by norm_num) (by norm_num) (by norm_num)
    (by norm_num) (by norm_num) (by norm_num) (by norm_num)

theorem le_gradePercentage_B_MINUS_iff (t : ℤ) :
    GRADE_BOUNDARIES.B_MINUS ≤ gradePercentage (t : ℚ) ↔ 143 ≤ t :=
  le_gradePercentage_iff GRADE_BOUNDARIES.B_MINUS 142 143 143
    (by rw [gradePercentage_142]; norm_num [GRADE_BOUNDARIES])
    (by rw [gradePercentage_143]; norm_num [GRADE_BOUNDARIES])
    (by norm_num) (by norm_num) t

theorem gradePercentage_131 :
    gradePercentage 131 = (((8380277715703622 : ℤ) : ℚ)) * (2 : ℚ) ^ ((5 : ℤ) - 52) :=
  gradePercentage_eq_of_bounds (-1) 5363377738050318 5 8380277715703622
    (by norm_num) (by norm_num) (by norm_num) (by norm_num)
    (by norm_num) (by norm_num) (by norm_num) (by norm_num)

theorem gradePercentage_132 :
    gradePercentage 132 = (((8444249301319680 : ℤ) : ℚ)) * (2 : ℚ) ^ ((5 : ℤ) - 52) :=
  gradePercentage_eq_of_bounds (-1) 5404319552844595 5 8444249301319680
    (by norm_num) (by norm_num) (by norm_num) (by norm_num)
    (by norm_num) (by norm_num) (by norm_num) (by norm_num)

theorem le_gradePercentage_C_PLUS_iff (t : ℤ) :
    GRADE_BOUNDARIES.C_PLUS ≤ gradePercentage (t : ℚ) ↔ 132 ≤ t :=
  le_gradePercentage_iff GRADE_BOUNDARIES.C_PLUS 131 132 132
    (by rw [gradePercentage_131]; norm_num [GRADE_BOUNDARIES])
    (by rw [gradePercentage_132]; norm_num [GRADE_BOUNDARIES])
    (by norm_num) (by norm_num) t

theorem gradePercentage_120 :
    gradePercentage 120 = (((7676590273926981 : ℤ) : ℚ)) * (2 : ℚ) ^ ((5 : ℤ) - 52) :=
  gradePercentage_eq_of_bounds (-1) 4913017775313268 5 7676590273926981
    (by norm_num) (by norm_num) (by norm_num) (by norm_num)
    (by norm_num) (by norm_num) (by norm_num) (by norm_num)

theorem gradePercentage_121 :
    gradePercentage 121 = (((7740561859543041 : ℤ) : ℚ)) * (2 : ℚ) ^ ((5 : ℤ) - 52) :=
  gradePercentage_eq_of_bounds (-1) 4953959590107546 5 7740561859543041
    (by norm_num) (by norm_num) (by norm_num) (by norm_num)
    (by norm_num) (by norm_num) (by norm_num) (by norm_num)

theorem le_gradePercentage_C_iff (t : ℤ) :
    GRADE_BOUNDARIES.C ≤ gradePercentage (t : ℚ) ↔ 121 ≤ t :=
  le_gradePercentage_iff GRADE_BOUNDARIES.C 120 121 121
    (by rw [gradePercentage_120]; norm_num [GRADE_BOUNDARIES])
    (by rw [gradePercentage_121]; norm_num [GRADE_BOUNDARIES])
    (by norm_num) (by norm_num) t

theorem gradePercentage_109 :
    gradePercentage 109 = (((6972902832150342 : ℤ) : ℚ)) * (2 : ℚ) ^ ((5 : ℤ) - 52) :=
  gradePercentage_eq_of_bounds (-2) 8925315625152438 5 6972902832150342
    (by norm_num) (by norm_num) (by norm_num) (by norm_num)
    (by norm_num) (by norm_num) (by norm_num) (by norm_num)

theorem gradePercentage_110 :
    gradePercentage 110 = (((7036874417766400 : ℤ) : ℚ)) * (2 : ℚ) ^ ((5 : ℤ) - 52) :=
  gradePercentage_eq_of_bounds (-1) 4503599627370496 5 7036874417766400
    (by norm_num) (by norm_num) (by norm_num) (by norm_num)
    (by norm_num) (by norm_num) (by norm_num) (by norm_num)

theorem le_gradePercentage_C_MINUS_iff (t : ℤ) :
    GRADE_BOUNDARIES.C_MINUS ≤ gradePercentage (t : ℚ) ↔ 110 ≤ t :=
  le_gradePercentage_iff GRADE_BOUNDARIES.C_MINUS 109 110 110
    (by rw [gradePercentage_109]; norm_num [GRADE_BOUNDARIES])
    (by rw [gradePercentage_110]; norm_num [GRADE_BOUNDARIES])
    (by norm_num) (by norm_num) t

theorem gradePercentage_98 :
    gradePercentage 98 = (((6269215390373702 : ℤ) : ℚ)) * (2 : ℚ) ^ ((5 : ℤ) - 52) :=
  gradePercentage_eq_of_bounds (-2) 8024595699678338 5 6269215390373702
    (by norm_num) (by norm_num) (by norm_num) (by norm_num)
    (by norm_num) (by norm_num) (by norm_num) (by norm_num)

theorem gradePercentage_99 :
    gradePercentage 99 = (((6333186975989760 : ℤ) : ℚ)) * (2 : ℚ) ^ ((5 : ℤ) - 52) :=
  gradePercentage_eq_of_bounds (-2) 8106479329266893 5 6333186975989760
    (by norm_num) (by norm_num) (by norm_num) (by norm_num)
    (by norm_num) (by norm_num) (by norm_num) (by norm_num)

theorem le_gradePercentage_D_iff (t : ℤ) :
    GRADE_BOUNDARIES.D ≤ gradePercentage (t : ℚ) ↔ 99 ≤ t :=
  le_gradePercentage_iff GRADE_BOUNDARIES.D 98 99 99
    (by rw [gradePercentage_98]; norm_num [GRADE_BOUNDARIES])
    (by rw [gradePercentage_99]; norm_num [GRADE_BOUNDARIES])
    (by norm_num) (by norm_num) t

theorem gradePercentage_190 :
    gradePercentage 190 = (((6077300633525527 : ℤ) : ℚ)) * (2 : ℚ) ^ ((6 : ℤ) - 52) :=
  gradePercentage_eq_of_bounds (-1) 7778944810912675 6 6077300633525527
    (by norm_num) (by norm_num) (by norm_num) (by norm_num)
    (by norm_num) (by norm_num) (by norm_num) (by norm_num)

theorem calculateGrade_intCast (t : ℤ) :
    calculateGrade (t : ℚ) =
      if 198 ≤ t then "A+" else if 187 ≤ t then "A" else if 176 ≤ t then "A-"
      else if 165 ≤ t then "B+" else if 154 ≤ t then "B" else if 143 ≤ t then "B-"
      else if 132 ≤ t then "C+" else if 121 ≤ t then "C" else if 110 ≤ t then "C-"
      else if 99 ≤ t then "D" else "F" := by
  unfold calculateGrade
  simp only [ge_iff_le, le_gradePercentage_A_PLUS_iff, le_gradePercentage_A_iff,
    le_gradePercentage_A_MINUS_iff, le_gradePercentage_B_PLUS_iff, le_gradePercentage_B_iff,
    le_gradePercentage_B_MINUS_iff, le_gradePercentage_C_PLUS_iff, le_gradePercentage_C_iff,
    le_gradePercentage_C_MINUS_iff, le_gradePercentage_D_iff]

theorem isHighestBand_of {g : String} {p : ℚ} (b : ℚ) (hm : (g, b) ∈ gradeBands) (hle : b ≤ p)
    (hlt : ∀ b' ∈ gradeBands.map Prod.snd, b < b' → p < b') : IsHighestBand g p := by
  refine ⟨b, hm, hle, ?_⟩
  intro g' b' hm' hb'
  by_contra hc
  have h1 : b' ∈ gradeBands.map Prod.snd := List.mem_map.mpr ⟨(g', b'), hm', rfl⟩
  have h2 := hlt b' h1 (lt_of_not_le hc)
  linarith

theorem isHighestBand_unique {g g' : String} {p : ℚ} (h : IsHighestBand g p)
    (h' : IsHighestBand g' p) : g = g' := by
  obtain ⟨b, hm, hle, hmax⟩ := h
  obtain ⟨b', hm', hle', hmax'⟩ := h'
  have hb : b = b' := le_antisymm (hmax' g b hm hle) (hmax g' b' hm' hle')
  subst hb
  simp only [gradeBands, List.mem_cons, Prod.mk.injEq, List.mem_singleton, List.mem_nil_iff,
    or_false] at hm hm'
  rcases hm with ⟨rfl, hb⟩ | ⟨rfl, hb⟩ | ⟨rfl, hb⟩ | ⟨rfl, hb⟩ | ⟨rfl, hb⟩ | ⟨rfl, hb⟩ |
    ⟨rfl, hb⟩ | ⟨rfl, hb⟩ | ⟨rfl, hb⟩ | ⟨rfl, hb⟩ | ⟨rfl, hb⟩ <;>
  · subst hb
    norm_num at hm'
    exact hm'.symm

theorem isHighestBand_top {g : String} {p b : ℚ} (hm : (g, b) ∈ gradeBands) (hle : b ≤ p)
    (hgap : ∀ b' ∈ gradeBands.map Prod.snd, b' ≤ b) : IsHighestBand g p :=
  isHighestBand_of b hm hle (fun b' hb' hlt => absurd (hgap b' hb') (not_le.mpr hlt))

theorem isHighestBand_between {g : String} {p : ℚ} (b up : ℚ) (hm : (g, b) ∈ gradeBands)
    (hle : b ≤ p) (hup : p < up) (hgap : ∀ b' ∈ gradeBands.map Prod.snd, b < b' → up ≤ b') :
    IsHighestBand g p :=
  isHighestBand_of b hm hle (fun b' hb' hlt => lt_of_lt_of_le hup (hgap b' hb' hlt))

theorem isHighestBand_calculateGrade {t : ℚ} (h0 : 0 ≤ gradePercentage t) :
    IsHighestBand (calculateGrade t) (gradePercentage t) := by
  unfold calculateGrade
  simp only [GRADE_BOUNDARIES, ge_iff_le]
  generalize gradePercentage t = p at h0 ⊢
  by_cases h1 : (90 : ℚ) ≤ p
  · rw [if_pos h1]
    exact isHighestBand_top (by simp [gradeBands]) h1 (by norm_num [gradeBands])
  rw [if_neg h1]
  by_cases h2 : (85 : ℚ) ≤ p
  · rw [if_pos h2]
    exact isHighestBand_between 85 90 (by simp [gradeBands]) h2 (not_le.mp h1)
      (by norm_num [gradeBands])
  rw [if_neg h2]
  by_cases h3 : (80 : ℚ) ≤ p
  · rw [if_pos h3]
    exact isHighestBand_between 80 85 (by simp [gradeBands]) h3 (not_le.mp h2)
      (by norm_num [gradeBands])
  rw [if_neg h3]
  by_cases h4 : (75 : ℚ) ≤ p
  · rw [if_pos h4]
    exact isHighestBand_between 75 80 (by simp [gradeBands]) h4 (not_le.mp h3)
      (by norm_num [gradeBands])
  rw [if_neg h4]
  by_cases h5 : (70 : ℚ) ≤ p
  · rw [if_pos h5]
    exact isHighestBand_between 70 75 (by simp [gradeBands]) h5 (not_le.mp h4)
      (by norm_num [gradeBands])
  rw [if_neg h5]
  by_cases h6 : (65 : ℚ) ≤ p
  · rw [if_pos h6]
    exact isHighestBand_between 65 70 (by simp [gradeBands]) h6 (not_le.mp h5)
      (by norm_num [gradeBands])
  rw [if_neg h6]
  by_cases h7 : (60 : ℚ) ≤ p
  · rw [if_pos h7]
    exact isHighestBand_between 60 65 (by simp [gradeBands]) h7 (not_le.mp h6)
      (by norm_num [gradeBands])
  rw [if_neg h7]
  by_cases h8 : (55 : ℚ) ≤ p
  · rw [if_pos h8]
    exact isHighestBand_between 55 60 (by simp [gradeBands]) h8 (not_le.mp h7)
      (by norm_num [gradeBands])
  rw [if_neg h8]
  by_cases h9 : (50 : ℚ) ≤ p
  · rw [if_pos h9]
    exact isHighestBand_between 50 55 (by simp [gradeBands]) h9 (not_le.mp h8)
      (by norm_num [gradeBands])
  rw [if_neg h9]
  by_cases h10 : (45 : ℚ) ≤ p
  · rw [if_pos h10]
    exact isHighestBand_between 45 50 (by simp [gradeBands]) h10 (not_le.mp h9)
      (by norm_num [gradeBands])
  rw [if_neg h10]
  exact isHighestBand_between 0 45 (by simp [gradeBands]) h0 (not_le.mp h10)
    (by norm_num [gradeBands])

theorem fl_neg_of_neg {x : ℚ} (hx : x < 0) : fl x < 0 := by
  unfold fl
  rw [if_neg (not_le.mpr hx)]
  have h1 : (0 : ℚ) < (2 : ℚ) ^ Int.log 2 (-x) := by positivity
  have h2 := le_flMag (x := -x) (by linarith)
  linarith

theorem gradePercentage_neg {t : ℚ} (ht : t < 0) : gradePercentage t < 0 := by
  rw [gradePercentage_eq]
  apply fl_neg_of_neg
  have h1 : fl (t / 220) < 0 := fl_neg_of_neg (div_neg_of_neg_of_pos ht (by norm_num))
  linarith

theorem gradePercentage_nonneg {t : ℚ} (ht : 0 ≤ t) : 0 ≤ gradePercentage t := by
  rw [gradePercentage_eq]
  apply fl_nonneg
  have h1 : 0 ≤ fl (t / 220) := fl_nonneg (div_nonneg ht (by norm_num))
  linarith

/-- On an integer total the rounded percentage of `calculateGrade` and the exact percentage
reach the same band bounds. -/
theorem le_gradePercentage_iff_exact (t : ℤ) (b : ℚ) (hb : b ∈ gradeBands.map Prod.snd) :
    b ≤ gradePercentage (t : ℚ) ↔ b ≤ (t : ℚ) / 220 * 100 := by
  have key : ∀ k : ℤ, ((k : ℚ) * 220 / 100 ≤ (t : ℚ) ↔ (k : ℚ) ≤ (t : ℚ) / 220 * 100) := by
    intro k
    constructor <;> intro h <;> linarith
  have cast : ∀ k : ℤ, (k ≤ t ↔ (k : ℚ) ≤ (t : ℚ)) := fun k => Int.cast_le.symm
  simp only [gradeBands, List.map, List.mem_cons, List.mem_singleton, List.mem_nil_iff,
    or_false] at hb
  rcases hb with rfl | rfl | rfl | rfl | rfl | rfl | rfl | rfl | rfl | rfl | rfl
  · have h := le_gradePercentage_A_PLUS_iff t
    simp only [GRADE_BOUNDARIES] at h
    rw [h, cast]
    constructor <;> intro h' <;> push_cast at h' ⊢ <;> linarith
  · have h := le_gradePercentage_A_iff t
    simp only [GRADE_BOUNDARIES] at h
    rw [h, cast]
    constructor <;> intro h' <;> push_cast at h' ⊢ <;> linarith
  · have h := le_gradePercentage_A_MINUS_iff t
    simp only [GRADE_BOUNDARIES] at h
    rw [h, cast]
    constructor <;> intro h' <;> push_cast at h' ⊢ <;> linarith
  · have h := le_gradePercentage_B_PLUS_iff t
    simp only [GRADE_BOUNDARIES] at h
    rw [h, cast]
    constructor <;> intro h' <;> push_cast at h' ⊢ <;> linarith
  · have h := le_gradePercentage_B_iff t
    simp only [GRADE_BOUNDARIES] at h
    rw [h, cast]
    constructor <;> intro h' <;> push_cast at h' ⊢ <;> linarith
  · have h := le_gradePercentage_B_MINUS_iff t
    simp only [GRADE_BOUNDARIES] at h
    rw [h, cast]
    constructor <;> intro h' <;> push_cast at h' ⊢ <;> linarith
  · have h := le_gradePercentage_C_PLUS_iff t
    simp only [GRADE_BOUNDARIES] at h
    rw [h, cast]
    constructor <;> intro h' <;> push_cast at h' ⊢ <;> linarith
  · have h := le_gradePercentage_C_iff t
    simp only [GRADE_BOUNDARIES] at h
    rw [h, cast]
    constructor <;> intro h' <;> push_cast at h' ⊢ <;> linarith
  · have h := le_gradePercentage_C_MINUS_iff t
    simp only [GRADE_BOUNDARIES] at h
    rw [h, cast]
    constructor <;> intro h' <;> push_cast at h' ⊢ <;> linarith
  · have h := le_gradePercentage_D_iff t
    simp only [GRADE_BOUNDARIES] at h
    rw [h, cast]
    constructor <;> intro h' <;> push_cast at h' ⊢ <;> linarith
  · constructor
    · intro h
      by_contra hc
      have ht : (t : ℚ) < 0 := by
        by_contra hn
        apply hc
        have : (0 : ℚ) ≤ (t : ℚ) := not_lt.mp hn
        positivity
      have := gradePercentage_neg ht
      linarith
    · intro h
      apply gradePercentage_nonneg
      linarith

theorem isHighestBand_congr {g : String} {p q : ℚ}
    (hpq : ∀ b ∈ gradeBands.map Prod.snd, b ≤ p ↔ b ≤ q) (h : IsHighestBand g p) :
    IsHighestBand g q := by
  obtain ⟨b, hm, hle, hmax⟩ := h
  have hb : b ∈ gradeBands.map Prod.snd := List.mem_map.mpr ⟨(g, b), hm, rfl⟩
  refine ⟨b, hm, (hpq b hb).mp hle, ?_⟩
  intro g' b' hm' hle'
  have hb' : b' ∈ gradeBands.map Prod.snd := List.mem_map.mpr ⟨(g', b'), hm', rfl⟩
  exact hmax g' b' hm' ((hpq b' hb').mpr hle')

theorem calculateGrade_eq_F {t : ℚ} (h : gradePercentage t < 45) : calculateGrade t = "F" := by
  unfold calculateGrade
  simp only [GRADE_BOUNDARIES, ge_iff_le]
  generalize gradePercentage t = p at h ⊢
  rw [if_neg (by linarith), if_neg (by linarith), if_neg (by linarith), if_neg (by linarith),
    if_neg (by linarith), if_neg (by linarith), if_neg (by linarith), if_neg (by linarith),
    if_neg (by linarith), if_neg (by linarith)]

theorem calculateGrade_190 : calculateGrade 190 = "A" := by
  have h := calculateGrade_intCast 190
  norm_num at h
  exact h


/-! ## Collections: replacing the first match -/

theorem set_or_append_eq_replaceFirst {α : Type} (p : α → Bool) (r : α) (xs : List α) :
    (match findIndex p xs with
      | some i => xs.set i r
      | none => xs ++ [r]) = replaceFirst p r xs := by
  induction xs with
  | nil => rfl
  | cons x xs ih =>
    by_cases hx : p x = true
    · simp [findIndex, replaceFirst, hx]
    · simp only [findIndex, replaceFirst, hx, Bool.false_eq_true, if_false]
      cases hf : findIndex p xs with
      | none =>
        rw [hf] at ih
        simp only [Option.map_none', List.cons_append]
        rw [← ih]
      | some i =>
        rw [hf] at ih
        simp only [Option.map_some', List.set_cons_succ]
        rw [← ih]

theorem find?_replaceFirst {α : Type} (p : α → Bool) (r : α) (hr : p r = true) (xs : List α) :
    (replaceFirst p r xs).find? p = some r := by
  induction xs with
  | nil => simp [replaceFirst, hr]
  | cons x xs ih =>
    by_cases hx : p x = true
    · simp [replaceFirst, hx, hr]
    · simp [replaceFirst, hx, ih]

theorem filter_replaceFirst_of_disjoint {α : Type} (p q : α → Bool) (r : α)
    (hpq : ∀ x, p x = true → q x = false) (hr : q r = false) (xs : List α) :
    (replaceFirst p r xs).filter q = xs.filter q := by
  induction xs with
  | nil => simp [replaceFirst, hr]
  | cons x xs ih =>
    by_cases hx : p x = true
    · simp [replaceFirst, hx, hr, hpq x hx]
    · simp only [replaceFirst, hx, Bool.false_eq_true, if_false, List.filter_cons, ih]

theorem filter_replaceFirst_self {α : Type} (p : α → Bool) (r : α) (hr : p r = true)
    (xs : List α) (hu : (xs.filter p).length ≤ 1) : (replaceFirst p r xs).filter p = [r] := by
  induction xs with
  | nil => simp [replaceFirst, hr]
  | cons x xs ih =>
    by_cases hx : p x = true
    · have h0 : xs.filter p = [] := by
        simp only [List.filter_cons, hx, if_true, List.length_cons] at hu
        exact List.length_eq_zero.mp (by omega)
      simp [replaceFirst, hx, hr, h0]
    · have h1 : (xs.filter p).length ≤ 1 := by
        simpa [List.filter_cons, hx] using hu
      simp [replaceFirst, hx, ih h1]

theorem length_replaceFirst_of_mem {α : Type} (p : α → Bool) (r : α) (xs : List α) {y : α}
    (hy : y ∈ xs) (hp : p y = true) : (replaceFirst p r xs).length = xs.length := by
  induction xs with
  | nil => simp at hy
  | cons x xs ih =>
    by_cases hx : p x = true
    · simp [replaceFirst, hx]
    · have hy' : y ∈ xs := by
        rcases List.mem_cons.mp hy with h | h
        · rw [h] at hp
          exact absurd hp hx
        · exact h
      simp [replaceFirst, hx, ih hy']

theorem length_replaceFirst_of_not_mem {α : Type} (p : α → Bool) (r : α) (xs : List α)
    (hn : ∀ y ∈ xs, p y = false) : (replaceFirst p r xs).length = xs.length + 1 := by
  induction xs with
  | nil => simp [replaceFirst]
  | cons x xs ih =>
    have hx : p x = false := hn x (List.mem_cons_self x xs)
    have hn' : ∀ y ∈ xs, p y = false := fun y hy => hn y (List.mem_cons_of_mem x hy)
    simp [replaceFirst, hx, ih hn']

theorem mem_replaceFirst_self {α : Type} (p : α → Bool) (r : α) (xs : List α) :
    r ∈ replaceFirst p r xs := by
  induction xs with
  | nil => simp [replaceFirst]
  | cons x xs ih =>
    by_cases hx : p x = true
    · simp [replaceFirst, hx]
    · simp [replaceFirst, hx, ih]

/-! ## Results: saving -/

theorem saveResult_results (env : Env) (st : Store) (c s : String) (m : Marks)
    (hw : env.writeOk = true) :
    (saveResult env st c s m).1.results =
      some (replaceFirst (fun r => r.courseId == c && r.studentId == s)
        (saveResult env st c s m).2.result (st.results.getD [])) := by
  simp only [saveResult, StorageManager.set, hw, if_true]
  rw [set_or_append_eq_replaceFirst]

theorem saveResult_result (env : Env) (st : Store) (c s : String) (m : Marks) :
    (saveResult env st c s m).2.result =
      { id := c ++ "_" ++ s, courseId := c, studentId := s, quiz1 := orZero m.quiz1,
        quiz2 := orZero m.quiz2, midterm := orZero m.midterm, final := orZero m.final,
        assignment := orZero m.assignment, totalMarks := calculateTotal m,
        grade := calculateGrade (calculateTotal m), updatedAt := some env.now } := rfl

/-! ## Attendance: marking -/

open AttendanceManager

/-- The record `markAttendance` builds. -/
theorem markAttendance_attendance (env : Env) (st : Store) (c s d status : String)
    (hw : env.writeOk = true) :
    (markAttendance env st c s d status).1.attendance =
      some (replaceFirst (fun a => a.courseId == c && a.studentId == s && a.date == d)
        { id := c ++ "_" ++ s ++ "_" ++ d, courseId := c, studentId := s, date := d,
          status := status,
          markedBy := match st.currentUser with
            | some u => u.userId
            | none => "system",
          markedAt := env.now } (st.attendance.getD [])) := by
  simp only [markAttendance, StorageManager.set, hw, if_true]
  rw [set_or_append_eq_replaceFirst]

theorem markAttendance_currentUser (env : Env) (st : Store) (c s d status : String) :
    (markAttendance env st c s d status).1.currentUser = st.currentUser := by
  simp only [markAttendance, StorageManager.set]
  split_ifs <;> rfl

theorem attendanceFor_markAttendance_self (env : Env) (st : Store) (c s d status : String)
    (hw : env.writeOk = true)
    (hu : (attendanceFor (st.attendance.getD []) c s d).length ≤ 1) :
    attendanceFor ((markAttendance env st c s d status).1.attendance.getD []) c s d =
      [{ id := c ++ "_" ++ s ++ "_" ++ d, courseId := c, studentId := s, date := d,
         status := status,
         markedBy := match st.currentUser with
            | some u => u.userId
            | none => "system",
         markedAt := env.now }] := by
  rw [markAttendance_attendance env st c s d status hw, Option.getD_some]
  unfold attendanceFor
  apply filter_replaceFirst_self
  · simp
  · exact hu

theorem attendanceFor_markAttendance_other (env : Env) (st : Store) (c s d status : String)
    (hw : env.writeOk = true) (c' s' d' : String) (hne : ¬ (c' = c ∧ s' = s ∧ d' = d)) :
    attendanceFor ((markAttendance env st c s d status).1.attendance.getD []) c' s' d' =
      attendanceFor (st.attendance.getD []) c' s' d' := by
  rw [markAttendance_attendance env st c s d status hw, Option.getD_some]
  unfold attendanceFor
  apply filter_replaceFirst_of_disjoint
  · intro x hx
    simp only [Bool.and_eq_true, beq_iff_eq] at hx
    simp only [Bool.and_eq_false_iff, beq_eq_false_iff_ne, ne_eq, hx.1.1, hx.1.2, hx.2]
    by_contra hc
    push_neg at hc
    exact hne ⟨hc.1.1.symm, hc.1.2.symm, hc.2.symm⟩
  · simp only [Bool.and_eq_false_iff, beq_eq_false_iff_ne, ne_eq]
    by_contra hc
    push_neg at hc
    exact hne ⟨hc.1.1.symm, hc.1.2.symm, hc.2.symm⟩

/-! ## Attendance: statistics -/

theorem statsOf_nil : statsOf [] = { total := 0, present := 0, absent := 0, percentage := 0 } := by
  simp [statsOf]

theorem statsOf_total (records : List AttendanceRecord) :
    (statsOf records).total = records.length := by
  unfold statsOf
  split_ifs with h
  · exact h.symm
  · rfl

theorem statsOf_of_ne_nil (records : List AttendanceRecord) (h : records.length ≠ 0) :
    statsOf records =
      { total := records.length
        present := (records.filter (fun r => r.status == "present")).length
        absent := (records.filter (fun r => r.status == "absent")).length
        percentage := mathRound (fl (fl
          (((records.filter (fun r => r.status == "present")).length : ℚ) /
            (records.length : ℚ)) * 100)) } := by
  unfold statsOf
  rw [dif_neg h]
  rfl

/-- The percentage the code computes for 23 records `present` out of 40: the quotient
`23 / 40` rounds to a binary64 value below 0.575, the product with 100 to a value below 57.5,
and `Math.round` gives 57. -/
theorem percentage_23_of_40 : mathRound (fl (fl ((23 : ℚ) / 40) * 100)) = 57 := by
  have h1 : fl ((23 : ℚ) / 40) = ((5179139571476070 : ℤ) : ℚ) * (2 : ℚ) ^ ((-1 : ℤ) - 52) :=
    fl_eq_of_bounds (-1) 5179139571476070 (by norm_num) (by norm_num) (by norm_num)
      (by norm_num)
  have h2 : fl (((5179139571476070 : ℤ) : ℚ) * (2 : ℚ) ^ ((-1 : ℤ) - 52) * 100) =
      ((8092405580431359 : ℤ) : ℚ) * (2 : ℚ) ^ ((5 : ℤ) - 52) :=
    fl_eq_of_bounds 5 8092405580431359 (by norm_num) (by norm_num) (by norm_num)
      (by norm_num)
  rw [h1, h2]
  unfold mathRound
  rw [Int.floor_eq_iff]
  constructor <;> norm_num

theorem getStudentsAtRisk_foldl (st : Store) (threshold : ℚ) (students : List Student)
    (acc : List AtRiskStudent) :
    students.foldl
      (fun (acc : List AtRiskStudent) student =>
        if (getOverallAttendance st student.id).total > 0 ∧
            ((getOverallAttendance st student.id).percentage : ℚ) < threshold then
          acc ++ [{ toStudent := student,
                    attendancePercentage := (getOverallAttendance st student.id).percentage }]
        else acc) acc =
    acc ++ (students.filter (fun s => decide ((getOverallAttendance st s.id).total > 0 ∧
        ((getOverallAttendance st s.id).percentage : ℚ) < threshold))).map
      (fun s => { toStudent := s,
                  attendancePercentage := (getOverallAttendance st s.id).percentage }) := by
  induction students generalizing acc with
  | nil => simp
  | cons x xs ih =>
    rw [List.foldl_cons, ih]
    by_cases hx : (getOverallAttendance st x.id).total > 0 ∧
        ((getOverallAttendance st x.id).percentage : ℚ) < threshold
    · simp [hx]
    · simp [hx]

theorem getStudentsAtRisk_perm (st : Store) (threshold : ℚ) :
    List.Perm (getStudentsAtRisk st threshold)
      (((st.students.getD []).filter (fun s => decide ((getOverallAttendance st s.id).total > 0 ∧
          ((getOverallAttendance st s.id).percentage : ℚ) < threshold))).map
        (fun s => { toStudent := s,
                    attendancePercentage := (getOverallAttendance st s.id).percentage })) := by
  unfold getStudentsAtRisk arraySort
  simp only []
  rw [getStudentsAtRisk_foldl]
  simpa using List.perm_insertionSort _ _

/-- Claim C1: `calculateGrade(totalMarks)` returns the grade of the highest band of the table
whose lower bound is at most the percentage `totalMarks / 220 * 100`, and `F` when no bound
of 45 or more is reached. This holds of the percentage as the code computes it, for every
total, and of the exact percentage for every integer total; the total 190 (86.36 percent)
gives the grade `A`. -/
theorem calculateGrade_highest_band (totalMarks : ℚ) :
    (0 ≤ gradePercentage totalMarks →
      IsHighestBand (calculateGrade totalMarks) (gradePercentage totalMarks)) ∧
    (∀ g, IsHighestBand g (gradePercentage totalMarks) → calculateGrade totalMarks = g) ∧
    ((∀ g b, (g, b) ∈ gradeBands → 45 ≤ b → gradePercentage totalMarks < b) →
      calculateGrade totalMarks = "F") ∧
    (∀ n : ℤ, totalMarks = (n : ℚ) →
      (0 ≤ n → IsHighestBand (calculateGrade totalMarks) (totalMarks / 220 * 100)) ∧
      (∀ g, IsHighestBand g (totalMarks / 220 * 100) → calculateGrade totalMarks = g) ∧
      ((∀ g b, (g, b) ∈ gradeBands → 45 ≤ b → totalMarks / 220 * 100 < b) →
        calculateGrade totalMarks = "F")) ∧
    calculateGrade 190 = "A" ∧
    (8636 : ℚ) / 100 < gradePercentage 190 ∧ gradePercentage 190 < (8637 : ℚ) / 100 := by
  have hF : (∀ g b, (g, b) ∈ gradeBands → 45 ≤ b → gradePercentage totalMarks < b) →
      calculateGrade totalMarks = "F" := fun h =>
    calculateGrade_eq_F (h "D" 45 (by simp [gradeBands]) le_rfl)
  have hU : ∀ g, IsHighestBand g (gradePercentage totalMarks) → calculateGrade totalMarks = g := by
    intro g hg
    have h0 : 0 ≤ gradePercentage totalMarks := by
      obtain ⟨b, hm, hle, -⟩ := hg
      have hb : (0 : ℚ) ≤ b := by
        simp only [gradeBands, List.mem_cons, Prod.mk.injEq, List.mem_singleton,
          List.mem_nil_iff, or_false] at hm
        rcases hm with ⟨-, rfl⟩ | ⟨-, rfl⟩ | ⟨-, rfl⟩ | ⟨-, rfl⟩ | ⟨-, rfl⟩ | ⟨-, rfl⟩ |
          ⟨-, rfl⟩ | ⟨-, rfl⟩ | ⟨-, rfl⟩ | ⟨-, rfl⟩ | ⟨-, rfl⟩ <;> norm_num
      linarith
    exact isHighestBand_unique (isHighestBand_calculateGrade h0) hg
  refine ⟨isHighestBand_calculateGrade, hU, hF, ?_, calculateGrade_190, ?_, ?_⟩
  · intro n hn
    subst hn
    have hiff := le_gradePercentage_iff_exact n
    refine ⟨?_, ?_, ?_⟩
    · intro h0
      have h1 : (0 : ℚ) ≤ (n : ℚ) := by exact_mod_cast h0
      exact isHighestBand_congr hiff (isHighestBand_calculateGrade (gradePercentage_nonneg h1))
    · intro g hg
      exact hU g (isHighestBand_congr (fun b hb => (hiff b hb).symm) hg)
    · intro h
      apply calculateGrade_eq_F
      have h45 := h "D" 45 (by simp [gradeBands]) le_rfl
      have := (hiff 45 (by simp [gradeBands])).not
      exact not_le.mp (this.mpr (not_le.mpr h45))
  · rw [gradePercentage_190]
    norm_num
  · rw [gradePercentage_190]
    norm_num

theorem calculateGrade_highest_band_witness :
    IsHighestBand (ResultsManager.calculateGrade 190) (ResultsManager.gradePercentage 190) :=
  (calculateGrade_highest_band 190).1 (gradePercentage_nonneg (by norm_num))

theorem calculateGrade_cases (t : ℤ) :
    (calculateGrade (t : ℚ) = "A+" ∧ 198 ≤ t) ∨
    (calculateGrade (t : ℚ) = "A" ∧ 187 ≤ t ∧ t ≤ 197) ∨
    (calculateGrade (t : ℚ) = "A-" ∧ 176 ≤ t ∧ t ≤ 186) ∨
    (calculateGrade (t : ℚ) = "B+" ∧ 165 ≤ t ∧ t ≤ 175) ∨
    (calculateGrade (t : ℚ) = "B" ∧ 154 ≤ t ∧ t ≤ 164) ∨
    (calculateGrade (t : ℚ) = "B-" ∧ 143 ≤ t ∧ t ≤ 153) ∨
    (calculateGrade (t : ℚ) = "C+" ∧ 132 ≤ t ∧ t ≤ 142) ∨
    (calculateGrade (t : ℚ) = "C" ∧ 121 ≤ t ∧ t ≤ 131) ∨
    (calculateGrade (t : ℚ) = "C-" ∧ 110 ≤ t ∧ t ≤ 120) ∨
    (calculateGrade (t : ℚ) = "D" ∧ 99 ≤ t ∧ t ≤ 109) ∨
    (calculateGrade (t : ℚ) = "F" ∧ t ≤ 98) := by
  rw [calculateGrade_intCast]
  by_cases h1 : 198 ≤ t
  · rw [if_pos h1]
    refine Or.inl ⟨rfl, by omega⟩
  rw [if_neg h1]
  by_cases h2 : 187 ≤ t
  · rw [if_pos h2]
    refine Or.inr (Or.inl ⟨rfl, by omega⟩)
  rw [if_neg h2]
  by_cases h3 : 176 ≤ t
  · rw [if_pos h3]
    refine Or.inr (Or.inr (Or.inl ⟨rfl, by omega⟩))
  rw [if_neg h3]
  by_cases h4 : 165 ≤ t
  · rw [if_pos h4]
    refine Or.inr (Or.inr (Or.inr (Or.inl ⟨rfl, by omega⟩)))
  rw [if_neg h4]
  by_cases h5 : 154 ≤ t
  · rw [if_pos h5]
    refine Or.inr (Or.inr (Or.inr (Or.inr (Or.inl ⟨rfl, by omega⟩))))
  rw [if_neg h5]
  by_cases h6 : 143 ≤ t
  · rw [if_pos h6]
    refine Or.inr (Or.inr (Or.inr (Or.inr (Or.inr (Or.inl ⟨rfl, by omega⟩)))))
  rw [if_neg h6]
  by_cases h7 : 132 ≤ t
  · rw [if_pos h7]
    refine Or.inr (Or.inr (Or.inr (Or.inr (Or.inr (Or.inr (Or.inl ⟨rfl, by omega⟩))))))
  rw [if_neg h7]
  by_cases h8 : 121 ≤ t
  · rw [if_pos h8]
    refine Or.inr (Or.inr (Or.inr (Or.inr (Or.inr (Or.inr (Or.inr (Or.inl ⟨rfl, by omega⟩)))))))
  rw [if_neg h8]
  by_cases h9 : 110 ≤ t
  · rw [if_pos h9]
    refine Or.inr (Or.inr (Or.inr (Or.inr (Or.inr (Or.inr (Or.inr (Or.inr (Or.inl ⟨rfl, by omega⟩))))))))
  rw [if_neg h9]
  by_cases h10 : 99 ≤ t
  · rw [if_pos h10]
    refine Or.inr (Or.inr (Or.inr (Or.inr (Or.inr (Or.inr (Or.inr (Or.inr (Or.inr (Or.inl ⟨rfl, by omega⟩)))))))))
  rw [if_neg h10]
  refine Or.inr (Or.inr (Or.inr (Or.inr (Or.inr (Or.inr (Or.inr (Or.inr (Or.inr (Or.inr ⟨rfl, by omega⟩)))))))))

/-- Claim C2: the grade boundaries are exact on integer totals. For every integer
`totalMarks`, `calculateGrade` returns `A+` iff the total is at least 198, `A` iff it is in
187..197, and so on down to `F` iff it is at most 98; in particular 198 gives `A+`, 197 gives
`A` and 0 gives `F`. -/
theorem calculateGrade_boundaries_exact (totalMarks : ℤ) :
    (calculateGrade (totalMarks : ℚ) = "A+" ↔ 198 ≤ totalMarks) ∧
    (calculateGrade (totalMarks : ℚ) = "A" ↔ 187 ≤ totalMarks ∧ totalMarks ≤ 197) ∧
    (calculateGrade (totalMarks : ℚ) = "A-" ↔ 176 ≤ totalMarks ∧ totalMarks ≤ 186) ∧
    (calculateGrade (totalMarks : ℚ) = "B+" ↔ 165 ≤ totalMarks ∧ totalMarks ≤ 175) ∧
    (calculateGrade (totalMarks : ℚ) = "B" ↔ 154 ≤ totalMarks ∧ totalMarks ≤ 164) ∧
    (calculateGrade (totalMarks : ℚ) = "B-" ↔ 143 ≤ totalMarks ∧ totalMarks ≤ 153) ∧
    (calculateGrade (totalMarks : ℚ) = "C+" ↔ 132 ≤ totalMarks ∧ totalMarks ≤ 142) ∧
    (calculateGrade (totalMarks : ℚ) = "C" ↔ 121 ≤ totalMarks ∧ totalMarks ≤ 131) ∧
    (calculateGrade (totalMarks : ℚ) = "C-" ↔ 110 ≤ totalMarks ∧ totalMarks ≤ 120) ∧
    (calculateGrade (totalMarks : ℚ) = "D" ↔ 99 ≤ totalMarks ∧ totalMarks ≤ 109) ∧
    (calculateGrade (totalMarks : ℚ) = "F" ↔ totalMarks ≤ 98) ∧
    calculateGrade 198 = "A+" ∧ calculateGrade 197 = "A" ∧ calculateGrade 0 = "F" := by
  have e198 := calculateGrade_intCast 198
  have e197 := calculateGrade_intCast 197
  have e0 := calculateGrade_intCast 0
  norm_num at e198 e197 e0
  refine ⟨?_, ?_, ?_, ?_, ?_, ?_, ?_, ?_, ?_, ?_, ?_, e198, e197, e0⟩ <;>
  · rcases calculateGrade_cases totalMarks with ⟨hg, hr⟩ | ⟨hg, hr⟩ | ⟨hg, hr⟩ | ⟨hg, hr⟩ |
      ⟨hg, hr⟩ | ⟨hg, hr⟩ | ⟨hg, hr⟩ | ⟨hg, hr⟩ | ⟨hg, hr⟩ | ⟨hg, hr⟩ | ⟨hg, hr⟩ <;>
    · rw [hg]
      constructor
      · intro h
        first | omega | exact absurd h (by decide)
      · intro h
        first | (exfalso; omega) | rfl

/-- Claim C4, amended: round trip. When the write of `saveResult(c, s, m)` persists, the following
`getStudentCourseResult(s, c)` returns a record, not null: the record `saveResult` built,
whose `totalMarks` is `calculateTotal(m)` and whose `grade` is
`calculateGrade(calculateTotal(m))`, whatever the results collection held before. -/
theorem saveResult_getStudentCourseResult (env : Env) (st : Store) (c s : String) (m : Marks)
    (hw : env.writeOk = true) :
    ∃ r, getStudentCourseResult (saveResult env st c s m).1 s c = some r ∧
      r = (saveResult env st c s m).2.result ∧
      r.totalMarks = calculateTotal m ∧
      r.grade = calculateGrade (calculateTotal m) := by
  refine ⟨(saveResult env st c s m).2.result, ?_, rfl, rfl, rfl⟩
  unfold getStudentCourseResult
  rw [saveResult_results env st c s m hw, Option.getD_some]
  have hp : (fun r : ResultRecord => r.studentId == s && r.courseId == c) =
      (fun r : ResultRecord => r.courseId == c && r.studentId == s) := by
    funext r
    exact Bool.and_comm _ _
  rw [hp]
  apply find?_replaceFirst
  simp [saveResult_result]

theorem saveResult_getStudentCourseResult_witness :
    ∃ r, getStudentCourseResult (saveResult sampleEnv rankStore "CS101" "student002"
        sampleMarks).1 "student002" "CS101" = some r ∧
      r = (saveResult sampleEnv rankStore "CS101" "student002" sampleMarks).2.result ∧
      r.totalMarks = calculateTotal sampleMarks ∧
      r.grade = calculateGrade (calculateTotal sampleMarks) :=
  saveResult_getStudentCourseResult sampleEnv rankStore "CS101" "student002" sampleMarks rfl

/-- Claim C5, amended: `saveResult` preserves the uniqueness of the key `(courseId, studentId)`, the
last write winning. If the results collection holds at most one record per pair and the
write persists, then afterwards it still holds at most one record per pair, exactly one
record for `(c, s)`, which carries the new marks, and the records of every other pair are
unchanged. -/
theorem saveResult_preserves_unique (env : Env) (st : Store) (c s : String) (m : Marks)
    (hw : env.writeOk = true)
    (hu : ∀ c' s', (resultsFor (st.results.getD []) c' s').length ≤ 1) :
    (∀ c' s', (resultsFor ((saveResult env st c s m).1.results.getD []) c' s').length ≤ 1) ∧
    (∃ r, resultsFor ((saveResult env st c s m).1.results.getD []) c s = [r] ∧
      r.quiz1 = m.quiz1.getD 0 ∧ r.quiz2 = m.quiz2.getD 0 ∧ r.midterm = m.midterm.getD 0 ∧
      r.final = m.final.getD 0 ∧ r.assignment = m.assignment.getD 0 ∧
      r.totalMarks = calculateTotal m ∧ r.grade = calculateGrade (calculateTotal m)) ∧
    (∀ c' s', ¬ (c' = c ∧ s' = s) →
      resultsFor ((saveResult env st c s m).1.results.getD []) c' s' =
        resultsFor (st.results.getD []) c' s') := by
  have hself : resultsFor ((saveResult env st c s m).1.results.getD []) c s =
      [(saveResult env st c s m).2.result] := by
    rw [saveResult_results env st c s m hw, Option.getD_some]
    unfold resultsFor
    apply filter_replaceFirst_self
    · simp [saveResult_result]
    · exact hu c s
  have hother : ∀ c' s', ¬ (c' = c ∧ s' = s) →
      resultsFor ((saveResult env st c s m).1.results.getD []) c' s' =
        resultsFor (st.results.getD []) c' s' := by
    intro c' s' hne
    rw [saveResult_results env st c s m hw, Option.getD_some]
    unfold resultsFor
    apply filter_replaceFirst_of_disjoint
    · intro x hx
      simp only [Bool.and_eq_true, beq_iff_eq] at hx
      simp only [Bool.and_eq_false_iff, beq_eq_false_iff_ne, ne_eq, hx.1, hx.2]
      by_contra hc
      push_neg at hc
      exact hne ⟨hc.1.symm, hc.2.symm⟩
    · simp only [saveResult_result, Bool.and_eq_false_iff, beq_eq_false_iff_ne, ne_eq]
      by_contra hc
      push_neg at hc
      exact hne ⟨hc.1.symm, hc.2.symm⟩
  refine ⟨?_, ⟨_, hself, rfl, rfl, rfl, rfl, rfl, rfl, rfl⟩, hother⟩
  intro c' s'
  by_cases hk : c' = c ∧ s' = s
  · rw [hk.1, hk.2, hself]
    simp
  · rw [hother c' s' hk]
    exact hu c' s'

/-- Claim C6, amended: `markAttendance` is idempotent up to the timestamp. When the collection holds
at most one record for the triple `(c, s, d)` and both writes persist, two calls
`markAttendance(c, s, d, st)` with identical arguments leave exactly one stored record for
the triple, the collection has the same length as after the first call, and the
`markedAt` of that record is the timestamp of the second call. -/
theorem markAttendance_twice (env1 env2 : Env) (st : Store) (c s d status : String)
    (hw1 : env1.writeOk = true) (hw2 : env2.writeOk = true)
    (hu : (attendanceFor (st.attendance.getD []) c s d).length ≤ 1) :
    (∃ r, attendanceFor
        ((markAttendance env2 (markAttendance env1 st c s d status).1 c s d
          status).1.attendance.getD []) c s d = [r] ∧
      r.markedAt = env2.now ∧ r.status = status) ∧
    ((markAttendance env2 (markAttendance env1 st c s d status).1 c s d
        status).1.attendance.getD []).length =
      ((markAttendance env1 st c s d status).1.attendance.getD []).length := by
  have h1 := attendanceFor_markAttendance_self env1 st c s d status hw1 hu
  have hu1 : (attendanceFor ((markAttendance env1 st c s d status).1.attendance.getD [])
      c s d).length ≤ 1 := by
    rw [h1]
    simp
  have h2 := attendanceFor_markAttendance_self env2 (markAttendance env1 st c s d status).1
    c s d status hw2 hu1
  refine ⟨⟨_, h2, rfl, rfl⟩, ?_⟩
  rw [markAttendance_attendance env2 _ c s d status hw2, Option.getD_some]
  rw [markAttendance_attendance env1 st c s d status hw1, Option.getD_some]
  apply length_replaceFirst_of_mem _ _ _ (mem_replaceFirst_self _ _ _)
  simp

/-- Claim C7, amended: `markAttendance` preserves the uniqueness of the key
`(courseId, studentId, date)`. If the attendance collection holds at most one record per
triple and the write persists, then afterwards it still holds at most one record per
triple, and exactly one record for `(c, s, d)`, whose status is the status written: a
prior record with that triple is replaced, not duplicated. -/
theorem markAttendance_preserves_unique (env : Env) (st : Store) (c s d status : String)
    (hw : env.writeOk = true)
    (hu : ∀ c' s' d', (attendanceFor (st.attendance.getD []) c' s' d').length ≤ 1) :
    (∀ c' s' d', (attendanceFor ((markAttendance env st c s d status).1.attendance.getD [])
      c' s' d').length ≤ 1) ∧
    (∃ r, attendanceFor ((markAttendance env st c s d status).1.attendance.getD []) c s d = [r] ∧
      r.status = status) ∧
    ((markAttendance env st c s d status).1.attendance.getD []).length =
      (st.attendance.getD []).length + (1 - (attendanceFor (st.attendance.getD []) c s d).length) := by
  have hself := attendanceFor_markAttendance_self env st c s d status hw (hu c s d)
  refine ⟨?_, ⟨_, hself, rfl⟩, ?_⟩
  · intro c' s' d'
    by_cases hk : c' = c ∧ s' = s ∧ d' = d
    · rw [hk.1, hk.2.1, hk.2.2, hself]
      simp
    · rw [attendanceFor_markAttendance_other env st c s d status hw c' s' d' hk]
      exact hu c' s' d'
  · rw [markAttendance_attendance env st c s d status hw, Option.getD_some]
    have hl := hu c s d
    unfold attendanceFor at hl ⊢
    rcases Nat.eq_zero_or_pos
      ((st.attendance.getD []).filter
        (fun a => a.courseId == c && a.studentId == s && a.date == d)).length with h0 | hpos
    · rw [h0]
      apply length_replaceFirst_of_not_mem
      intro y hy
      by_contra hc
      have hmem : y ∈ (st.attendance.getD []).filter
          (fun a => a.courseId == c && a.studentId == s && a.date == d) :=
        List.mem_filter.mpr ⟨hy, by simpa [and_assoc] using hc⟩
      rw [List.length_eq_zero.mp h0] at hmem
      simp at hmem
    · have h1 : ((st.attendance.getD []).filter
          (fun a => a.courseId == c && a.studentId == s && a.date == d)).length = 1 := by omega
      rw [h1]
      obtain ⟨y, hy⟩ := List.exists_mem_of_length_pos hpos
      have hy' := List.mem_filter.mp hy
      exact length_replaceFirst_of_mem _ _ _ hy'.1 hy'.2

/-- Claim C8: when the student has no matching attendance records (so `total` is 0),
`calculateAttendancePercentage(studentId, courseId)` and `getOverallAttendance(studentId)`
both return `{total: 0, present: 0, absent: 0, percentage: 0}`. The guard returns before the
quotient is formed: in the embedding the division is only typed with a proof that the
number of records is not zero. -/
theorem attendance_stats_of_no_records (st : Store) (studentId courseId : String) :
    (getStudentCourseAttendance st studentId courseId = [] →
      calculateAttendancePercentage st studentId courseId =
        { total := 0, present := 0, absent := 0, percentage := 0 }) ∧
    (getStudentAttendance st studentId = [] →
      getOverallAttendance st studentId =
        { total := 0, present := 0, absent := 0, percentage := 0 }) ∧
    ((calculateAttendancePercentage st studentId courseId).total = 0 →
      calculateAttendancePercentage st studentId courseId =
        { total := 0, present := 0, absent := 0, percentage := 0 }) ∧
    ((getOverallAttendance st studentId).total = 0 →
      getOverallAttendance st studentId =
        { total := 0, present := 0, absent := 0, percentage := 0 }) := by
  refine ⟨?_, ?_, ?_, ?_⟩
  · intro h
    unfold calculateAttendancePercentage
    rw [h, statsOf_nil]
  · intro h
    unfold getOverallAttendance
    rw [h, statsOf_nil]
  · intro h
    unfold calculateAttendancePercentage at h ⊢
    rw [statsOf_total] at h
    rw [List.length_eq_zero.mp h, statsOf_nil]
  · intro h
    unfold getOverallAttendance at h ⊢
    rw [statsOf_total] at h
    rw [List.length_eq_zero.mp h, statsOf_nil]

theorem attendance_stats_of_no_records_witness :
    calculateAttendancePercentage sampleStore "student002" "CS101" =
        { total := 0, present := 0, absent := 0, percentage := 0 } ∧
    getOverallAttendance sampleStore "student002" =
        { total := 0, present := 0, absent := 0, percentage := 0 } :=
  ⟨(attendance_stats_of_no_records sampleStore "student002" "CS101").1 (by decide),
   (attendance_stats_of_no_records sampleStore "student002" "CS101").2.1 (by decide)⟩

/-- Claim C9, evaluated where the code departs from it: for a student with 40 records in a
course, 23 of them `present` and 17 `absent`, `calculateAttendancePercentage` and
`getOverallAttendance` return the counts 40, 23 and 17 and the percentage 57, while
`23 / 40 * 100` is 57.5 and rounds to 58 with halves away from zero. -/
theorem attendance_percentage_23_of_40 :
    calculateAttendancePercentage sampleStore "student001" "CS101" =
      { total := 40, present := 23, absent := 17, percentage := 57 } ∧
    getOverallAttendance sampleStore "student001" =
      { total := 40, present := 23, absent := 17, percentage := 57 } ∧
    (23 : ℚ) / 40 * 100 = 575 / 10 ∧ round ((23 : ℚ) / 40 * 100) = 58 := by
  have hc : getStudentCourseAttendance sampleStore "student001" "CS101" = sampleAttendance := by
    decide
  have ho : getStudentAttendance sampleStore "student001" = sampleAttendance := by decide
  have hlen : sampleAttendance.length = 40 := by decide
  have hp : (sampleAttendance.filter (fun r => r.status == "present")).length = 23 := by decide
  have ha : (sampleAttendance.filter (fun r => r.status == "absent")).length = 17 := by decide
  have hs : statsOf sampleAttendance =
      { total := 40, present := 23, absent := 17, percentage := 57 } := by
    rw [statsOf_of_ne_nil sampleAttendance (by rw [hlen]; decide), hp, ha, hlen]
    have h := percentage_23_of_40
    simp only [Nat.cast_ofNat]
    rw [h]
  refine ⟨?_, ?_, by norm_num, ?_⟩
  · unfold calculateAttendancePercentage
    rw [hc, hs]
  · unfold getOverallAttendance
    rw [ho, hs]
  · rw [round_eq, Int.floor_eq_iff]
    constructor <;> norm_num

/-- Claim C10: `getStudentsAtRisk(threshold)` returns exactly the students of the students
collection whose overall attendance has `total > 0` and `percentage < threshold`, each once
(the result is a permutation of that selection), each carrying its student fields and
`attendancePercentage` equal to `getOverallAttendance(student.id).percentage`; a student
with zero attendance records is never included, whatever the threshold. -/
theorem getStudentsAtRisk_exact (st : Store) (threshold : ℚ) :
    List.Perm (getStudentsAtRisk st threshold)
      (((st.students.getD []).filter (fun s => decide ((getOverallAttendance st s.id).total > 0 ∧
          ((getOverallAttendance st s.id).percentage : ℚ) < threshold))).map
        (fun s => { toStudent := s,
                    attendancePercentage := (getOverallAttendance st s.id).percentage })) ∧
    (∀ r, r ∈ getStudentsAtRisk st threshold ↔
      r.toStudent ∈ st.students.getD [] ∧
      (getOverallAttendance st r.id).total > 0 ∧
      ((getOverallAttendance st r.id).percentage : ℚ) < threshold ∧
      r.attendancePercentage = (getOverallAttendance st r.id).percentage) ∧
    (∀ r ∈ getStudentsAtRisk st threshold, getStudentAttendance st r.id ≠ []) ∧
    (∀ s ∈ st.students.getD [], getStudentAttendance st s.id = [] →
      ∀ r ∈ getStudentsAtRisk st threshold, r.toStudent ≠ s) := by
  have hperm := getStudentsAtRisk_perm st threshold
  have hmem : ∀ r, r ∈ getStudentsAtRisk st threshold ↔
      r.toStudent ∈ st.students.getD [] ∧
      (getOverallAttendance st r.id).total > 0 ∧
      ((getOverallAttendance st r.id).percentage : ℚ) < threshold ∧
      r.attendancePercentage = (getOverallAttendance st r.id).percentage := by
    intro r
    rw [hperm.mem_iff, List.mem_map]
    constructor
    · rintro ⟨s, hs, rfl⟩
      rw [List.mem_filter] at hs
      have h2 := of_decide_eq_true hs.2
      exact ⟨hs.1, h2.1, h2.2, rfl⟩
    · rintro ⟨h1, h2, h3, h4⟩
      refine ⟨r.toStudent, List.mem_filter.mpr ⟨h1, decide_eq_true ⟨h2, h3⟩⟩, ?_⟩
      cases r
      simp only at h4
      simp [h4]
  have hrec : ∀ r ∈ getStudentsAtRisk st threshold, getStudentAttendance st r.id ≠ [] := by
    intro r hr hnil
    have h := ((hmem r).mp hr).2.1
    unfold getOverallAttendance at h
    rw [statsOf_total, hnil] at h
    simp at h
  refine ⟨hperm, hmem, hrec, ?_⟩
  intro s _ hnil r hr heq
  apply hrec r hr
  have : r.id = s.id := by rw [← heq]
  rw [this]
  exact hnil

/-! ## Sorting -/

theorem arraySort_perm {α : Type} (cmp : α → α → ℤ) (xs : List α) :
    List.Perm (arraySort cmp xs) xs :=
  List.perm_insertionSort _ _

theorem arraySort_length {α : Type} (cmp : α → α → ℤ) (xs : List α) :
    (arraySort cmp xs).length = xs.length :=
  (arraySort_perm cmp xs).length_eq

theorem arraySort_pairwise {α : Type} (cmp : α → α → ℤ) (key : α → ℤ)
    (h : ∀ a b, cmp a b ≤ 0 ↔ key a ≤ key b) (xs : List α) :
    (arraySort cmp xs).Pairwise (fun a b => key a ≤ key b) := by
  haveI : IsTotal α (fun a b => cmp a b ≤ 0) :=
    ⟨fun a b => by
      simp only [h]
      exact le_total _ _⟩
  haveI : IsTrans α (fun a b => cmp a b ≤ 0) :=
    ⟨fun a b c hab hbc => by
      simp only [h] at hab hbc ⊢
      exact le_trans hab hbc⟩
  have hs := List.sorted_insertionSort (fun a b => cmp a b ≤ 0) xs
  exact List.Pairwise.imp (fun hab => (h _ _).mp hab) hs

theorem filter_orderedInsert_key {α : Type} (cmp : α → α → ℤ) (key : α → ℤ)
    (h : ∀ a b, cmp a b ≤ 0 ↔ key a ≤ key b) (k : ℤ) (a : α) (l : List α) :
    (List.orderedInsert (fun a b => cmp a b ≤ 0) a l).filter (fun x => key x == k) =
      (a :: l).filter (fun x => key x == k) := by
  induction l with
  | nil => simp
  | cons b l ih =>
    by_cases hab : cmp a b ≤ 0
    · simp [List.orderedInsert, hab]
    · have hlt : key b < key a := by
        rw [h] at hab
        exact not_le.mp hab
      simp only [List.orderedInsert, hab, if_false]
      rw [List.filter_cons, ih]
      by_cases ha : key a = k
      · have hb : ¬ key b = k := by omega
        simp [List.filter_cons, ha, hb]
      · simp [List.filter_cons, ha]

/-- Stability of `arraySort`: the elements with one value of the sort key keep their
order. -/
theorem arraySort_filter_key {α : Type} (cmp : α → α → ℤ) (key : α → ℤ)
    (h : ∀ a b, cmp a b ≤ 0 ↔ key a ≤ key b) (k : ℤ) (xs : List α) :
    (arraySort cmp xs).filter (fun x => key x == k) = xs.filter (fun x => key x == k) := by
  unfold arraySort
  induction xs with
  | nil => simp
  | cons a l ih =>
    rw [List.insertionSort, filter_orderedInsert_key cmp key h, List.filter_cons, ih,
      List.filter_cons]

/-- Claim C11: for every students and attendance collection and every threshold, the list
`getStudentsAtRisk(threshold)` returns is sorted ascending by `attendancePercentage`, and
the students with one same percentage keep the relative order they have in the students
collection. -/
theorem getStudentsAtRisk_sorted_stable (st : Store) (threshold : ℚ) :
    (getStudentsAtRisk st threshold).Pairwise
      (fun a b => a.attendancePercentage ≤ b.attendancePercentage) ∧
    (∀ k : ℤ,
      ((getStudentsAtRisk st threshold).filter (fun r => r.attendancePercentage == k)).map
          (fun r => r.toStudent) =
        (st.students.getD []).filter (fun s =>
          decide ((getOverallAttendance st s.id).total > 0 ∧
            ((getOverallAttendance st s.id).percentage : ℚ) < threshold) &&
          (getOverallAttendance st s.id).percentage == k)) := by
  have hcmp : ∀ a b : AtRiskStudent,
      a.attendancePercentage - b.attendancePercentage ≤ 0 ↔
        a.attendancePercentage ≤ b.attendancePercentage := fun a b => by omega
  constructor
  · unfold getStudentsAtRisk
    exact arraySort_pairwise _ _ hcmp _
  · intro k
    unfold getStudentsAtRisk
    simp only []
    rw [arraySort_filter_key
        (fun a b : AtRiskStudent => a.attendancePercentage - b.attendancePercentage)
        (fun r : AtRiskStudent => r.attendancePercentage) hcmp k,
      getStudentsAtRisk_foldl, List.nil_append, List.filter_map, List.map_map,
      List.filter_filter]
    have hid : ((fun r : AtRiskStudent => r.toStudent) ∘
        fun s => ({ toStudent := s,
                    attendancePercentage := (getOverallAttendance st s.id).percentage } :
                  AtRiskStudent)) = id := rfl
    rw [hid, List.map_id]
    apply List.filter_congr
    intro s _
    simp [Bool.and_comm]

/-! ## Binary64: values that are represented exactly -/

theorem fl_eq_self_of_int {x : ℚ} (hx : 0 ≤ x) (z : ℤ) (hz : x / ulp x = (z : ℚ)) : fl x = x := by
  unfold fl
  rw [if_pos hx]
  unfold flMag
  rw [hz, roundHalfEven_intCast, ← hz]
  exact div_mul_cancel₀ x (ulp_pos x).ne'

theorem fl_natCast_div_two_pow (n j : ℕ) (hn : n < 2 ^ 53) :
    fl ((n : ℚ) / (2 : ℚ) ^ j) = (n : ℚ) / (2 : ℚ) ^ j := by
  rcases Nat.eq_zero_or_pos n with h0 | hpos
  · subst h0
    simp [fl, flMag_zero]
  have hx : (0 : ℚ) < (n : ℚ) / (2 : ℚ) ^ j := by positivity
  have h1 := two_zpow_log_le hx
  have h2 : (n : ℚ) / (2 : ℚ) ^ j < (2 : ℚ) ^ ((53 : ℤ) - j) := by
    rw [zpow_sub₀ (by norm_num : (2 : ℚ) ≠ 0), zpow_natCast]
    apply div_lt_div_of_pos_right _ (by positivity)
    exact_mod_cast hn
  have h3 : Int.log 2 ((n : ℚ) / (2 : ℚ) ^ j) < (53 : ℤ) - j := by
    have := lt_of_le_of_lt h1 h2
    exact (zpow_lt_zpow_iff_right₀ (by norm_num : (1 : ℚ) < 2)).mp this
  obtain ⟨k, hk⟩ : ∃ k : ℕ, (k : ℤ) = 52 - Int.log 2 ((n : ℚ) / (2 : ℚ) ^ j) - j :=
    ⟨(52 - Int.log 2 ((n : ℚ) / (2 : ℚ) ^ j) - j).toNat, Int.toNat_of_nonneg (by omega)⟩
  apply fl_eq_self_of_int hx.le ((n : ℤ) * 2 ^ k)
  unfold ulp
  push_cast
  rw [← zpow_natCast (2 : ℚ) k, hk, div_div, ← zpow_natCast (2 : ℚ) j, ← zpow_add₀ (by norm_num : (2 : ℚ) ≠ 0),
    div_eq_mul_inv, ← zpow_neg]
  congr 2
  ring

theorem fl_natCast (n : ℕ) (hn : n < 2 ^ 53) : fl (n : ℚ) = n := by
  simpa using fl_natCast_div_two_pow n 0 hn

theorem fl_neg (x : ℚ) : fl (-x) = -fl x := by
  rcases lt_trichotomy x 0 with h | h | h
  · unfold fl
    rw [if_pos (by linarith : (0 : ℚ) ≤ -x), if_neg (by linarith : ¬ (0 : ℚ) ≤ x), neg_neg]
  · subst h
    simp [fl, flMag_zero]
  · unfold fl
    rw [if_neg (by linarith : ¬ (0 : ℚ) ≤ -x), if_pos h.le, neg_neg]

theorem fl_intCast_of_abs_lt (z : ℤ) (h : |z| < 2 ^ 53) : fl (z : ℚ) = z := by
  rcases le_total 0 z with h0 | h0
  · obtain ⟨n, rfl⟩ := Int.eq_ofNat_of_zero_le h0
    have hn : n < 2 ^ 53 := by
      rw [abs_of_nonneg h0] at h
      exact_mod_cast h
    simpa using fl_natCast n hn
  · obtain ⟨n, hn⟩ := Int.eq_ofNat_of_zero_le (neg_nonneg.mpr h0)
    have hlt : n < 2 ^ 53 := by
      rw [abs_of_nonpos h0, hn] at h
      exact_mod_cast h
    have hz : z = -(n : ℤ) := by omega
    rw [hz]
    push_cast
    rw [fl_neg, fl_natCast n hlt]

theorem jsAddInt_of_abs_lt (a b : ℤ) (h : |a + b| < 2 ^ 53) : jsAddInt a b = a + b := by
  unfold jsAddInt
  have hc : ((a : ℚ) + (b : ℚ)) = ((a + b : ℤ) : ℚ) := by push_cast; ring
  rw [hc, fl_intCast_of_abs_lt _ h, Int.floor_intCast]

theorem calculateTotal_of_partial_sums (marks : Marks)
    (h1 : |orZero marks.quiz1 + orZero marks.quiz2| < 2 ^ 53)
    (h2 : |orZero marks.quiz1 + orZero marks.quiz2 + orZero marks.midterm| < 2 ^ 53)
    (h3 : |orZero marks.quiz1 + orZero marks.quiz2 + orZero marks.midterm +
      orZero marks.final| < 2 ^ 53)
    (h4 : |orZero marks.quiz1 + orZero marks.quiz2 + orZero marks.midterm +
      orZero marks.final + orZero marks.assignment| < 2 ^ 53) :
    calculateTotal marks =
      orZero marks.quiz1 + orZero marks.quiz2 + orZero marks.midterm + orZero marks.final +
        orZero marks.assignment := by
  unfold calculateTotal
  rw [jsAddInt_of_abs_lt _ _ h1, jsAddInt_of_abs_lt _ _ h2, jsAddInt_of_abs_lt _ _ h3,
    jsAddInt_of_abs_lt _ _ h4]

/-! ## Grade point average -/

/-- The value `getStudentGPA` computes from three grades `A` and one grade `C+` in courses
of 3 credits: the sum of the points is the binary64 value 42.9, the quotient by 12 rounds to
3.5749999999999997, and `toFixed(2)` gives 3.57. -/
theorem gpa_value_of_three_A_one_C_plus :
    toFixed2 (fl (fl (36 + fl (fl (23 / 10) * 3)) / 12)) = 357 / 100 := by
  have h1 : fl ((23 : ℚ) / 10) = ((5179139571476070 : ℤ) : ℚ) * (2 : ℚ) ^ ((1 : ℤ) - 52) :=
    fl_eq_of_bounds 1 5179139571476070 (by norm_num) (by norm_num) (by norm_num) (by norm_num)
  have h2 : fl (((5179139571476070 : ℤ) : ℚ) * (2 : ℚ) ^ ((1 : ℤ) - 52) * 3) =
      ((7768709357214105 : ℤ) : ℚ) * (2 : ℚ) ^ ((2 : ℤ) - 52) :=
    fl_eq_of_bounds 2 7768709357214105 (by norm_num) (by norm_num) (by norm_num) (by norm_num)
  have h3 : fl (36 + ((7768709357214105 : ℤ) : ℚ) * (2 : ℚ) ^ ((2 : ℤ) - 52)) =
      ((6037638250443571 : ℤ) : ℚ) * (2 : ℚ) ^ ((5 : ℤ) - 52) :=
    fl_eq_of_bounds 5 6037638250443571 (by norm_num) (by norm_num) (by norm_num) (by norm_num)
  have h4 : fl (((6037638250443571 : ℤ) : ℚ) * (2 : ℚ) ^ ((5 : ℤ) - 52) / 12) =
      ((8050184333924761 : ℤ) : ℚ) * (2 : ℚ) ^ ((1 : ℤ) - 52) :=
    fl_eq_of_bounds 1 8050184333924761 (by norm_num) (by norm_num) (by norm_num) (by norm_num)
  rw [h1, h2, h3, h4]
  unfold toFixed2
  rw [if_neg (by norm_num)]
  have hf : ⌊((8050184333924761 : ℤ) : ℚ) * (2 : ℚ) ^ ((1 : ℤ) - 52) * 100 + 1 / 2⌋ = 357 := by
    rw [Int.floor_eq_iff]
    constructor <;> norm_num
  rw [hf]
  norm_num

theorem fl_12 : fl 12 = 12 := by
  simpa using fl_natCast 12 (by norm_num)

theorem fl_24 : fl 24 = 24 := by
  simpa using fl_natCast 24 (by norm_num)

theorem fl_36 : fl 36 = 36 := by
  simpa using fl_natCast 36 (by norm_num)

/-! ## Ranks -/

theorem findIndex_eq_none_iff {α : Type} (p : α → Bool) (l : List α) :
    findIndex p l = none ↔ ∀ x ∈ l, p x = false := by
  induction l with
  | nil => simp [findIndex]
  | cons a l ih =>
    by_cases ha : p a = true
    · simp [findIndex, ha]
    · simp [findIndex, ha, ih]

theorem findIndex_append_cons {α : Type} (p : α → Bool) (pre : List α) (x : α) (post : List α)
    (hpre : ∀ y ∈ pre, p y = false) (hx : p x = true) :
    findIndex p (pre ++ x :: post) = some pre.length := by
  induction pre with
  | nil => simp [findIndex, hx]
  | cons a pre ih =>
    have ha : p a = false := hpre a (List.mem_cons_self a pre)
    have := ih (fun y hy => hpre y (List.mem_cons_of_mem a hy))
    simp [findIndex, ha, this]

theorem findIndex_eq_some {α : Type} (p : α → Bool) (l : List α) (i : ℕ)
    (h : findIndex p l = some i) :
    ∃ pre x post, l = pre ++ x :: post ∧ pre.length = i ∧ p x = true ∧
      ∀ y ∈ pre, p y = false := by
  induction l generalizing i with
  | nil => simp [findIndex] at h
  | cons a l ih =>
    by_cases ha : p a = true
    · simp only [findIndex, ha, if_true, Option.some.injEq] at h
      exact ⟨[], a, l, rfl, by simpa using h, ha, by simp⟩
    · simp only [findIndex, ha, Bool.false_eq_true, if_false, Option.map_eq_some'] at h
      obtain ⟨j, hj, rfl⟩ := h
      obtain ⟨pre, x, post, hl, hlen, hx, hpre⟩ := ih j hj
      refine ⟨a :: pre, x, post, by simp [hl], by simp [hlen], hx, ?_⟩
      intro y hy
      rcases List.mem_cons.mp hy with rfl | hy'
      · simpa using ha
      · exact hpre y hy'

/-- A list sorted by a key splits into the elements below `k`, those at `k` and those
above `k`. -/
theorem pairwise_key_split {α : Type} (key : α → ℤ) (k : ℤ) (l : List α)
    (h : l.Pairwise (fun a b => key a ≤ key b)) :
    l = l.filter (fun a => decide (key a < k)) ++ l.filter (fun a => key a == k) ++
      l.filter (fun a => decide (k < key a)) := by
  induction l with
  | nil => simp
  | cons a l ih =>
    rw [List.pairwise_cons] at h
    have ih' := ih h.2
    rcases lt_trichotomy (key a) k with hlt | heq | hgt
    · have h1 : ¬ key a = k := by omega
      have h2 : ¬ k < key a := by omega
      simp only [List.filter_cons, hlt, decide_True, if_true, beq_iff_eq, h1, if_false, h2,
        decide_False, Bool.false_eq_true, List.cons_append]
      rw [← ih']
    · subst heq
      have h3 : l.filter (fun b => decide (key b < key a)) = [] := by
        rw [List.filter_eq_nil_iff]
        intro b hb
        have := h.1 b hb
        simp only [decide_eq_true_eq]
        omega
      rw [h3] at ih'
      simp only [List.nil_append] at ih'
      simp only [List.filter_cons, lt_irrefl, decide_False, Bool.false_eq_true, if_false,
        beq_self_eq_true, if_true, h3, List.nil_append, List.cons_append]
      rw [← ih']
    · have h1 : ¬ key a < k := by omega
      have h2 : ¬ key a = k := by omega
      have h3 : l.filter (fun a => decide (key a < k)) = [] := by
        rw [List.filter_eq_nil_iff]
        intro b hb
        have := h.1 b hb
        simp only [decide_eq_true_eq]
        omega
      have h4 : l.filter (fun a => key a == k) = [] := by
        rw [List.filter_eq_nil_iff]
        intro b hb
        have := h.1 b hb
        simp only [beq_iff_eq]
        omega
      rw [h3, h4] at ih'
      simp only [List.filter_cons, h1, decide_False, Bool.false_eq_true, if_false, beq_iff_eq,
        h2, hgt, decide_True, if_true, h3, h4, List.nil_append]
      simp only [List.nil_append] at ih'
      rw [← ih']

theorem findIndex_arraySort_totalMarks (results pre post : List ResultRecord) (r : ResultRecord)
    (sid : String) (hdec : results = pre ++ r :: post) (hr : r.studentId = sid)
    (hpre : ∀ x ∈ pre, x.studentId = sid → x.totalMarks < r.totalMarks)
    (hpost : ∀ x ∈ post, x.studentId = sid → x.totalMarks ≤ r.totalMarks) :
    findIndex (fun x => x.studentId == sid)
        (arraySort (fun a b => b.totalMarks - a.totalMarks) results) =
      some ((results.filter (fun x => decide (r.totalMarks < x.totalMarks))).length +
        (pre.filter (fun x => x.totalMarks == r.totalMarks)).length) := by
  have hcmp : ∀ a b : ResultRecord,
      b.totalMarks - a.totalMarks ≤ 0 ↔ -a.totalMarks ≤ -b.totalMarks := fun a b => by omega
  have hsplit := pairwise_key_split (fun x : ResultRecord => -x.totalMarks) (-r.totalMarks) _
    (arraySort_pairwise (fun a b : ResultRecord => b.totalMarks - a.totalMarks)
      (fun x => -x.totalMarks) hcmp results)
  have hperm := arraySort_perm (fun a b : ResultRecord => b.totalMarks - a.totalMarks) results
  have hstable := arraySort_filter_key (fun a b : ResultRecord => b.totalMarks - a.totalMarks)
    (fun x => -x.totalMarks) hcmp (-r.totalMarks) results
  have hp1 : (fun x : ResultRecord => decide (-x.totalMarks < -r.totalMarks)) =
      (fun x : ResultRecord => decide (r.totalMarks < x.totalMarks)) := by
    funext x
    simp
  have hp2 : (fun x : ResultRecord => -x.totalMarks == -r.totalMarks) =
      (fun x : ResultRecord => x.totalMarks == r.totalMarks) := by
    funext x
    simp
  rw [hp1, hp2] at hsplit
  rw [hp2] at hstable
  have hB : (arraySort (fun a b : ResultRecord => b.totalMarks - a.totalMarks) results).filter
      (fun x => x.totalMarks == r.totalMarks) =
      pre.filter (fun x => x.totalMarks == r.totalMarks) ++
        r :: post.filter (fun x => x.totalMarks == r.totalMarks) := by
    rw [hstable, hdec]
    simp [List.filter_cons]
  have hA : ((arraySort (fun a b : ResultRecord => b.totalMarks - a.totalMarks) results).filter
      (fun x => decide (r.totalMarks < x.totalMarks))).length =
      (results.filter (fun x => decide (r.totalMarks < x.totalMarks))).length :=
    (hperm.filter _).length_eq
  rw [hB] at hsplit
  have hS : arraySort (fun a b : ResultRecord => b.totalMarks - a.totalMarks) results =
      ((arraySort (fun a b : ResultRecord => b.totalMarks - a.totalMarks) results).filter
          (fun x => decide (r.totalMarks < x.totalMarks)) ++
        pre.filter (fun x => x.totalMarks == r.totalMarks)) ++
      r :: (post.filter (fun x => x.totalMarks == r.totalMarks) ++
        (arraySort (fun a b : ResultRecord => b.totalMarks - a.totalMarks) results).filter
          (fun x => decide (-r.totalMarks < -x.totalMarks))) := by
    conv_lhs => rw [hsplit]
    simp [List.append_assoc]
  rw [hS, findIndex_append_cons, List.length_append, hA]
  · intro y hy
    rcases List.mem_append.mp hy with hyA | hyB
    · have hy1 := List.mem_filter.mp hyA
      have hgt : r.totalMarks < y.totalMarks := by simpa using hy1.2
      have hyr : y ∈ results := hperm.mem_iff.mp hy1.1
      rw [hdec] at hyr
      by_contra hc
      have hsid : y.studentId = sid := by simpa using hc
      rcases List.mem_append.mp hyr with h1 | h1
      · have := hpre y h1 hsid
        omega
      · rcases List.mem_cons.mp h1 with h2 | h2
        · rw [h2] at hgt
          omega
        · have := hpost y h2 hsid
          omega
    · have hy1 := List.mem_filter.mp hyB
      have heq : y.totalMarks = r.totalMarks := by simpa using hy1.2
      by_contra hc
      have hsid : y.studentId = sid := by simpa using hc
      have := hpre y hy1.1 hsid
      omega
  · simpa using hr

theorem getStudentRank_rank_of_decomposition (st : Store) (studentId courseId : String)
    (pre : List ResultRecord) (r : ResultRecord) (post : List ResultRecord)
    (hdec : getCourseResults st courseId = pre ++ r :: post) (hr : r.studentId = studentId)
    (hpre : ∀ x ∈ pre, x.studentId = studentId → x.totalMarks < r.totalMarks)
    (hpost : ∀ x ∈ post, x.studentId = studentId → x.totalMarks ≤ r.totalMarks) :
    (getStudentRank st studentId courseId).rank =
      some (1 +
        ((getCourseResults st courseId).filter
          (fun x => decide (r.totalMarks < x.totalMarks))).length +
        (pre.filter (fun x => x.totalMarks == r.totalMarks)).length) := by
  unfold getStudentRank
  simp only []
  rw [findIndex_arraySort_totalMarks _ pre post r studentId hdec hr hpre hpost]
  simp only [Option.some.injEq]
  omega

/-- Claim C14: `getStudentRank(studentId, courseId)` returns `totalStudents` = the number
of results stored for the course and `rank` = the 1-based position of the student's record
after the stable sort by `totalMarks` descending, that is 1 + (the number of course results
with strictly greater `totalMarks`) + (the number of course results with equal `totalMarks`
stored before the student's record); `rank` is null iff the student has no result in the
course. The student's record is `r`; should the course hold several records of the student,
`r` is the first stored of those with the highest total. -/
theorem getStudentRank_position (st : Store) (studentId courseId : String) :
    (getStudentRank st studentId courseId).totalStudents =
      (getCourseResults st courseId).length ∧
    ((getStudentRank st studentId courseId).rank = none ↔
      ∀ r ∈ getCourseResults st courseId, r.studentId ≠ studentId) ∧
    (∀ pre r post, getCourseResults st courseId = pre ++ r :: post → r.studentId = studentId →
      (∀ x ∈ pre, x.studentId = studentId → x.totalMarks < r.totalMarks) →
      (∀ x ∈ post, x.studentId = studentId → x.totalMarks ≤ r.totalMarks) →
      (getStudentRank st studentId courseId).rank =
        some (1 +
          ((getCourseResults st courseId).filter
            (fun x => decide (r.totalMarks < x.totalMarks))).length +
          (pre.filter (fun x => x.totalMarks == r.totalMarks)).length)) := by
  refine ⟨rfl, ?_, ?_⟩
  · unfold getStudentRank
    simp only []
    cases hfi : findIndex (fun r => r.studentId == studentId)
        (arraySort (fun a b => b.totalMarks - a.totalMarks) (getCourseResults st courseId)) with
    | none =>
      simp only [true_iff]
      intro r hr
      have h1 := (findIndex_eq_none_iff _ _).mp hfi r
        ((arraySort_perm _ _).mem_iff.mpr hr)
      simpa using h1
    | some i =>
      simp only [reduceCtorEq, false_iff]
      intro hall
      have h2 : findIndex (fun r => r.studentId == studentId)
          (arraySort (fun a b => b.totalMarks - a.totalMarks)
            (getCourseResults st courseId)) = none := by
        rw [findIndex_eq_none_iff]
        intro x hx
        have := hall x ((arraySort_perm _ _).mem_iff.mp hx)
        simpa using this
      rw [h2] at hfi
      exact absurd hfi (by simp)
  · intro pre r post hdec hr hpre hpost
    exact getStudentRank_rank_of_decomposition st studentId courseId pre r post hdec hr hpre
      hpost

theorem getStudentRank_position_witness :
    (getStudentRank rankStore "student003" "CS101").rank = some 3 :=
  ((getStudentRank_position rankStore "student003" "CS101").2.2
    [sampleResult "CS101" "student001" 150 "B-", sampleResult "CS101" "student002" 190 "A"]
    (sampleResult "CS101" "student003" 150 "B-") [] (by decide) rfl (by decide)
    (by decide)).trans (by decide)

theorem filter_gt_add_filter_eq_le_length (l : List ResultRecord) (m : ℤ) :
    (l.filter (fun x => decide (m < x.totalMarks))).length +
      (l.filter (fun x => x.totalMarks == m)).length ≤ l.length := by
  induction l with
  | nil => simp
  | cons x l ih =>
    simp only [List.filter_cons, beq_iff_eq, decide_eq_true_eq, List.length_cons]
    split_ifs <;> (try simp only [List.length_cons]) <;> omega

theorem filter_gt_add_filter_eq_le_filter_gt (l : List ResultRecord) (m1 m2 : ℤ) (h : m2 < m1) :
    (l.filter (fun x => decide (m1 < x.totalMarks))).length +
      (l.filter (fun x => x.totalMarks == m1)).length ≤
    (l.filter (fun x => decide (m2 < x.totalMarks))).length := by
  induction l with
  | nil => simp
  | cons x l ih =>
    simp only [List.filter_cons, beq_iff_eq, decide_eq_true_eq]
    split_ifs <;> (try simp only [List.length_cons]) <;> omega

/-- Under the uniqueness of the key, a record of the course is the only record of its
student in the course. -/
theorem exists_unique_decomposition (st : Store) (courseId : String)
    (hu : ∀ c s, (resultsFor (st.results.getD []) c s).length ≤ 1) (r : ResultRecord)
    (hr : r ∈ getCourseResults st courseId) :
    ∃ pre post, getCourseResults st courseId = pre ++ r :: post ∧
      (∀ x ∈ pre, x.studentId ≠ r.studentId) ∧ (∀ x ∈ post, x.studentId ≠ r.studentId) := by
  obtain ⟨pre, post, hdec⟩ := List.append_of_mem hr
  refine ⟨pre, post, hdec, ?_, ?_⟩
  all_goals
    have hlen := hu courseId r.studentId
    have hf : resultsFor (st.results.getD []) courseId r.studentId =
        (getCourseResults st courseId).filter (fun x => x.studentId == r.studentId) := by
      unfold resultsFor getCourseResults
      rw [List.filter_filter]
      apply List.filter_congr
      intro x _
      exact Bool.and_comm _ _
    rw [hf, hdec] at hlen
    simp only [List.filter_append, List.filter_cons, beq_self_eq_true, if_true,
      List.length_append, List.length_cons] at hlen
  · intro x hx hc
    have : x ∈ pre.filter (fun x => x.studentId == r.studentId) :=
      List.mem_filter.mpr ⟨hx, by simpa using hc⟩
    have := List.length_pos_of_mem this
    omega
  · intro x hx hc
    have : x ∈ post.filter (fun x => x.studentId == r.studentId) :=
      List.mem_filter.mpr ⟨hx, by simpa using hc⟩
    have := List.length_pos_of_mem this
    omega

theorem getStudentRank_of_unique (st : Store) (courseId : String)
    (hu : ∀ c s, (resultsFor (st.results.getD []) c s).length ≤ 1) (r : ResultRecord)
    (hr : r ∈ getCourseResults st courseId) :
    ∃ e, (getStudentRank st r.studentId courseId).rank =
        some (1 + ((getCourseResults st courseId).filter
          (fun x => decide (r.totalMarks < x.totalMarks))).length + e) ∧
      e + 1 ≤ ((getCourseResults st courseId).filter
          (fun x => x.totalMarks == r.totalMarks)).length := by
  obtain ⟨pre, post, hdec, hpre, hpost⟩ := exists_unique_decomposition st courseId hu r hr
  refine ⟨(pre.filter (fun x => x.totalMarks == r.totalMarks)).length, ?_, ?_⟩
  · exact getStudentRank_rank_of_decomposition st r.studentId courseId pre r post hdec rfl
      (fun x hx hc => absurd hc (hpre x hx)) (fun x hx hc => absurd hc (hpost x hx))
  · rw [hdec]
    simp [List.filter_append, List.filter_cons]

theorem getStudentRank_rank_eq_some (st : Store) (studentId courseId : String) (k : ℕ)
    (h : (getStudentRank st studentId courseId).rank = some k) :
    ∃ pre x post,
      arraySort (fun a b => b.totalMarks - a.totalMarks) (getCourseResults st courseId) =
        pre ++ x :: post ∧ pre.length + 1 = k ∧ x.studentId = studentId := by
  unfold getStudentRank at h
  simp only [] at h
  cases hfi : findIndex (fun r => r.studentId == studentId)
      (arraySort (fun a b => b.totalMarks - a.totalMarks) (getCourseResults st courseId)) with
  | none =>
    rw [hfi] at h
    simp at h
  | some i =>
    rw [hfi] at h
    simp only [Option.some.injEq] at h
    obtain ⟨pre, x, post, hl, hlen, hx, -⟩ := findIndex_eq_some _ _ _ hfi
    exact ⟨pre, x, post, hl, by omega, by simpa using hx⟩

/-- Claim C29: if the results collection holds at most one record per
`(courseId, studentId)` pair, then for every course the ranks `getStudentRank` assigns to
the students that have a result in it lie in `1..totalStudents`, are pairwise distinct, and
a student with strictly greater `totalMarks` than another gets a strictly smaller rank. -/
theorem getStudentRank_distinct_ordered (st : Store) (courseId : String)
    (hu : ∀ c s, (resultsFor (st.results.getD []) c s).length ≤ 1)
    (r1 r2 : ResultRecord) (h1 : r1 ∈ getCourseResults st courseId)
    (h2 : r2 ∈ getCourseResults st courseId) :
    ∃ k1 k2, (getStudentRank st r1.studentId courseId).rank = some k1 ∧
      (getStudentRank st r2.studentId courseId).rank = some k2 ∧
      1 ≤ k1 ∧ k1 ≤ (getStudentRank st r1.studentId courseId).totalStudents ∧
      (r1.studentId ≠ r2.studentId → k1 ≠ k2) ∧
      (r2.totalMarks < r1.totalMarks → k1 < k2) := by
  obtain ⟨e1, hk1, he1⟩ := getStudentRank_of_unique st courseId hu r1 h1
  obtain ⟨e2, hk2, he2⟩ := getStudentRank_of_unique st courseId hu r2 h2
  refine ⟨_, _, hk1, hk2, by omega, ?_, ?_, ?_⟩
  · have := filter_gt_add_filter_eq_le_length (getCourseResults st courseId) r1.totalMarks
    show _ ≤ (getCourseResults st courseId).length
    omega
  · intro hne heq
    obtain ⟨pre1, x1, post1, hl1, hlen1, hx1⟩ :=
      getStudentRank_rank_eq_some st r1.studentId courseId _ hk1
    obtain ⟨pre2, x2, post2, hl2, hlen2, hx2⟩ :=
      getStudentRank_rank_eq_some st r2.studentId courseId _ hk2
    rw [hl1] at hl2
    have hlen : pre1.length = pre2.length := by omega
    have := (List.append_inj hl2 hlen).2
    simp only [List.cons.injEq] at this
    apply hne
    rw [← hx1, ← hx2, this.1]
  · intro hlt
    have := filter_gt_add_filter_eq_le_filter_gt (getCourseResults st courseId)
      r1.totalMarks r2.totalMarks hlt
    omega

theorem resultsFor_length_le_one_of_nodup (rs : List ResultRecord)
    (h : (rs.map (fun r => (r.courseId, r.studentId))).Nodup) (c s : String) :
    (resultsFor rs c s).length ≤ 1 := by
  induction rs with
  | nil => simp [resultsFor]
  | cons x rs ih =>
    rw [List.map_cons, List.nodup_cons] at h
    unfold resultsFor at ih ⊢
    by_cases hx : x.courseId = c ∧ x.studentId = s
    · have hnil : rs.filter (fun r => r.courseId == c && r.studentId == s) = [] := by
        rw [List.filter_eq_nil_iff]
        intro y hy hc
        simp only [Bool.and_eq_true, beq_iff_eq] at hc
        apply h.1
        rw [List.mem_map]
        exact ⟨y, hy, by rw [hc.1, hc.2, hx.1, hx.2]⟩
      simp [List.filter_cons, hx.1, hx.2, hnil]
    · have hx' : (x.courseId == c && x.studentId == s) = false := by
        simpa using hx
      rw [List.filter_cons, hx']
      exact ih h.2

theorem getStudentRank_distinct_ordered_witness :
    ∃ k1 k2, (getStudentRank rankStore "student002" "CS101").rank = some k1 ∧
      (getStudentRank rankStore "student003" "CS101").rank = some k2 ∧
      1 ≤ k1 ∧ k1 ≤ (getStudentRank rankStore "student002" "CS101").totalStudents ∧
      ("student002" ≠ "student003" → k1 ≠ k2) ∧
      ((150 : ℤ) < 190 → k1 < k2) :=
  getStudentRank_distinct_ordered rankStore "CS101"
    (resultsFor_length_le_one_of_nodup _ (by decide))
    (sampleResult "CS101" "student002" 190 "A") (sampleResult "CS101" "student003" 150 "B-")
    (by decide) (by decide)

/-! ## Course statistics -/

theorem getCourseStatistics_of_ne_nil (st : Store) (courseId : String)
    (h : (getCourseResults st courseId).length ≠ 0) :
    (getCourseStatistics st courseId).totalStudents = (getCourseResults st courseId).length ∧
    (getCourseStatistics st courseId).passRate =
      some (mathRound (fl (fl
        ((((getCourseResults st courseId).filter (fun r => r.grade != "F")).length : ℚ) /
          ((getCourseResults st courseId).length : ℚ)) * 100))) := by
  unfold getCourseStatistics
  simp only [h, dite_false]
  exact ⟨trivial, rfl⟩

/-- Claim C15, evaluated where the code departs from it: for a course without results
`getCourseStatistics` returns `totalStudents`, `averageMarks`, `highestMarks` and
`lowestMarks` 0 and an empty `gradeDistribution`, but the object of that early return has no
`passRate` property, so `passRate` is undefined and not 0. -/
theorem getCourseStatistics_of_no_results :
    getCourseStatistics gpaStore "CS999" =
      { totalStudents := 0, averageMarks := 0, highestMarks := 0, lowestMarks := 0,
        gradeDistribution := [], passRate := none } ∧
    (getCourseStatistics gpaStore "CS999").passRate ≠ some 0 ∧
    (∀ (st : Store) (courseId : String), getCourseResults st courseId = [] →
      (getCourseStatistics st courseId).passRate = none) := by
  have hgen : ∀ (st : Store) (courseId : String), getCourseResults st courseId = [] →
      getCourseStatistics st courseId =
        { totalStudents := 0, averageMarks := 0, highestMarks := 0, lowestMarks := 0,
          gradeDistribution := [], passRate := none } := by
    intro st courseId h
    unfold getCourseStatistics
    simp [h]
  have hnil : getCourseResults gpaStore "CS999" = [] := by decide
  refine ⟨hgen _ _ hnil, ?_, ?_⟩
  · rw [hgen _ _ hnil]
    simp
  · intro st courseId h
    rw [hgen st courseId h]

/-- Claim C16, evaluated where the code departs from it: for a course with 40 results, 23
of them with a grade other than `F`, `getCourseStatistics` returns `totalStudents` 40 and
the `passRate` 57, while `23 / 40 * 100` is 57.5 and rounds to 58. -/
theorem getCourseStatistics_passRate_23_of_40 :
    (getCourseStatistics passStore "CS101").totalStudents = 40 ∧
    (getCourseStatistics passStore "CS101").passRate = some 57 ∧
    (23 : ℚ) / 40 * 100 = 575 / 10 ∧ round ((23 : ℚ) / 40 * 100) = 58 := by
  have hlen : (getCourseResults passStore "CS101").length = 40 := by decide
  have hpass : ((getCourseResults passStore "CS101").filter (fun r => r.grade != "F")).length =
      23 := by decide
  have h := getCourseStatistics_of_ne_nil passStore "CS101" (by rw [hlen]; decide)
  rw [hlen, hpass] at h
  refine ⟨h.1, ?_, by norm_num, ?_⟩
  · rw [h.2]
    have hp := percentage_23_of_40
    simp only [Nat.cast_ofNat]
    rw [hp]
  · rw [round_eq, Int.floor_eq_iff]
    constructor <;> norm_num

/-! ## Deleting a result -/

/-- Claim C17, amended: when the write persists, `deleteResult(courseId, studentId)` leaves in the
results collection exactly the records that do not match `(courseId, studentId)`, in their
original order, and returns success; when no record matches, the collection is unchanged in
content and length; afterwards `getStudentCourseResult(studentId, courseId)` is null. -/
theorem deleteResult_removes_matching (env : Env) (st : Store) (courseId studentId : String)
    (hw : env.writeOk = true) :
    (deleteResult env st courseId studentId).1.results.getD [] =
      (st.results.getD []).filter
        (fun r => !(r.courseId == courseId && r.studentId == studentId)) ∧
    (deleteResult env st courseId studentId).2.success = true ∧
    ((∀ r ∈ st.results.getD [], ¬ (r.courseId = courseId ∧ r.studentId = studentId)) →
      (deleteResult env st courseId studentId).1.results.getD [] = st.results.getD [] ∧
      ((deleteResult env st courseId studentId).1.results.getD []).length =
        (st.results.getD []).length) ∧
    getStudentCourseResult (deleteResult env st courseId studentId).1 studentId courseId =
      none := by
  have hres : (deleteResult env st courseId studentId).1.results.getD [] =
      (st.results.getD []).filter
        (fun r => !(r.courseId == courseId && r.studentId == studentId)) := by
    simp [deleteResult, StorageManager.set, hw]
  have hsame : (∀ r ∈ st.results.getD [], ¬ (r.courseId = courseId ∧ r.studentId = studentId)) →
      (deleteResult env st courseId studentId).1.results.getD [] = st.results.getD [] := by
    intro h
    rw [hres, List.filter_eq_self]
    intro r hr
    have := h r hr
    simp only [Bool.not_eq_true', Bool.and_eq_false_iff, beq_eq_false_iff_ne, ne_eq]
    by_contra hc
    push_neg at hc
    exact this hc
  refine ⟨hres, rfl, fun h => ⟨hsame h, by rw [hsame h]⟩, ?_⟩
  unfold getStudentCourseResult
  rw [hres, List.find?_eq_none]
  intro r hr
  have := (List.mem_filter.mp hr).2
  simp only [Bool.not_eq_true', Bool.and_eq_false_iff, beq_eq_false_iff_ne, ne_eq] at this
  simp only [Bool.and_eq_true, beq_iff_eq, not_and]
  intro h1 h2
  rcases this with h | h
  · exact h h2
  · exact h h1

theorem deleteResult_removes_matching_witness :
    (deleteResult sampleEnv gpaStore "CS101" "student003").1.results.getD [] =
      gpaStore.results.getD [] ∧
    ((deleteResult sampleEnv gpaStore "CS101" "student003").1.results.getD []).length =
      (gpaStore.results.getD []).length :=
  (deleteResult_removes_matching sampleEnv gpaStore "CS101" "student003" rfl).2.2.1
    (by decide)

/-! ## Rounding: bounds -/

theorem roundHalfEven_le_add_half (q : ℚ) : (roundHalfEven q : ℚ) ≤ q + 1 / 2 := by
  have h1 := Int.floor_le q
  unfold roundHalfEven
  split_ifs with ha hb hc
  · linarith
  · push_cast
    linarith
  · linarith
  · push_cast
    linarith

theorem fl_le_add_mul {x : ℚ} (hx : 0 ≤ x) : fl x ≤ x + x * (1 / 2 ^ 53) := by
  rcases hx.eq_or_lt with h0 | hpos
  · rw [← h0]
    simp [fl, flMag_zero]
  unfold fl
  rw [if_pos hx]
  unfold flMag
  have hu := ulp_pos x
  have h1 := roundHalfEven_le_add_half (x / ulp x)
  have h2 : (roundHalfEven (x / ulp x) : ℚ) * ulp x ≤ (x / ulp x + 1 / 2) * ulp x :=
    mul_le_mul_of_nonneg_right h1 hu.le
  have h3 : (x / ulp x + 1 / 2) * ulp x = x + ulp x / 2 := by
    have hne : ulp x ≠ 0 := hu.ne'
    field_simp
    ring
  have h4 : ulp x = (2 : ℚ) ^ Int.log 2 x * (1 / 2 ^ 52) := by
    unfold ulp
    rw [zpow_sub₀ (by norm_num : (2 : ℚ) ≠ 0)]
    norm_num
    ring
  have h5 := two_zpow_log_le hpos
  have h6 : ulp x / 2 ≤ x * (1 / 2 ^ 53) := by
    rw [h4]
    have : (2 : ℚ) ^ Int.log 2 x * (1 / 2 ^ 52) / 2 = (2 : ℚ) ^ Int.log 2 x * (1 / 2 ^ 53) := by
      norm_num
      ring
    rw [this]
    exact mul_le_mul_of_nonneg_right h5 (by positivity)
  linarith

theorem mathRound_mono {x y : ℚ} (h : x ≤ y) : mathRound x ≤ mathRound y := by
  unfold mathRound
  exact Int.floor_mono (by linarith)

theorem mathRound_intCast (n : ℤ) : mathRound (n : ℚ) = n := by
  unfold mathRound
  rw [Int.floor_eq_iff]
  constructor <;> linarith

theorem fl_one : fl 1 = 1 := by
  simpa using fl_natCast 1 (by norm_num)

theorem fl_hundred : fl 100 = 100 := by
  simpa using fl_natCast 100 (by norm_num)

theorem fl_zero : fl 0 = 0 := by
  simp [fl, flMag_zero]

/-- The percentage `Math.round((part / whole) * 100)` of a part of a whole is between 0 and
100. -/
theorem percentage_bounds (part whole : ℕ) (h : part ≤ whole) (hw : whole ≠ 0) :
    0 ≤ mathRound (fl (fl ((part : ℚ) / (whole : ℚ)) * 100)) ∧
    mathRound (fl (fl ((part : ℚ) / (whole : ℚ)) * 100)) ≤ 100 := by
  have hw' : (0 : ℚ) < (whole : ℚ) := by
    have : 0 < whole := Nat.pos_of_ne_zero hw
    exact_mod_cast this
  have h0 : (0 : ℚ) ≤ (part : ℚ) / (whole : ℚ) := by positivity
  have h1 : (part : ℚ) / (whole : ℚ) ≤ 1 := by
    rw [div_le_one hw']
    exact_mod_cast h
  have h2 : 0 ≤ fl ((part : ℚ) / (whole : ℚ)) := fl_nonneg h0
  have h3 : fl ((part : ℚ) / (whole : ℚ)) ≤ 1 := by
    have := fl_mono h1
    rwa [fl_one] at this
  have h4 : 0 ≤ fl (fl ((part : ℚ) / (whole : ℚ)) * 100) := fl_nonneg (by linarith)
  have h5 : fl (fl ((part : ℚ) / (whole : ℚ)) * 100) ≤ 100 := by
    have := fl_mono (show fl ((part : ℚ) / (whole : ℚ)) * 100 ≤ 100 by linarith)
    rwa [fl_hundred] at this
  constructor
  · have := mathRound_mono h4
    rw [show (0 : ℚ) = ((0 : ℤ) : ℚ) by norm_num, mathRound_intCast] at this
    exact this
  · have := mathRound_mono h5
    rw [show (100 : ℚ) = ((100 : ℤ) : ℚ) by norm_num, mathRound_intCast] at this
    exact this

/-! ## Attendance statistics: invariants -/

theorem present_add_absent_le_length (records : List AttendanceRecord) :
    (records.filter (fun r => r.status == "present")).length +
      (records.filter (fun r => r.status == "absent")).length ≤ records.length := by
  induction records with
  | nil => simp
  | cons x l ih =>
    by_cases hp : x.status = "present"
    · simp [List.filter_cons, hp]
      omega
    · by_cases ha : x.status = "absent"
      · simp [List.filter_cons, ha]
        omega
      · simp [List.filter_cons, hp, ha]
        omega

theorem present_add_absent_eq_length (records : List AttendanceRecord)
    (h : ∀ r ∈ records, r.status = "present" ∨ r.status = "absent") :
    (records.filter (fun r => r.status == "present")).length +
      (records.filter (fun r => r.status == "absent")).length = records.length := by
  induction records with
  | nil => simp
  | cons x l ih =>
    have ih' := ih (fun r hr => h r (List.mem_cons_of_mem x hr))
    rcases h x (List.mem_cons_self x l) with hp | ha
    · simp [List.filter_cons, hp]
      omega
    · simp [List.filter_cons, ha]
      omega

theorem statsOf_invariants (records : List AttendanceRecord) :
    0 ≤ (statsOf records).percentage ∧ (statsOf records).percentage ≤ 100 ∧
    (statsOf records).present + (statsOf records).absent ≤ (statsOf records).total ∧
    ((∀ r ∈ records, r.status = "present" ∨ r.status = "absent") →
      (statsOf records).present + (statsOf records).absent = (statsOf records).total) := by
  by_cases h : records.length = 0
  · have hnil : records = [] := List.length_eq_zero.mp h
    subst hnil
    rw [statsOf_nil]
    simp
  · rw [statsOf_of_ne_nil records h]
    have hb := percentage_bounds (records.filter (fun r => r.status == "present")).length
      records.length (List.length_filter_le _ _) h
    exact ⟨hb.1, hb.2, present_add_absent_le_length records,
      present_add_absent_eq_length records⟩

/-- Claim C27: for every attendance collection, student and course, the statistics that
`calculateAttendancePercentage` and `getOverallAttendance` return satisfy
`0 <= percentage <= 100` and `present + absent <= total`, with `present + absent = total`
whenever every counted record has the status `present` or `absent`. -/
theorem attendance_stats_invariants (st : Store) (studentId courseId : String) :
    (0 ≤ (calculateAttendancePercentage st studentId courseId).percentage ∧
      (calculateAttendancePercentage st studentId courseId).percentage ≤ 100 ∧
      (calculateAttendancePercentage st studentId courseId).present +
          (calculateAttendancePercentage st studentId courseId).absent ≤
        (calculateAttendancePercentage st studentId courseId).total ∧
      ((∀ r ∈ getStudentCourseAttendance st studentId courseId,
          r.status = "present" ∨ r.status = "absent") →
        (calculateAttendancePercentage st studentId courseId).present +
            (calculateAttendancePercentage st studentId courseId).absent =
          (calculateAttendancePercentage st studentId courseId).total)) ∧
    (0 ≤ (getOverallAttendance st studentId).percentage ∧
      (getOverallAttendance st studentId).percentage ≤ 100 ∧
      (getOverallAttendance st studentId).present + (getOverallAttendance st studentId).absent ≤
        (getOverallAttendance st studentId).total ∧
      ((∀ r ∈ getStudentAttendance st studentId,
          r.status = "present" ∨ r.status = "absent") →
        (getOverallAttendance st studentId).present +
            (getOverallAttendance st studentId).absent =
          (getOverallAttendance st studentId).total)) :=
  ⟨statsOf_invariants _, statsOf_invariants _⟩

theorem attendance_stats_invariants_witness :
    (calculateAttendancePercentage sampleStore "student001" "CS101").present +
        (calculateAttendancePercentage sampleStore "student001" "CS101").absent =
      (calculateAttendancePercentage sampleStore "student001" "CS101").total :=
  (attendance_stats_invariants sampleStore "student001" "CS101").1.2.2.2 (by decide)

/-! ## Totals and percentages of marks -/

theorem getPercentage_eq (t : ℚ) : getPercentage t = mathRound (gradePercentage t) := rfl

theorem gradePercentage_zero : gradePercentage 0 = 0 := by
  rw [gradePercentage_eq]
  simp [fl_zero]

theorem gradePercentage_220 : gradePercentage 220 = 100 := by
  rw [gradePercentage_eq]
  norm_num [fl_one, fl_hundred]

/-- Claim C23: if every component is a non-negative integer within its maximum
(`quiz1 <= 20`, `quiz2 <= 20`, `midterm <= 50`, `final <= 100`, `assignment <= 30`), then
`calculateTotal(marks)` is between 0 and 220, the maxima sum to `MAX_MARKS.total = 220`, and
`getPercentage(calculateTotal(marks))` is between 0 and 100. -/
theorem calculateTotal_within_maxima (marks : Marks)
    (h1 : ∀ v ∈ marks.quiz1, 0 ≤ v ∧ v ≤ 20) (h2 : ∀ v ∈ marks.quiz2, 0 ≤ v ∧ v ≤ 20)
    (h3 : ∀ v ∈ marks.midterm, 0 ≤ v ∧ v ≤ 50) (h4 : ∀ v ∈ marks.final, 0 ≤ v ∧ v ≤ 100)
    (h5 : ∀ v ∈ marks.assignment, 0 ≤ v ∧ v ≤ 30) :
    0 ≤ calculateTotal marks ∧ calculateTotal marks ≤ 220 ∧
    MAX_MARKS.quiz1 + MAX_MARKS.quiz2 + MAX_MARKS.midterm + MAX_MARKS.final +
      MAX_MARKS.assignment = MAX_MARKS.total ∧
    MAX_MARKS.total = 220 ∧
    0 ≤ getPercentage (calculateTotal marks) ∧ getPercentage (calculateTotal marks) ≤ 100 := by
  have b1 : 0 ≤ orZero marks.quiz1 ∧ orZero marks.quiz1 ≤ 20 := by
    unfold orZero
    cases hq : marks.quiz1 with
    | none => simp
    | some v => simpa using h1 v (by rw [hq]; rfl)
  have b2 : 0 ≤ orZero marks.quiz2 ∧ orZero marks.quiz2 ≤ 20 := by
    unfold orZero
    cases hq : marks.quiz2 with
    | none => simp
    | some v => simpa using h2 v (by rw [hq]; rfl)
  have b3 : 0 ≤ orZero marks.midterm ∧ orZero marks.midterm ≤ 50 := by
    unfold orZero
    cases hq : marks.midterm with
    | none => simp
    | some v => simpa using h3 v (by rw [hq]; rfl)
  have b4 : 0 ≤ orZero marks.final ∧ orZero marks.final ≤ 100 := by
    unfold orZero
    cases hq : marks.final with
    | none => simp
    | some v => simpa using h4 v (by rw [hq]; rfl)
  have b5 : 0 ≤ orZero marks.assignment ∧ orZero marks.assignment ≤ 30 := by
    unfold orZero
    cases hq : marks.assignment with
    | none => simp
    | some v => simpa using h5 v (by rw [hq]; rfl)
  have hsum := calculateTotal_of_partial_sums marks
    (by rw [abs_lt]; constructor <;> omega) (by rw [abs_lt]; constructor <;> omega)
    (by rw [abs_lt]; constructor <;> omega) (by rw [abs_lt]; constructor <;> omega)
  have ht0 : 0 ≤ calculateTotal marks := by
    rw [hsum]
    omega
  have ht1 : calculateTotal marks ≤ 220 := by
    rw [hsum]
    omega
  refine ⟨ht0, ht1, by norm_num [MAX_MARKS], rfl, ?_, ?_⟩
  · rw [getPercentage_eq]
    have h := mathRound_mono (gradePercentage_nonneg
      (show (0 : ℚ) ≤ ((calculateTotal marks : ℤ) : ℚ) by exact_mod_cast ht0))
    rw [show (0 : ℚ) = ((0 : ℤ) : ℚ) by norm_num, mathRound_intCast] at h
    exact h
  · rw [getPercentage_eq]
    have h := mathRound_mono (gradePercentage_mono
      (show ((calculateTotal marks : ℤ) : ℚ) ≤ 220 by exact_mod_cast ht1))
    rw [gradePercentage_220, show (100 : ℚ) = ((100 : ℤ) : ℚ) by norm_num,
      mathRound_intCast] at h
    exact h

theorem calculateTotal_within_maxima_witness :
    0 ≤ calculateTotal sampleMarks ∧ calculateTotal sampleMarks ≤ 220 ∧
    MAX_MARKS.quiz1 + MAX_MARKS.quiz2 + MAX_MARKS.midterm + MAX_MARKS.final +
      MAX_MARKS.assignment = MAX_MARKS.total ∧
    MAX_MARKS.total = 220 ∧
    0 ≤ getPercentage (calculateTotal sampleMarks) ∧
    getPercentage (calculateTotal sampleMarks) ≤ 100 :=
  calculateTotal_within_maxima sampleMarks (by decide) (by decide) (by decide) (by decide)
    (by decide)

/-! ## Grades: bands, rounded percentage and monotonicity -/

theorem bandLowerBound_of_mem {g : String} {b : ℚ} (h : (g, b) ∈ gradeBands) :
    bandLowerBound g = b := by
  simp only [gradeBands, List.mem_cons, Prod.mk.injEq, List.mem_singleton, List.mem_nil_iff,
    or_false] at h
  rcases h with ⟨rfl, rfl⟩ | ⟨rfl, rfl⟩ | ⟨rfl, rfl⟩ | ⟨rfl, rfl⟩ | ⟨rfl, rfl⟩ | ⟨rfl, rfl⟩ |
    ⟨rfl, rfl⟩ | ⟨rfl, rfl⟩ | ⟨rfl, rfl⟩ | ⟨rfl, rfl⟩ | ⟨rfl, rfl⟩ <;> rfl

theorem band_bound_is_nat {g : String} {b : ℚ} (h : (g, b) ∈ gradeBands) :
    ∃ n : ℕ, b = (n : ℚ) := by
  simp only [gradeBands, List.mem_cons, Prod.mk.injEq, List.mem_singleton, List.mem_nil_iff,
    or_false] at h
  rcases h with ⟨-, rfl⟩ | ⟨-, rfl⟩ | ⟨-, rfl⟩ | ⟨-, rfl⟩ | ⟨-, rfl⟩ | ⟨-, rfl⟩ |
    ⟨-, rfl⟩ | ⟨-, rfl⟩ | ⟨-, rfl⟩ | ⟨-, rfl⟩ | ⟨-, rfl⟩
  exacts [⟨90, by norm_num⟩, ⟨85, by norm_num⟩, ⟨80, by norm_num⟩, ⟨75, by norm_num⟩,
    ⟨70, by norm_num⟩, ⟨65, by norm_num⟩, ⟨60, by norm_num⟩, ⟨55, by norm_num⟩,
    ⟨50, by norm_num⟩, ⟨45, by norm_num⟩, ⟨0, by norm_num⟩]

theorem bandLowerBound_F : bandLowerBound "F" = 0 := rfl

theorem getPercentage_197 : getPercentage 197 = 90 := by
  rw [getPercentage_eq, gradePercentage_197]
  unfold mathRound
  rw [Int.floor_eq_iff]
  constructor <;> norm_num

/-- Claim C26: for every integer `totalMarks` in 0..220 the rounded percentage
`getPercentage(totalMarks)` is not below the lower bound of the band of
`calculateGrade(totalMarks)`; the two can disagree upward, the grade using the percentage
before rounding: for `totalMarks = 197`, `getPercentage` gives 90, the bound of `A+`, while
`calculateGrade` gives `A`. -/
theorem getPercentage_ge_band_bound (totalMarks : ℤ) (h0 : 0 ≤ totalMarks)
    (_h220 : totalMarks ≤ 220) :
    bandLowerBound (calculateGrade (totalMarks : ℚ)) ≤
      ((getPercentage (totalMarks : ℚ) : ℤ) : ℚ) ∧
    getPercentage 197 = 90 ∧ calculateGrade 197 = "A" ∧ bandLowerBound "A+" = 90 ∧
    bandLowerBound "A" = 85 := by
  refine ⟨?_, getPercentage_197, ?_, rfl, rfl⟩
  · have hp : 0 ≤ gradePercentage (totalMarks : ℚ) :=
      gradePercentage_nonneg (by exact_mod_cast h0)
    obtain ⟨b, hm, hle, -⟩ := isHighestBand_calculateGrade hp
    rw [bandLowerBound_of_mem hm, getPercentage_eq]
    obtain ⟨n, rfl⟩ := band_bound_is_nat hm
    have := mathRound_mono hle
    rw [show ((n : ℕ) : ℚ) = (((n : ℤ)) : ℚ) by norm_num, mathRound_intCast] at this
    exact_mod_cast this
  · have h := calculateGrade_intCast 197
    norm_num at h
    exact h

theorem getPercentage_ge_band_bound_witness :
    bandLowerBound (calculateGrade ((197 : ℤ) : ℚ)) ≤
      ((getPercentage ((197 : ℤ) : ℚ) : ℤ) : ℚ) :=
  (getPercentage_ge_band_bound 197 (by decide) (by decide)).1

theorem gradePoints_chain :
    (1 : ℚ) ≤ fl (17 / 10) ∧ fl (17 / 10) ≤ 2 ∧ (2 : ℚ) ≤ fl (23 / 10) ∧
    fl (23 / 10) ≤ fl (27 / 10) ∧ fl (27 / 10) ≤ 3 ∧ (3 : ℚ) ≤ fl (33 / 10) ∧
    fl (33 / 10) ≤ fl (37 / 10) ∧ fl (37 / 10) ≤ 4 := by
  have f1 : fl 1 = 1 := fl_one
  have f2 : fl 2 = 2 := by simpa using fl_natCast 2 (by norm_num)
  have f3 : fl 3 = 3 := by simpa using fl_natCast 3 (by norm_num)
  have f4 : fl 4 = 4 := by simpa using fl_natCast 4 (by norm_num)
  refine ⟨?_, ?_, ?_, ?_, ?_, ?_, ?_, ?_⟩
  · have := fl_mono (show (1 : ℚ) ≤ 17 / 10 by norm_num)
    rwa [f1] at this
  · have := fl_mono (show (17 : ℚ) / 10 ≤ 2 by norm_num)
    rwa [f2] at this
  · have := fl_mono (show (2 : ℚ) ≤ 23 / 10 by norm_num)
    rwa [f2] at this
  · exact fl_mono (by norm_num)
  · have := fl_mono (show (27 : ℚ) / 10 ≤ 3 by norm_num)
    rwa [f3] at this
  · have := fl_mono (show (3 : ℚ) ≤ 33 / 10 by norm_num)
    rwa [f3] at this
  · exact fl_mono (by norm_num)
  · have := fl_mono (show (37 : ℚ) / 10 ≤ 4 by norm_num)
    rwa [f4] at this

theorem points_mono_of_chain (pts : String → ℚ) (p17 p23 p27 p33 p37 : ℚ)
    (c1 : 1 ≤ p17) (c2 : p17 ≤ 2) (c3 : 2 ≤ p23) (c4 : p23 ≤ p27) (c5 : p27 ≤ 3)
    (c6 : 3 ≤ p33) (c7 : p33 ≤ p37) (c8 : p37 ≤ 4)
    (v1 : pts "A+" = 4) (v2 : pts "A" = 4) (v3 : pts "A-" = p37) (v4 : pts "B+" = p33)
    (v5 : pts "B" = 3) (v6 : pts "B-" = p27) (v7 : pts "C+" = p23) (v8 : pts "C" = 2)
    (v9 : pts "C-" = p17) (v10 : pts "D" = 1) (v11 : pts "F" = 0)
    {g g' : String} {b b' : ℚ} (hm : (g, b) ∈ gradeBands) (hm' : (g', b') ∈ gradeBands)
    (h : b ≤ b') : pts g ≤ pts g' := by
  simp only [gradeBands, List.mem_cons, Prod.mk.injEq, List.mem_singleton, List.mem_nil_iff,
    or_false] at hm hm'
  rcases hm with ⟨rfl, rfl⟩ | ⟨rfl, rfl⟩ | ⟨rfl, rfl⟩ | ⟨rfl, rfl⟩ | ⟨rfl, rfl⟩ | ⟨rfl, rfl⟩ |
    ⟨rfl, rfl⟩ | ⟨rfl, rfl⟩ | ⟨rfl, rfl⟩ | ⟨rfl, rfl⟩ | ⟨rfl, rfl⟩ <;>
  rcases hm' with ⟨rfl, rfl⟩ | ⟨rfl, rfl⟩ | ⟨rfl, rfl⟩ | ⟨rfl, rfl⟩ | ⟨rfl, rfl⟩ | ⟨rfl, rfl⟩ |
    ⟨rfl, rfl⟩ | ⟨rfl, rfl⟩ | ⟨rfl, rfl⟩ | ⟨rfl, rfl⟩ | ⟨rfl, rfl⟩ <;>
  first
    | (exfalso; linarith)
    | (simp only [v1, v2, v3, v4, v5, v6, v7, v8, v9, v10, v11]; linarith)

theorem gradePoints_mono_of_bounds {g g' : String} {b b' : ℚ} (hm : (g, b) ∈ gradeBands)
    (hm' : (g', b') ∈ gradeBands) (h : b ≤ b') :
    (gradePoints g).getD 0 ≤ (gradePoints g').getD 0 := by
  obtain ⟨c1, c2, c3, c4, c5, c6, c7, c8⟩ := gradePoints_chain
  exact points_mono_of_chain (fun g => (gradePoints g).getD 0) _ _ _ _ _ c1 c2 c3 c4 c5 c6 c7 c8
    rfl rfl rfl rfl rfl rfl rfl rfl rfl rfl rfl hm hm' h

/-- Claim C25: `calculateGrade` is monotone. For all totals `t1 <= t2` the lower bound of
the band of `calculateGrade(t1)` is at most the lower bound of the band of
`calculateGrade(t2)`, and the grade points of the first grade are at most those of the
second: more marks never give a lower grade. -/
theorem calculateGrade_monotone (t1 t2 : ℚ) (h : t1 ≤ t2) :
    bandLowerBound (calculateGrade t1) ≤ bandLowerBound (calculateGrade t2) ∧
    (gradePoints (calculateGrade t1)).getD 0 ≤ (gradePoints (calculateGrade t2)).getD 0 := by
  have hmono := gradePercentage_mono h
  have hband : ∀ t : ℚ, ∃ b, (calculateGrade t, b) ∈ gradeBands ∧
      (0 ≤ gradePercentage t → b ≤ gradePercentage t ∧
        ∀ g' b', (g', b') ∈ gradeBands → b' ≤ gradePercentage t → b' ≤ b) ∧
      (gradePercentage t < 0 → b = 0) := by
    intro t
    rcases le_or_lt 0 (gradePercentage t) with hp | hn
    · obtain ⟨b, hm, hle, hmax⟩ := isHighestBand_calculateGrade hp
      exact ⟨b, hm, fun _ => ⟨hle, hmax⟩, fun hneg => absurd hp (not_le.mpr hneg)⟩
    · have hF := calculateGrade_eq_F (t := t) (by linarith)
      refine ⟨0, ?_, fun hp => absurd hp (not_le.mpr hn), fun _ => rfl⟩
      rw [hF]
      simp [gradeBands]
  obtain ⟨b1, hm1, hpos1, hneg1⟩ := hband t1
  obtain ⟨b2, hm2, hpos2, hneg2⟩ := hband t2
  have hb2 : 0 ≤ b2 := by
    obtain ⟨n, hn⟩ := band_bound_is_nat hm2
    rw [hn]
    positivity
  have hle : b1 ≤ b2 := by
    rcases le_or_lt 0 (gradePercentage t1) with hp | hn
    · have hp2 : 0 ≤ gradePercentage t2 := le_trans hp hmono
      exact (hpos2 hp2).2 _ b1 hm1 (le_trans (hpos1 hp).1 hmono)
    · rw [hneg1 hn]
      exact hb2
  refine ⟨?_, gradePoints_mono_of_bounds hm1 hm2 hle⟩
  rw [bandLowerBound_of_mem hm1, bandLowerBound_of_mem hm2]
  exact hle

theorem calculateGrade_monotone_witness :
    bandLowerBound (calculateGrade 150) ≤ bandLowerBound (calculateGrade 190) ∧
    (gradePoints (calculateGrade 150)).getD 0 ≤ (gradePoints (calculateGrade 190)).getD 0 :=
  calculateGrade_monotone 150 190 (by norm_num)

/-! ## Rounded means -/

/-- `Math.round` of the binary64 quotient of a sum of percentages by their number is the
exact quotient rounded to the nearest integer, a tie going up: the quotient is below
`2 ^ 7`, so its rounding error is smaller than the distance `1 / (2 n)` that separates it
from a tie it does not meet. -/
theorem mathRound_fl_div (S : ℤ) (n : ℕ) (h0 : 0 ≤ S) (hn : 0 < n) (hn32 : n < 2 ^ 32)
    (hS : S ≤ 100 * n) : mathRound (fl ((S : ℚ) / (n : ℚ))) = round ((S : ℚ) / (n : ℚ)) := by
  have hnq : (0 : ℚ) < (n : ℚ) := by exact_mod_cast hn
  have hSq : (0 : ℚ) ≤ (S : ℚ) := by exact_mod_cast h0
  have hq0 : (0 : ℚ) ≤ (S : ℚ) / (n : ℚ) := by positivity
  have hq100 : (S : ℚ) / (n : ℚ) ≤ 100 := by
    rw [div_le_iff₀ hnq]
    exact_mod_cast hS
  rw [round_eq]
  unfold mathRound
  have hm1 := Int.floor_le ((S : ℚ) / (n : ℚ) + 1 / 2)
  have hm2 := Int.lt_floor_add_one ((S : ℚ) / (n : ℚ) + 1 / 2)
  have hm0 : 0 ≤ ⌊(S : ℚ) / (n : ℚ) + 1 / 2⌋ := Int.floor_nonneg.mpr (by linarith)
  generalize ⌊(S : ℚ) / (n : ℚ) + 1 / 2⌋ = m at hm0 hm1 hm2 ⊢
  rw [Int.floor_eq_iff]
  constructor
  · rcases hm0.eq_or_lt with hz | hpos
    · have := fl_nonneg hq0
      rw [← hz]
      push_cast
      linarith
    · obtain ⟨k, hk⟩ : ∃ k : ℕ, (k : ℤ) = 2 * m - 1 := ⟨(2 * m - 1).toNat,
        Int.toNat_of_nonneg (by omega)⟩
      have hkq : (k : ℚ) = 2 * (m : ℚ) - 1 := by exact_mod_cast hk
      have hmle : (m : ℚ) ≤ 101 := by linarith
      have hk53 : k < 2 ^ 53 := by
        have : (k : ℤ) ≤ 201 := by
          have : m ≤ 101 := by exact_mod_cast hmle
          omega
        have : k ≤ 201 := by exact_mod_cast this
        exact lt_of_le_of_lt this (by norm_num)
      have hrep := fl_natCast_div_two_pow k 1 hk53
      have hle : (k : ℚ) / 2 ^ 1 ≤ (S : ℚ) / (n : ℚ) := by
        rw [hkq]
        linarith
      have := fl_mono hle
      rw [hrep, hkq] at this
      linarith
  · have herr := fl_le_add_mul hq0
    have hlt : (S : ℚ) < ((m : ℚ) + 1 / 2) * (n : ℚ) := by
      rw [← div_lt_iff₀ hnq]
      linarith
    have hint : (2 * S : ℤ) < (2 * m + 1) * (n : ℤ) := by
      have : (2 * (S : ℚ)) < (2 * (m : ℚ) + 1) * (n : ℚ) := by linarith
      exact_mod_cast this
    have hint' : (2 * S + 1 : ℤ) ≤ (2 * m + 1) * (n : ℤ) := by omega
    have hgap : (S : ℚ) / (n : ℚ) + 1 / (2 * (n : ℚ)) ≤ (m : ℚ) + 1 / 2 := by
      have h1 : (2 * (S : ℚ) + 1) ≤ (2 * (m : ℚ) + 1) * (n : ℚ) := by exact_mod_cast hint'
      have h2 : (S : ℚ) / (n : ℚ) + 1 / (2 * (n : ℚ)) = (2 * (S : ℚ) + 1) / (2 * (n : ℚ)) := by
        field_simp
        ring
      rw [h2, div_le_iff₀ (by positivity)]
      linarith
    have hsmall : (S : ℚ) / (n : ℚ) * (1 / 2 ^ 53) < 1 / (2 * (n : ℚ)) := by
      have hn' : (n : ℚ) < 2 ^ 32 := by exact_mod_cast hn32
      have h1 : (S : ℚ) / (n : ℚ) * (1 / 2 ^ 53) ≤ 100 * (1 / 2 ^ 53) :=
        mul_le_mul_of_nonneg_right hq100 (by positivity)
      have h2 : (1 : ℚ) / (2 * 2 ^ 32) < 1 / (2 * (n : ℚ)) := by
        apply one_div_lt_one_div_of_lt (by positivity)
        linarith
      have h3 : (100 : ℚ) * (1 / 2 ^ 53) < 1 / (2 * 2 ^ 32) := by norm_num
      linarith
    linarith

/-! ## Course attendance summary -/

theorem foldl_add_eq_sum {α : Type} (g : α → ℤ) (l : List α) (acc : ℤ) :
    l.foldl (fun sum s => sum + g s) acc = acc + (l.map g).sum := by
  induction l generalizing acc with
  | nil => simp
  | cons x l ih =>
    rw [List.foldl_cons, ih, List.map_cons, List.sum_cons]
    ring

theorem sum_percentage_bounds (st : Store) (courseId : String) (l : List Student) :
    0 ≤ (l.map (fun s => (calculateAttendancePercentage st s.id courseId).percentage)).sum ∧
    (l.map (fun s => (calculateAttendancePercentage st s.id courseId).percentage)).sum ≤
      100 * (l.length : ℤ) := by
  induction l with
  | nil => simp
  | cons x l ih =>
    have hx := statsOf_invariants (getStudentCourseAttendance st x.id courseId)
    have h1 : 0 ≤ (calculateAttendancePercentage st x.id courseId).percentage := hx.1
    have h2 : (calculateAttendancePercentage st x.id courseId).percentage ≤ 100 := hx.2.1
    simp only [List.map_cons, List.sum_cons, List.length_cons]
    push_cast
    omega

theorem getCourseAttendanceSummary_averageAttendance (st : Store) (courseId : String) :
    (getCourseAttendanceSummary st courseId).averageAttendance =
      if _h : ((st.students.getD []).filter
          (fun s => s.enrolledCourses.contains courseId)).length > 0 then
        mathRound (fl (((((st.students.getD []).filter
            (fun s => s.enrolledCourses.contains courseId)).map
            (fun s => (calculateAttendancePercentage st s.id courseId).percentage)).sum : ℤ) /
          ((((st.students.getD []).filter
            (fun s => s.enrolledCourses.contains courseId)).length : ℕ) : ℚ)))
      else 0 := by
  unfold getCourseAttendanceSummary
  simp only [List.length_map, jsDiv, foldl_add_eq_sum, zero_add, List.map_map]
  rfl

/-- Claim C18: for every course, `getCourseAttendanceSummary(courseId).averageAttendance` is
the mean of the percentages `calculateAttendancePercentage` gives for the course to the
students enrolled in it, rounded to the nearest integer (a tie going up), and it is 0 when no
student is enrolled; an enrolled student without records contributes the percentage 0. The
number of enrolled students is below the greatest length `2 ^ 32 - 1` of a JavaScript
array. -/
theorem averageAttendance_is_rounded_mean (st : Store) (courseId : String) :
    ((st.students.getD []).filter (fun s => s.enrolledCourses.contains courseId) = [] →
      (getCourseAttendanceSummary st courseId).averageAttendance = 0) ∧
    ((st.students.getD []).filter (fun s => s.enrolledCourses.contains courseId) ≠ [] →
      ((st.students.getD []).filter
        (fun s => s.enrolledCourses.contains courseId)).length < 2 ^ 32 →
      (getCourseAttendanceSummary st courseId).averageAttendance =
        round (((((st.students.getD []).filter
            (fun s => s.enrolledCourses.contains courseId)).map
            (fun s => (calculateAttendancePercentage st s.id courseId).percentage)).sum : ℚ) /
          (((st.students.getD []).filter
            (fun s => s.enrolledCourses.contains courseId)).length : ℚ))) ∧
    (∀ s ∈ (st.students.getD []).filter (fun s => s.enrolledCourses.contains courseId),
      getStudentCourseAttendance st s.id courseId = [] →
      (calculateAttendancePercentage st s.id courseId).percentage = 0) := by
  refine ⟨?_, ?_, ?_⟩
  · intro h
    rw [getCourseAttendanceSummary_averageAttendance, h]
    simp
  · intro hne hlen
    have hpos : ((st.students.getD []).filter
        (fun s => s.enrolledCourses.contains courseId)).length > 0 :=
      List.length_pos.mpr hne
    rw [getCourseAttendanceSummary_averageAttendance, dif_pos hpos]
    have hb := sum_percentage_bounds st courseId
      ((st.students.getD []).filter (fun s => s.enrolledCourses.contains courseId))
    exact mathRound_fl_div _ _ hb.1 hpos hlen hb.2
  · intro s _ hnil
    unfold calculateAttendancePercentage
    rw [hnil, statsOf_nil]

theorem averageAttendance_is_rounded_mean_witness :
    (getCourseAttendanceSummary sampleStore "CS101").averageAttendance =
      round (((((sampleStore.students.getD []).filter
          (fun s => s.enrolledCourses.contains "CS101")).map
          (fun s => (calculateAttendancePercentage sampleStore s.id "CS101").percentage)).sum : ℚ) /
        (((sampleStore.students.getD []).filter
          (fun s => s.enrolledCourses.contains "CS101")).length : ℚ)) :=
  (averageAttendance_is_rounded_mean sampleStore "CS101").2.1 (by decide) (by decide)

theorem mem_uniqueValues {α : Type} [DecidableEq α] (l : List α) (x : α) :
    x ∈ uniqueValues l ↔ x ∈ l := by
  induction l with
  | nil => simp [uniqueValues]
  | cons a l ih =>
    simp only [uniqueValues, List.mem_cons, List.mem_filter, ih, decide_eq_true_eq]
    by_cases h : x = a
    · simp [h]
    · simp [h]

theorem nodup_uniqueValues {α : Type} [DecidableEq α] (l : List α) : (uniqueValues l).Nodup := by
  induction l with
  | nil => simp [uniqueValues]
  | cons a l ih =>
    simp only [uniqueValues, List.nodup_cons, List.mem_filter, decide_eq_true_eq, ne_eq,
      not_true_eq_false, and_false, not_false_eq_true, true_and]
    exact ih.filter _

theorem length_uniqueValues {α : Type} [DecidableEq α] (l : List α) :
    (uniqueValues l).length = l.toFinset.card := by
  rw [← List.toFinset_card_of_nodup (nodup_uniqueValues l)]
  congr 1
  ext x
  simp [mem_uniqueValues]

/-- Claim C19: for every course, `getCourseAttendanceSummary(courseId)` returns
`totalClasses` = the number of distinct dates among the attendance records of the course,
`totalStudents` = the number of students whose `enrolledCourses` contains `courseId`, one
`studentSummaries` entry per such student, in order, with the student's identifier, name and
statistics for the course, and the `courseName` `Unknown` when the course identifier is not in
the courses collection. -/
theorem getCourseAttendanceSummary_fields (st : Store) (courseId : String) :
    (getCourseAttendanceSummary st courseId).totalClasses =
      ((getCourseAttendance st courseId).map (fun a => a.date)).toFinset.card ∧
    (getCourseAttendanceSummary st courseId).totalStudents =
      ((st.students.getD []).filter (fun s => s.enrolledCourses.contains courseId)).length ∧
    (getCourseAttendanceSummary st courseId).studentSummaries =
      ((st.students.getD []).filter (fun s => s.enrolledCourses.contains courseId)).map
        (fun s => { toAttendanceStats := calculateAttendancePercentage st s.id courseId,
                    studentId := s.id, studentName := s.name }) ∧
    (getCourseAttendanceSummary st courseId).studentSummaries.length =
      ((st.students.getD []).filter (fun s => s.enrolledCourses.contains courseId)).length ∧
    ((∀ c ∈ st.courses.getD [], c.id ≠ courseId) →
      (getCourseAttendanceSummary st courseId).courseName = "Unknown") ∧
    (∀ c, (st.courses.getD []).find? (fun c => c.id == courseId) = some c →
      (getCourseAttendanceSummary st courseId).courseName = c.name) := by
  refine ⟨?_, rfl, rfl, ?_, ?_, ?_⟩
  · unfold getCourseAttendanceSummary getCourseAttendance
    simp only []
    exact length_uniqueValues _
  · unfold getCourseAttendanceSummary
    simp only [List.length_map]
  · intro h
    have hnone : (st.courses.getD []).find? (fun c => c.id == courseId) = none := by
      rw [List.find?_eq_none]
      intro c hc
      simpa using h c hc
    unfold getCourseAttendanceSummary
    simp only [hnone]
  · intro c hc
    unfold getCourseAttendanceSummary
    simp only [hc]

theorem getCourseAttendanceSummary_fields_witness :
    (getCourseAttendanceSummary sampleStore "CS101").courseName = "Unknown" :=
  (getCourseAttendanceSummary_fields sampleStore "CS101").2.2.2.2.1 (by decide)

/-! ## Bulk marking -/

theorem markBulkAttendance_foldl (env : ℕ → Env) (courseId date : String)
    (attendanceData : List BulkEntry) (i : ℕ) (st : Store) (k : ℕ) :
    (attendanceData.enumFrom i).foldl
      (fun (acc : Store × ℕ) data =>
        let result :=
          markAttendance (env data.1) acc.1 courseId data.2.studentId date data.2.status
        (result.1, if result.2.success then acc.2 + 1 else acc.2))
      (st, k) =
    (markEach env courseId date i attendanceData st, k + attendanceData.length) := by
  induction attendanceData generalizing i st k with
  | nil => simp [markEach]
  | cons e es ih =>
    rw [List.enumFrom_cons, List.foldl_cons]
    have hs : (markAttendance (env i) st courseId e.studentId date e.status).2.success = true :=
      rfl
    simp only [hs, if_true]
    rw [ih]
    simp only [markEach, List.length_cons]
    congr 1
    omega

/-- Claim C20: `markBulkAttendance(courseId, date, entries)` leaves the store, and so the
attendance collection, equal to the result of applying
`markAttendance(courseId, e.studentId, date, e.status)` for each entry `e` in list order,
and the count it reports is the number of entries, whatever students the entries name. -/
theorem markBulkAttendance_eq_markEach (env : ℕ → Env) (st : Store) (courseId date : String)
    (attendanceData : List BulkEntry) :
    (markBulkAttendance env st courseId date attendanceData).1 =
      markEach env courseId date 0 attendanceData st ∧
    (markBulkAttendance env st courseId date attendanceData).1.attendance =
      (markEach env courseId date 0 attendanceData st).attendance ∧
    (markBulkAttendanceLoop env st courseId date attendanceData).2 = attendanceData.length ∧
    (markBulkAttendance env st courseId date attendanceData).2 =
      { success := true
        message := "Attendance marked for " ++ toString attendanceData.length ++ " students" } ∧
    (∀ e es, markEach env courseId date 0 (e :: es) st =
      markEach env courseId date 1 es
        (markAttendance (env 0) st courseId e.studentId date e.status).1) := by
  have h : markBulkAttendanceLoop env st courseId date attendanceData =
      (markEach env courseId date 0 attendanceData st, attendanceData.length) := by
    unfold markBulkAttendanceLoop List.enum
    rw [markBulkAttendance_foldl]
    simp
  refine ⟨?_, ?_, ?_, ?_, fun e es => rfl⟩
  · simp [markBulkAttendance, h]
  · simp [markBulkAttendance, h]
  · rw [h]
  · simp [markBulkAttendance, h]

/-! ## A write that fails -/

/-- Claim C22, evaluated where the code departs from it: when the write of the results
collection fails, `saveResult` leaves the store as it was and still returns an object
whose `success` is true, so the click handler of the teacher page takes its success branch
and shows `Result saved successfully!`. -/
theorem saveResult_of_failed_write :
    (saveResult failingEnv gpaStore "CS101" "student002" sampleMarks).1 = gpaStore ∧
    (saveResult failingEnv gpaStore "CS101" "student002" sampleMarks).2.success = true ∧
    saveResultToast (saveResult failingEnv gpaStore "CS101" "student002" sampleMarks).2 =
      "Result saved successfully!" ∧
    getStudentCourseResult (saveResult failingEnv gpaStore "CS101" "student002" sampleMarks).1
      "student002" "CS101" = none ∧
    (∀ (env : Env) (st : Store) (c s : String) (m : Marks), env.writeOk = false →
      (saveResult env st c s m).1 = st ∧ (saveResult env st c s m).2.success = true) := by
  have hgen : ∀ (env : Env) (st : Store) (c s : String) (m : Marks), env.writeOk = false →
      (saveResult env st c s m).1 = st ∧ (saveResult env st c s m).2.success = true := by
    intro env st c s m hw
    simp [saveResult, StorageManager.set, hw]
  have h := hgen failingEnv gpaStore "CS101" "student002" sampleMarks rfl
  refine ⟨h.1, h.2, ?_, ?_, hgen⟩
  · unfold saveResultToast
    rw [h.2]
    rfl
  · rw [h.1]
    decide

/-! ## Absent collections -/

theorem getStudentsAtRisk_of_no_attendance (st : Store) (threshold : ℚ)
    (h : st.attendance = none) : getStudentsAtRisk st threshold = [] := by
  have hz : ∀ id, (getOverallAttendance st id).total = 0 := by
    intro id
    unfold getOverallAttendance
    rw [statsOf_total]
    simp [getStudentAttendance, h]
  unfold getStudentsAtRisk
  simp only []
  rw [getStudentsAtRisk_foldl]
  simp [hz, arraySort]

/-- Claim C24, amended: a collection that is absent from the store is read as the empty
collection. With no attendance stored `getStudentAttendance`, `getAttendanceByDate`,
`getRecentActivity` and `getStudentsAtRisk` return the empty list and `markAttendance`, when
its write persists, leaves a collection that holds exactly its new record; with no results
stored `getCourseResults` and `getStudentResults` return the empty list,
`getStudentCourseResult` returns `null` and `saveResult`, when its write persists, leaves a
collection that holds exactly its new record; with no students stored `getStudentsAtRisk`
returns the empty list. Every operation is a total function and the two writers report
success. -/
theorem absent_collection_is_empty (students : Option (List Student))
    (courses : Option (List Course)) (attendance : Option (List AttendanceRecord))
    (results : Option (List ResultRecord)) (currentUser : Option Session)
    (c s d status now : String) (m : Marks) (dateValue : String → Option ℤ) (limit : ℕ)
    (threshold : ℚ) :
    getStudentAttendance
      { students := students, courses := courses, attendance := none, results := results,
        currentUser := currentUser } s = [] ∧
    getAttendanceByDate
      { students := students, courses := courses, attendance := none, results := results,
        currentUser := currentUser } c d = [] ∧
    getRecentActivity dateValue
      { students := students, courses := courses, attendance := none, results := results,
        currentUser := currentUser } limit = [] ∧
    getStudentsAtRisk
      { students := students, courses := courses, attendance := none, results := results,
        currentUser := currentUser } threshold = [] ∧
    getStudentsAtRisk
      { students := none, courses := courses, attendance := attendance, results := results,
        currentUser := currentUser } threshold = [] ∧
    getCourseResults
      { students := students, courses := courses, attendance := attendance, results := none,
        currentUser := currentUser } c = [] ∧
    getStudentResults
      { students := students, courses := courses, attendance := attendance, results := none,
        currentUser := currentUser } s = [] ∧
    getStudentCourseResult
      { students := students, courses := courses, attendance := attendance, results := none,
        currentUser := currentUser } s c = none ∧
    markAttendance { now := now, writeOk := true }
      { students := students, courses := courses, attendance := none, results := results,
        currentUser := currentUser } c s d status =
      ({ students := students, courses := courses,
         attendance := some [
           { id := c ++ "_" ++ s ++ "_" ++ d, courseId := c, studentId := s, date := d,
             status := status,
             markedBy := match currentUser with
               | some u => u.userId
               | none => "system",
             markedAt := now }],
         results := results, currentUser := currentUser },
       { success := true, message := "Attendance marked successfully" }) ∧
    (saveResult { now := now, writeOk := true }
      { students := students, courses := courses, attendance := attendance, results := none,
        currentUser := currentUser } c s m).1 =
      { students := students, courses := courses, attendance := attendance,
        results := some [
          { id := c ++ "_" ++ s, courseId := c, studentId := s, quiz1 := orZero m.quiz1,
            quiz2 := orZero m.quiz2, midterm := orZero m.midterm, final := orZero m.final,
            assignment := orZero m.assignment, totalMarks := calculateTotal m,
            grade := calculateGrade (calculateTotal m), updatedAt := some now }],
        currentUser := currentUser } ∧
    (saveResult { now := now, writeOk := true }
      { students := students, courses := courses, attendance := attendance, results := none,
        currentUser := currentUser } c s m).2.success = true := by
  refine ⟨rfl, rfl, ?_, ?_, ?_, rfl, rfl, rfl, rfl, rfl, rfl⟩
  · simp [getRecentActivity, arraySort]
  · exact getStudentsAtRisk_of_no_attendance _ _ rfl
  · simp [getStudentsAtRisk, arraySort]

/-! ## Attendance: what a marking leaves alone -/

theorem getElem?_replaceFirst_of_false {α : Type} (p : α → Bool) (r : α) (xs : List α)
    (i : ℕ) (y : α) (hy : xs[i]? = some y) (hp : p y = false) :
    (replaceFirst p r xs)[i]? = some y := by
  induction xs generalizing i with
  | nil => simp at hy
  | cons x xs ih =>
    cases i with
    | zero =>
      simp only [List.getElem?_cons_zero, Option.some.injEq] at hy
      subst hy
      simp [replaceFirst, hp]
    | succ i =>
      simp only [List.getElem?_cons_succ] at hy
      by_cases hx : p x = true
      · simp [replaceFirst, hx, hy]
      · simp only [replaceFirst, hx, Bool.false_eq_true, if_false, List.getElem?_cons_succ]
        exact ih i hy

theorem replaceFirst_of_mem {α : Type} (p : α → Bool) (r : α) (xs : List α)
    (h : ∃ y ∈ xs, p y = true) :
    ∃ pre x post, xs = pre ++ x :: post ∧ (∀ y ∈ pre, p y = false) ∧ p x = true ∧
      replaceFirst p r xs = pre ++ r :: post := by
  induction xs with
  | nil => simp at h
  | cons x xs ih =>
    by_cases hx : p x = true
    · exact ⟨[], x, xs, rfl, by simp, hx, by simp [replaceFirst, hx]⟩
    · obtain ⟨y, hy, hpy⟩ := h
      have hy' : y ∈ xs := by
        rcases List.mem_cons.mp hy with rfl | h'
        · exact absurd hpy hx
        · exact h'
      obtain ⟨pre, z, post, h1, h2, h3, h4⟩ := ih ⟨y, hy', hpy⟩
      refine ⟨x :: pre, z, post, by rw [h1]; rfl, ?_, h3, ?_⟩
      · intro w hw
        rcases List.mem_cons.mp hw with rfl | h'
        · simpa using hx
        · exact h2 w h'
      · simp [replaceFirst, hx, h4]

theorem replaceFirst_of_not_mem {α : Type} (p : α → Bool) (r : α) (xs : List α)
    (h : ∀ y ∈ xs, p y = false) : replaceFirst p r xs = xs ++ [r] := by
  induction xs with
  | nil => rfl
  | cons x xs ih =>
    have hx : p x = false := h x (List.mem_cons_self x xs)
    simp only [replaceFirst, hx, Bool.false_eq_true, if_false, List.cons_append]
    rw [ih (fun y hy => h y (List.mem_cons_of_mem x hy))]

theorem filter_not_replaceFirst {α : Type} (p : α → Bool) (r : α) (hr : p r = true)
    (xs : List α) :
    (replaceFirst p r xs).filter (fun a => !p a) = xs.filter (fun a => !p a) := by
  induction xs with
  | nil => simp [replaceFirst, hr]
  | cons x xs ih =>
    by_cases hx : p x = true
    · simp [replaceFirst, hx, hr]
    · simp [replaceFirst, hx, ih]

/-- Claim C28, amended: when the write persists, `markAttendance(c, s, d, status)` changes at most
one position of the attendance collection. Every record whose triple differs from
`(c, s, d)` stays at its index, and the records with another triple are the same list in
the same order before and after. If a record with the triple exists, the first such record
is replaced in place by the new record and the length is unchanged; otherwise the new
record is appended at the end and the length grows by exactly one. -/
theorem markAttendance_frame (env : Env) (st : Store) (c s d status : String)
    (hw : env.writeOk = true) :
    (∀ (i : ℕ) (y : AttendanceRecord), (st.attendance.getD [])[i]? = some y →
      (y.courseId == c && y.studentId == s && y.date == d) = false →
      ((markAttendance env st c s d status).1.attendance.getD [])[i]? = some y) ∧
    ((markAttendance env st c s d status).1.attendance.getD []).filter
        (fun a => !(a.courseId == c && a.studentId == s && a.date == d)) =
      (st.attendance.getD []).filter
        (fun a => !(a.courseId == c && a.studentId == s && a.date == d)) ∧
    ((∃ y ∈ st.attendance.getD [],
        (y.courseId == c && y.studentId == s && y.date == d) = true) →
      ∃ pre x post, st.attendance.getD [] = pre ++ x :: post ∧
        (∀ y ∈ pre, (y.courseId == c && y.studentId == s && y.date == d) = false) ∧
        (x.courseId == c && x.studentId == s && x.date == d) = true ∧
        (markAttendance env st c s d status).1.attendance.getD [] =
          pre ++ { id := c ++ "_" ++ s ++ "_" ++ d, courseId := c, studentId := s, date := d,
                   status := status,
                   markedBy := match st.currentUser with
                     | some u => u.userId
                     | none => "system",
                   markedAt := env.now } :: post ∧
        ((markAttendance env st c s d status).1.attendance.getD []).length =
          (st.attendance.getD []).length) ∧
    ((∀ y ∈ st.attendance.getD [],
        (y.courseId == c && y.studentId == s && y.date == d) = false) →
      (markAttendance env st c s d status).1.attendance.getD [] =
        st.attendance.getD [] ++
          [{ id := c ++ "_" ++ s ++ "_" ++ d, courseId := c, studentId := s, date := d,
             status := status,
             markedBy := match st.currentUser with
               | some u => u.userId
               | none => "system",
             markedAt := env.now }] ∧
      ((markAttendance env st c s d status).1.attendance.getD []).length =
        (st.attendance.getD []).length + 1) := by
  rw [markAttendance_attendance env st c s d status hw, Option.getD_some]
  refine ⟨?_, ?_, ?_, ?_⟩
  · intro i y hy hp
    exact getElem?_replaceFirst_of_false _ _ _ i y hy hp
  · exact filter_not_replaceFirst _ _ (by simp) _
  · intro h
    obtain ⟨pre, x, post, h1, h2, h3, h4⟩ := replaceFirst_of_mem
      (fun a : AttendanceRecord => a.courseId == c && a.studentId == s && a.date == d)
      { id := c ++ "_" ++ s ++ "_" ++ d, courseId := c, studentId := s, date := d,
        status := status,
        markedBy := match st.currentUser with
          | some u => u.userId
          | none => "system",
        markedAt := env.now } (st.attendance.getD []) h
    obtain ⟨y, hy, hpy⟩ := h
    exact ⟨pre, x, post, h1, h2, h3, h4, length_replaceFirst_of_mem _ _ _ hy hpy⟩
  · intro h
    rw [replaceFirst_of_not_mem _ _ _ h]
    exact ⟨rfl, by simp⟩

theorem markAttendance_frame_witness :
    ((markAttendance sampleEnv frameStore "CS101" "student001" "2024-11-04"
        "present").1.attendance.getD [])[0]? =
      some (frameRecord "student002" "present") ∧
    ((markAttendance sampleEnv frameStore "CS101" "student001" "2024-11-04"
        "present").1.attendance.getD []).filter
        (fun a => !(a.courseId == "CS101" && a.studentId == "student001" &&
          a.date == "2024-11-04")) =
      (frameStore.attendance.getD []).filter
        (fun a => !(a.courseId == "CS101" && a.studentId == "student001" &&
          a.date == "2024-11-04")) :=
  ⟨(markAttendance_frame sampleEnv frameStore "CS101" "student001" "2024-11-04" "present"
      rfl).1 0 _ rfl (by decide),
   (markAttendance_frame sampleEnv frameStore "CS101" "student001" "2024-11-04" "present"
      rfl).2.1⟩

/-! ## Totals: binary64 sums of integers -/

theorem roundHalfEven_tie_of_even (n : ℤ) (h : n % 2 = 0) :
    roundHalfEven ((n : ℚ) + 1 / 2) = n := by
  have hf : ⌊(n : ℚ) + 1 / 2⌋ = n := by
    rw [Int.floor_eq_iff]
    constructor <;> linarith
  unfold roundHalfEven
  rw [hf]
  have h1 : ¬ ((n : ℚ) + 1 / 2 - (n : ℚ) < 1 / 2) := by
    rw [add_sub_cancel_left]
    exact lt_irrefl _
  have h2 : ¬ ((1 : ℚ) / 2 < (n : ℚ) + 1 / 2 - (n : ℚ)) := by
    rw [add_sub_cancel_left]
    exact lt_irrefl _
  rw [if_neg h1, if_neg h2, if_pos h]

/-- The sum `2 ^ 53 + 1` is half way between two binary64 values and rounds to the one
with the even significand, `2 ^ 53`. -/
theorem jsAddInt_two_pow_53_one : jsAddInt 9007199254740992 1 = 9007199254740992 := by
  unfold jsAddInt
  have hx : ((9007199254740992 : ℤ) : ℚ) + ((1 : ℤ) : ℚ) = 9007199254740993 := by norm_num
  rw [hx]
  have hfl : fl (9007199254740993 : ℚ) = 9007199254740992 := by
    unfold fl
    rw [if_pos (by norm_num)]
    unfold flMag ulp
    rw [log_two_eq (e := 53) (by norm_num) (by norm_num)]
    have hq : (9007199254740993 : ℚ) / (2 : ℚ) ^ ((53 : ℤ) - 52) =
        ((4503599627370496 : ℤ) : ℚ) + 1 / 2 := by norm_num
    rw [hq, roundHalfEven_tie_of_even _ (by decide)]
    norm_num
  rw [hfl]
  exact Int.floor_eq_iff.mpr (by constructor <;> norm_num)

theorem calculateTotal_two_pow_53_one :
    calculateTotal { quiz1 := some 9007199254740992, quiz2 := some 1 } = 9007199254740992 := by
  unfold calculateTotal
  simp only [orZero, Option.getD_some, Option.getD_none]
  rw [jsAddInt_two_pow_53_one]
  have h0 : jsAddInt 9007199254740992 0 = 9007199254740992 := by
    unfold jsAddInt
    have hx : ((9007199254740992 : ℤ) : ℚ) + ((0 : ℤ) : ℚ) = 9007199254740992 := by norm_num
    rw [hx]
    have hfl : fl (9007199254740992 : ℚ) = 9007199254740992 := by
      have h := fl_eq_of_bounds (x := (9007199254740992 : ℚ)) 53 4503599627370496
        (by norm_num) (by norm_num) (by norm_num) (by norm_num)
      rw [h]
      norm_num
    rw [hfl]
    exact Int.floor_eq_iff.mpr (by constructor <;> norm_num)
  rw [h0, h0, h0]

/-- Claim C3, as stated, fails at the marks `{quiz1: 2 ^ 53, quiz2: 1}`: the components sum
to `2 ^ 53 + 1`, and `calculateTotal` returns the binary64 sum `2 ^ 53`. -/
theorem calculateTotal_not_exact_sum :
    calculateTotal { quiz1 := some 9007199254740992, quiz2 := some 1 } = 9007199254740992 ∧
    calculateTotal { quiz1 := some 9007199254740992, quiz2 := some 1 } ≠
      9007199254740992 + 1 + 0 + 0 + 0 := by
  have h := calculateTotal_two_pow_53_one
  exact ⟨h, by rw [h]; decide⟩

/-- Claim C3, amended: for every marks object whose partial sums `quiz1 + quiz2`,
`... + midterm`, `... + final` and `... + assignment` (a missing component counting as 0)
are below `2 ^ 53` in magnitude, `calculateTotal(marks)` is the sum of the five components,
a missing component counting as 0. The function is total: an absent field never makes it
fail, and the object with no component at all gives 0. -/
theorem calculateTotal_missing_as_zero (marks : Marks)
    (h1 : |marks.quiz1.getD 0 + marks.quiz2.getD 0| < 2 ^ 53)
    (h2 : |marks.quiz1.getD 0 + marks.quiz2.getD 0 + marks.midterm.getD 0| < 2 ^ 53)
    (h3 : |marks.quiz1.getD 0 + marks.quiz2.getD 0 + marks.midterm.getD 0 +
      marks.final.getD 0| < 2 ^ 53)
    (h4 : |marks.quiz1.getD 0 + marks.quiz2.getD 0 + marks.midterm.getD 0 +
      marks.final.getD 0 + marks.assignment.getD 0| < 2 ^ 53) :
    calculateTotal marks =
      marks.quiz1.getD 0 + marks.quiz2.getD 0 + marks.midterm.getD 0 + marks.final.getD 0 +
        marks.assignment.getD 0 ∧
    calculateTotal {} = 0 ∧
    calculateTotal { quiz1 := some 18, quiz2 := some 17, final := some 85,
                     assignment := some 28 } = 148 := by
  refine ⟨calculateTotal_of_partial_sums marks h1 h2 h3 h4, ?_, ?_⟩
  · rw [calculateTotal_of_partial_sums] <;> simp [orZero]
  · rw [calculateTotal_of_partial_sums] <;> simp [orZero]

theorem calculateTotal_missing_as_zero_witness :
    calculateTotal sampleMarks =
      sampleMarks.quiz1.getD 0 + sampleMarks.quiz2.getD 0 + sampleMarks.midterm.getD 0 +
        sampleMarks.final.getD 0 + sampleMarks.assignment.getD 0 ∧
    sampleMarks.quiz1.getD 0 + sampleMarks.quiz2.getD 0 + sampleMarks.midterm.getD 0 +
        sampleMarks.final.getD 0 + sampleMarks.assignment.getD 0 = 190 :=
  ⟨(calculateTotal_missing_as_zero sampleMarks (by decide) (by decide) (by decide)
      (by decide)).1, by decide⟩

theorem fl_natCast_isInt (n : ℕ) : ∃ z : ℤ, fl (n : ℚ) = z := by
  by_cases hn : n < 2 ^ 53
  · exact ⟨n, by simpa using fl_natCast n hn⟩
  · have hge : (2 : ℚ) ^ (53 : ℤ) ≤ (n : ℚ) := by
      have : (2 : ℕ) ^ 53 ≤ n := not_lt.mp hn
      have h2 : ((2 ^ 53 : ℕ) : ℚ) ≤ (n : ℚ) := by exact_mod_cast this
      have h3 : ((2 ^ 53 : ℕ) : ℚ) = (2 : ℚ) ^ (53 : ℤ) := by norm_num
      rw [h3] at h2
      exact h2
    have hpos : (0 : ℚ) < (n : ℚ) := lt_of_lt_of_le (by positivity) hge
    have hlog : (53 : ℤ) ≤ Int.log 2 (n : ℚ) :=
      (Int.zpow_le_iff_le_log (b := 2) (by norm_num) hpos).mp (by simpa using hge)
    obtain ⟨k, hk⟩ : ∃ k : ℕ, (k : ℤ) = Int.log 2 (n : ℚ) - 52 :=
      ⟨(Int.log 2 (n : ℚ) - 52).toNat, Int.toNat_of_nonneg (by omega)⟩
    refine ⟨roundHalfEven ((n : ℚ) / ulp (n : ℚ)) * 2 ^ k, ?_⟩
    unfold fl
    rw [if_pos hpos.le]
    unfold flMag
    have hu : ulp (n : ℚ) = (2 : ℚ) ^ k := by
      unfold ulp
      rw [← hk, zpow_natCast]
    rw [hu]
    push_cast
    rfl

theorem fl_intCast_isInt (z : ℤ) : ∃ n : ℤ, fl (z : ℚ) = n := by
  rcases le_total 0 z with h0 | h0
  · obtain ⟨n, rfl⟩ := Int.eq_ofNat_of_zero_le h0
    simpa using fl_natCast_isInt n
  · obtain ⟨n, hn⟩ := Int.eq_ofNat_of_zero_le (neg_nonneg.mpr h0)
    obtain ⟨m, hm⟩ := fl_natCast_isInt n
    refine ⟨-m, ?_⟩
    have hz : (z : ℚ) = -(n : ℚ) := by
      have : z = -(n : ℤ) := by omega
      rw [this]
      push_cast
      rfl
    rw [hz, fl_neg, hm]
    push_cast
    rfl

/-- The floor in `jsAddInt` only changes the type: the binary64 sum of two integers is an
integer. -/
theorem jsAddInt_cast (a b : ℤ) : ((jsAddInt a b : ℤ) : ℚ) = fl ((a : ℚ) + (b : ℚ)) := by
  unfold jsAddInt
  obtain ⟨n, hn⟩ := fl_intCast_isInt (a + b)
  have hc : ((a : ℚ) + (b : ℚ)) = ((a + b : ℤ) : ℚ) := by push_cast; ring
  rw [hc, hn, Int.floor_intCast]

/-! ## Recent activity -/

theorem orderedInsert_congr {α : Type} (r s : α → α → Prop) [DecidableRel r] [DecidableRel s]
    (a : α) (l : List α) (h : ∀ b ∈ l, r a b ↔ s a b) :
    List.orderedInsert r a l = List.orderedInsert s a l := by
  induction l with
  | nil => rfl
  | cons b l ih =>
    have hb := h b (List.mem_cons_self b l)
    by_cases hr : r a b
    · rw [List.orderedInsert, List.orderedInsert, if_pos hr, if_pos (hb.mp hr)]
    · rw [List.orderedInsert, List.orderedInsert, if_neg hr, if_neg (fun hs => hr (hb.mpr hs)),
        ih (fun c hc => h c (List.mem_cons_of_mem b hc))]

theorem insertionSort_congr {α : Type} (r s : α → α → Prop) [DecidableRel r] [DecidableRel s]
    (l : List α) (h : ∀ a ∈ l, ∀ b ∈ l, r a b ↔ s a b) :
    List.insertionSort r l = List.insertionSort s l := by
  induction l with
  | nil => rfl
  | cons a l ih =>
    rw [List.insertionSort, List.insertionSort,
      ih (fun x hx y hy => h x (List.mem_cons_of_mem a hx) y (List.mem_cons_of_mem a hy))]
    apply orderedInsert_congr
    intro b hb
    have hb' : b ∈ l := (List.perm_insertionSort s l).subset hb
    exact h a (List.mem_cons_self a l) b (List.mem_cons_of_mem a hb')

theorem getRecentActivity_of_valid (dateValue : String → Option ℤ) (tv : String → ℤ)
    (st : Store) (limit : ℕ)
    (hv : ∀ r ∈ st.attendance.getD [], dateValue r.markedAt = some (tv r.markedAt)) :
    getRecentActivity dateValue st limit =
      (arraySort (fun a b : AttendanceRecord => tv b.markedAt - tv a.markedAt)
        (st.attendance.getD [])).take limit := by
  unfold getRecentActivity arraySort
  simp only []
  congr 1
  apply insertionSort_congr
  intro a ha b hb
  unfold compareRecent
  rw [hv a ha, hv b hb]

/-- Claim C21, as stated, fails on a collection with a `markedAt` that is not a date: of the
records marked at 10:00, at `not a date` and at 11:00, in this order, `getRecentActivity(1)`
returns the record marked at 10:00 and omits the record marked at 11:00, which is later. -/
theorem getRecentActivity_not_most_recent :
    getRecentActivity sampleDateValue recentStore 1 =
      [recentRecord "student001" "2024-11-05T10:00:00.000Z"] ∧
    recentRecord "student003" "2024-11-05T11:00:00.000Z" ∈ recentStore.attendance.getD [] ∧
    recentRecord "student003" "2024-11-05T11:00:00.000Z" ∉
      getRecentActivity sampleDateValue recentStore 1 ∧
    sampleDateValue "2024-11-05T10:00:00.000Z" = some 1730800800000 ∧
    sampleDateValue "2024-11-05T11:00:00.000Z" = some 1730804400000 ∧
    ¬ ((1730804400000 : ℤ) ≤ 1730800800000) := by
  decide

/-- Claim C21, amended: for every attendance collection whose `markedAt` values all parse
as dates (`tv` gives their time values) and every limit, `getRecentActivity(limit)` returns
`min(limit, n)` records of the collection, sorted descending by `markedAt`, and every
record it omits has a `markedAt` no later than every record it returns. -/
theorem getRecentActivity_most_recent (dateValue : String → Option ℤ) (tv : String → ℤ)
    (st : Store) (limit : ℕ)
    (hv : ∀ r ∈ st.attendance.getD [], dateValue r.markedAt = some (tv r.markedAt)) :
    (getRecentActivity dateValue st limit).length = min limit (st.attendance.getD []).length ∧
    (getRecentActivity dateValue st limit).Pairwise
      (fun a b => tv b.markedAt ≤ tv a.markedAt) ∧
    ∃ omitted, List.Perm (getRecentActivity dateValue st limit ++ omitted)
        (st.attendance.getD []) ∧
      ∀ x ∈ getRecentActivity dateValue st limit, ∀ y ∈ omitted,
        tv y.markedAt ≤ tv x.markedAt := by
  have hcmp : ∀ a b : AttendanceRecord,
      tv b.markedAt - tv a.markedAt ≤ 0 ↔ -tv a.markedAt ≤ -tv b.markedAt :=
    fun a b => by omega
  have hs := arraySort_pairwise
    (fun a b : AttendanceRecord => tv b.markedAt - tv a.markedAt)
    (fun a => -tv a.markedAt) hcmp (st.attendance.getD [])
  have hs' : (arraySort
      (fun a b : AttendanceRecord => tv b.markedAt - tv a.markedAt)
      (st.attendance.getD [])).Pairwise
      (fun a b => tv b.markedAt ≤ tv a.markedAt) :=
    hs.imp (fun h => by omega)
  have hperm := arraySort_perm
    (fun a b : AttendanceRecord => tv b.markedAt - tv a.markedAt)
    (st.attendance.getD [])
  rw [getRecentActivity_of_valid dateValue tv st limit hv]
  refine ⟨?_, ?_, ?_⟩
  · rw [List.length_take, arraySort_length]
  · exact hs'.sublist (List.take_sublist _ _)
  · refine ⟨(arraySort
      (fun a b : AttendanceRecord => tv b.markedAt - tv a.markedAt)
      (st.attendance.getD [])).drop limit, ?_, ?_⟩
    · rw [List.take_append_drop]
      exact hperm
    · intro x hx y hy
      have := hs'
      rw [← List.take_append_drop limit (arraySort
        (fun a b : AttendanceRecord => tv b.markedAt - tv a.markedAt)
        (st.attendance.getD []))] at this
      exact (List.pairwise_append.mp this).2.2 x hx y hy

theorem getRecentActivity_most_recent_witness :
    (getRecentActivity sampleDateValue recentValidStore 2).length =
      min 2 (recentValidStore.attendance.getD []).length ∧
    (getRecentActivity sampleDateValue recentValidStore 2).Pairwise
      (fun a b => (sampleDateValue b.markedAt).getD 0 ≤ (sampleDateValue a.markedAt).getD 0) ∧
    getRecentActivity sampleDateValue recentValidStore 2 =
      [recentRecord "student002" "2024-11-05T11:00:00.000Z",
       recentRecord "student001" "2024-11-05T10:00:00.000Z"] :=
  have h := getRecentActivity_most_recent sampleDateValue
    (fun s => (sampleDateValue s).getD 0) recentValidStore 2 (by decide)
  ⟨h.1, h.2.1, by decide⟩

/-! ## Grade point average: evaluation -/

theorem getStudentGPA_of_fold (st : Store) (studentId : String) (tp : Option ℚ) (tc : ℤ)
    (hne : (getStudentResults st studentId).length ≠ 0)
    (hfold : (getStudentResults st studentId).foldl (addResultPoints (st.courses.getD []))
      (some 0, 0) = (tp, tc)) :
    getStudentGPA st studentId =
      { gpa := if 0 < tc then tp.map (fun t => toFixed2 (fl (t / (tc : ℚ)))) else some 0,
        totalCredits := tc } := by
  unfold getStudentGPA
  simp only [hne, if_false, hfold, jsDiv, gt_iff_lt]
  split_ifs <;> rfl

/-- Claim C12, evaluated where the code departs from it: a student with the grades `A`, `A`,
`A` and `C+` in four existing courses of 3 credits has the credit-weighted mean
`(4 * 3 + 4 * 3 + 4 * 3 + 2.3 * 3) / 12 = 3.575`, which rounds to 3.58 to two decimal places
(with the tie going up, as in `toFixed`, and also with the tie going to the even digit);
`getStudentGPA` returns `totalCredits = 12` and the gpa 3.57. -/
theorem getStudentGPA_three_A_one_C_plus :
    getStudentGPA gpaStore "student001" = { gpa := some (357 / 100), totalCredits := 12 } ∧
    ((4 : ℚ) * 3 + 4 * 3 + 4 * 3 + 23 / 10 * 3) / 12 = 3575 / 1000 ∧
    toFixed2 (((4 : ℚ) * 3 + 4 * 3 + 4 * 3 + 23 / 10 * 3) / 12) = 358 / 100 := by
  refine ⟨?_, by norm_num, ?_⟩
  · have hres : getStudentResults gpaStore "student001" =
        [sampleResult "CS101" "student001" 190 "A", sampleResult "CS301" "student001" 188 "A",
         sampleResult "CS401" "student001" 187 "A",
         sampleResult "CS501" "student001" 135 "C+"] := by decide
    have hfold : (getStudentResults gpaStore "student001").foldl
        (addResultPoints (gpaStore.courses.getD [])) (some 0, 0) =
        (some (fl (36 + fl (fl (23 / 10) * 3))), 12) := by
      rw [hres]
      simp [addResultPoints, addNumbers, pointsTimesCredits, gpaStore, sampleCourse,
        sampleResult, gradePoints, creditsOrDefault, jsAdd, jsMul]
      norm_num [fl_12, fl_24, fl_36]
    rw [getStudentGPA_of_fold gpaStore "student001" _ _ (by rw [hres]; decide) hfold]
    have h := gpa_value_of_three_A_one_C_plus
    norm_num at h ⊢
    exact h
  · unfold toFixed2
    rw [if_neg (by norm_num)]
    have hf : ⌊((4 : ℚ) * 3 + 4 * 3 + 4 * 3 + 23 / 10 * 3) / 12 * 100 + 1 / 2⌋ = 358 := by
      rw [Int.floor_eq_iff]
      constructor <;> norm_num
    rw [hf]
    norm_num

theorem foldl_addResultPoints_of_no_course (courses : List Course) (rs : List ResultRecord)
    (acc : Option ℚ × ℤ) (h : ∀ r ∈ rs, ∀ c ∈ courses, c.id ≠ r.courseId) :
    rs.foldl (addResultPoints courses) acc = acc := by
  induction rs generalizing acc with
  | nil => rfl
  | cons r rs ih =>
    have hr : courses.find? (fun c => c.id == r.courseId) = none := by
      rw [List.find?_eq_none]
      intro c hc
      simpa using h r (List.mem_cons_self r rs) c hc
    have hstep : addResultPoints courses acc r = acc := by
      simp [addResultPoints, hr]
    rw [List.foldl_cons, hstep]
    exact ih acc (fun r' hr' => h r' (List.mem_cons_of_mem r hr'))

/-- Claim C13: for every student with zero valid results (no results at all, or only
results whose course is not in the courses collection), `getStudentGPA` returns `gpa = 0`
and `totalCredits = 0`. The quotient is not formed: the division of the embedding is only
typed under the guard `totalCredits > 0`. -/
theorem getStudentGPA_of_no_valid_results (st : Store) (studentId : String)
    (h : ∀ r ∈ getStudentResults st studentId, ∀ c ∈ st.courses.getD [], c.id ≠ r.courseId) :
    getStudentGPA st studentId = { gpa := some 0, totalCredits := 0 } := by
  by_cases hlen : (getStudentResults st studentId).length = 0
  · simp [getStudentGPA, hlen]
  · rw [getStudentGPA_of_fold st studentId (some 0) 0 hlen
      (foldl_addResultPoints_of_no_course _ _ _ h)]
    simp

theorem getStudentGPA_of_no_valid_results_witness :
    getStudentGPA danglingStore "student001" = { gpa := some 0, totalCredits := 0 } ∧
    getStudentGPA danglingStore "student002" = { gpa := some 0, totalCredits := 0 } :=
  ⟨getStudentGPA_of_no_valid_results danglingStore "student001" (by decide),
   getStudentGPA_of_no_valid_results danglingStore "student002" (by decide)⟩

/-! ## Grade point average: bounds -/

theorem fl_fl_of_nonneg {x : ℚ} (hx : 0 ≤ x) : fl (fl x) = fl x := by
  rcases hx.lt_or_eq with hpos | h0
  · have hfl : fl x = flMag x := by
      unfold fl
      rw [if_pos hx]
    rw [hfl]
    have h1 := le_flMag hpos
    have h2 := flMag_le x
    have hm0 : 0 ≤ flMag x := flMag_nonneg hx
    rcases h2.lt_or_eq with hlt | heq
    · have hlog : Int.log 2 (flMag x) = Int.log 2 x := log_two_eq h1 hlt
      apply fl_eq_self_of_int hm0 (roundHalfEven (x / ulp x))
      have hu : ulp (flMag x) = ulp x := by
        unfold ulp
        rw [hlog]
      rw [hu]
      unfold flMag
      exact mul_div_cancel_right₀ _ (ulp_pos x).ne'
    · rw [heq]
      have hlog : Int.log 2 ((2 : ℚ) ^ (Int.log 2 x + 1)) = Int.log 2 x + 1 :=
        log_two_eq le_rfl (zpow_lt_zpow_right₀ (by norm_num) (by omega))
      apply fl_eq_self_of_int (by positivity) ((2 : ℤ) ^ 52)
      unfold ulp
      rw [hlog, ← zpow_sub₀ (by norm_num : (2 : ℚ) ≠ 0)]
      have : Int.log 2 x + 1 - (Int.log 2 x + 1 - 52) = (52 : ℕ) := by
        push_cast
        ring
      rw [this, zpow_natCast]
      norm_num
  · rw [← h0, fl_zero, fl_zero]

theorem fl_fl (x : ℚ) : fl (fl x) = fl x := by
  rcases le_total 0 x with h | h
  · exact fl_fl_of_nonneg h
  · have hx : x = -(-x) := (neg_neg x).symm
    rw [hx, fl_neg, fl_neg, fl_fl_of_nonneg (neg_nonneg.mpr h)]

theorem fl_intCast_of_nonneg (z : ℤ) (h0 : 0 ≤ z) (h : z < 2 ^ 53) : fl (z : ℚ) = z := by
  obtain ⟨n, rfl⟩ := Int.eq_ofNat_of_zero_le h0
  have hn : n < 2 ^ 53 := by exact_mod_cast h
  simpa using fl_natCast n hn

theorem gradePoints_getD_bounds (g : String) :
    0 ≤ (gradePoints g).getD 0 ∧ (gradePoints g).getD 0 ≤ 4 := by
  obtain ⟨c1, c2, c3, c4, c5, c6, c7, c8⟩ := gradePoints_chain
  unfold gradePoints
  by_cases h0 : g = "A+"
  · rw [if_pos h0, Option.getD_some]
    constructor <;> linarith
  rw [if_neg h0]
  by_cases h1 : g = "A"
  · rw [if_pos h1, Option.getD_some]
    constructor <;> linarith
  rw [if_neg h1]
  by_cases h2 : g = "A-"
  · rw [if_pos h2, Option.getD_some]
    constructor <;> linarith
  rw [if_neg h2]
  by_cases h3 : g = "B+"
  · rw [if_pos h3, Option.getD_some]
    constructor <;> linarith
  rw [if_neg h3]
  by_cases h4 : g = "B"
  · rw [if_pos h4, Option.getD_some]
    constructor <;> linarith
  rw [if_neg h4]
  by_cases h5 : g = "B-"
  · rw [if_pos h5, Option.getD_some]
    constructor <;> linarith
  rw [if_neg h5]
  by_cases h6 : g = "C+"
  · rw [if_pos h6, Option.getD_some]
    constructor <;> linarith
  rw [if_neg h6]
  by_cases h7 : g = "C"
  · rw [if_pos h7, Option.getD_some]
    constructor <;> linarith
  rw [if_neg h7]
  by_cases h8 : g = "C-"
  · rw [if_pos h8, Option.getD_some]
    constructor <;> linarith
  rw [if_neg h8]
  by_cases h9 : g = "D"
  · rw [if_pos h9, Option.getD_some]
    constructor <;> linarith
  rw [if_neg h9]
  by_cases h10 : g = "F"
  · rw [if_pos h10, Option.getD_some]
    constructor <;> linarith
  rw [if_neg h10]
  rw [Option.getD_none]
  constructor <;> norm_num

theorem pointsTimesCredits_of_not_inherited (grade : String) (credits : ℤ)
    (h : grade ∉ inheritedProperties) :
    pointsTimesCredits grade credits =
      some (jsMul ((gradePoints grade).getD 0) (credits : ℚ)) := by
  unfold pointsTimesCredits
  cases gradePoints grade with
  | none => simp [h]
  | some p => simp

theorem creditsOrDefault_pos (credits : Option ℤ) (h : ∀ v, credits = some v → 0 < v) :
    0 < creditsOrDefault credits := by
  cases credits with
  | none => simp [creditsOrDefault]
  | some c =>
    simp only [creditsOrDefault]
    split_ifs
    · norm_num
    · exact h c rfl

theorem addResultPoints_snd_le (courses : List Course)
    (hc : ∀ c ∈ courses, ∀ v, c.credits = some v → 0 < v) (acc : Option ℚ × ℤ)
    (r : ResultRecord) : acc.2 ≤ (addResultPoints courses acc r).2 := by
  unfold addResultPoints
  cases hf : courses.find? (fun c => c.id == r.courseId) with
  | none => simp
  | some course =>
    simp only
    have := creditsOrDefault_pos course.credits (hc course (List.mem_of_find?_eq_some hf))
    omega

theorem foldl_addResultPoints_snd_le (courses : List Course)
    (hc : ∀ c ∈ courses, ∀ v, c.credits = some v → 0 < v) (rs : List ResultRecord)
    (acc : Option ℚ × ℤ) : acc.2 ≤ (rs.foldl (addResultPoints courses) acc).2 := by
  induction rs generalizing acc with
  | nil => simp
  | cons r rs ih =>
    rw [List.foldl_cons]
    exact le_trans (addResultPoints_snd_le courses hc acc r) (ih _)

theorem exists_course_of_find? (courses : List Course) (r : ResultRecord) (course : Course)
    (hf : courses.find? (fun c => c.id == r.courseId) = some course) :
    ∃ c ∈ courses, c.id = r.courseId := by
  refine ⟨course, List.mem_of_find?_eq_some hf, ?_⟩
  have := List.find?_some hf
  simpa using this

theorem addResultPoints_bounds (courses : List Course)
    (hc : ∀ c ∈ courses, ∀ v, c.credits = some v → 0 < v) (acc : Option ℚ × ℤ)
    (r : ResultRecord) (t : ℚ) (ht : acc.1 = some t) (h0 : 0 ≤ t)
    (h4 : t ≤ 4 * (acc.2 : ℚ)) (hC : 0 ≤ acc.2)
    (hg : (∃ c ∈ courses, c.id = r.courseId) → r.grade ∉ inheritedProperties)
    (hs : 4 * (addResultPoints courses acc r).2 < 2 ^ 53) :
    ∃ t', (addResultPoints courses acc r).1 = some t' ∧ 0 ≤ t' ∧
      t' ≤ 4 * ((addResultPoints courses acc r).2 : ℚ) := by
  unfold addResultPoints at hs ⊢
  cases hf : courses.find? (fun c => c.id == r.courseId) with
  | none => exact ⟨t, ht, h0, h4⟩
  | some course =>
    rw [hf] at hs
    simp only at hs ⊢
    have hpos := creditsOrDefault_pos course.credits (hc course (List.mem_of_find?_eq_some hf))
    obtain ⟨p0, p4⟩ := gradePoints_getD_bounds r.grade
    rw [pointsTimesCredits_of_not_inherited _ _ (hg (exists_course_of_find? courses r course hf)),
      ht]
    generalize creditsOrDefault course.credits = k at hs hpos ⊢
    generalize (gradePoints r.grade).getD 0 = p at p0 p4 ⊢
    have hk : (0 : ℚ) < (k : ℚ) := by exact_mod_cast hpos
    have hm0 : 0 ≤ jsMul p (k : ℚ) := fl_nonneg (mul_nonneg p0 hk.le)
    have hm4 : jsMul p (k : ℚ) ≤ 4 * (k : ℚ) := by
      have h := fl_mono (mul_le_mul_of_nonneg_right p4 hk.le)
      have hz := fl_intCast_of_nonneg (4 * k) (by omega) (by omega)
      push_cast at hz
      rw [hz] at h
      exact h
    have hsum0 : 0 ≤ t + jsMul p (k : ℚ) := add_nonneg h0 hm0
    refine ⟨jsAdd t (jsMul p (k : ℚ)), rfl, fl_nonneg hsum0, ?_⟩
    have h := fl_mono (show t + jsMul p (k : ℚ) ≤ 4 * (acc.2 : ℚ) + 4 * (k : ℚ) by linarith)
    have hz := fl_intCast_of_nonneg (4 * acc.2 + 4 * k) (by omega) (by omega)
    push_cast at hz
    rw [hz] at h
    unfold jsAdd
    push_cast
    linarith

theorem foldl_addResultPoints_bounds (courses : List Course)
    (hc : ∀ c ∈ courses, ∀ v, c.credits = some v → 0 < v) (rs : List ResultRecord)
    (acc : Option ℚ × ℤ) (t : ℚ) (ht : acc.1 = some t) (h0 : 0 ≤ t)
    (h4 : t ≤ 4 * (acc.2 : ℚ)) (hC : 0 ≤ acc.2)
    (hg : ∀ r ∈ rs, (∃ c ∈ courses, c.id = r.courseId) → r.grade ∉ inheritedProperties)
    (hs : 4 * (rs.foldl (addResultPoints courses) acc).2 < 2 ^ 53) :
    ∃ t', (rs.foldl (addResultPoints courses) acc).1 = some t' ∧ 0 ≤ t' ∧
      t' ≤ 4 * ((rs.foldl (addResultPoints courses) acc).2 : ℚ) := by
  induction rs generalizing acc t with
  | nil => exact ⟨t, ht, h0, h4⟩
  | cons r rs ih =>
    rw [List.foldl_cons] at hs ⊢
    have hle := foldl_addResultPoints_snd_le courses hc rs (addResultPoints courses acc r)
    have hle1 := addResultPoints_snd_le courses hc acc r
    obtain ⟨t', e', a0, a4⟩ := addResultPoints_bounds courses hc acc r t ht h0 h4 hC
      (hg r (List.mem_cons_self r rs)) (by omega)
    exact ih _ t' e' a0 a4 (by omega) (fun r' hr' => hg r' (List.mem_cons_of_mem r hr')) hs

theorem foldl_addResultPoints_snd_pos (courses : List Course)
    (hc : ∀ c ∈ courses, ∀ v, c.credits = some v → 0 < v) (rs : List ResultRecord)
    (acc : Option ℚ × ℤ) (hC : 0 ≤ acc.2)
    (hr : ∃ r ∈ rs, ∃ c ∈ courses, c.id = r.courseId) :
    0 < (rs.foldl (addResultPoints courses) acc).2 := by
  induction rs generalizing acc with
  | nil => simp at hr
  | cons r rs ih =>
    rw [List.foldl_cons]
    have hle1 := addResultPoints_snd_le courses hc acc r
    by_cases hv : ∃ c ∈ courses, c.id = r.courseId
    · have hle := foldl_addResultPoints_snd_le courses hc rs (addResultPoints courses acc r)
      refine lt_of_lt_of_le ?_ hle
      unfold addResultPoints
      cases hf : courses.find? (fun c => c.id == r.courseId) with
      | none =>
        obtain ⟨c, hcm, hid⟩ := hv
        have := List.find?_eq_none.mp hf c hcm
        simp [hid] at this
      | some course =>
        simp only
        have := creditsOrDefault_pos course.credits
          (hc course (List.mem_of_find?_eq_some hf))
        omega
    · apply ih _ (by omega)
      obtain ⟨r', hr', hv'⟩ := hr
      rcases List.mem_cons.mp hr' with rfl | hmem
      · exact absurd hv' hv
      · exact ⟨r', hmem, hv'⟩

theorem toFixed2_bounds {y : ℚ} (h0 : 0 ≤ y) (h4 : y ≤ 4) :
    0 ≤ toFixed2 y ∧ toFixed2 y ≤ 4 := by
  unfold toFixed2
  rw [if_neg (not_lt.mpr h0)]
  have h1 : (0 : ℤ) ≤ ⌊y * 100 + 1 / 2⌋ := Int.floor_nonneg.mpr (by linarith)
  have h2 : ⌊y * 100 + 1 / 2⌋ ≤ 400 := by
    have : ⌊y * 100 + 1 / 2⌋ < 401 := by
      rw [Int.floor_lt]
      push_cast
      linarith
    omega
  have h1' : (0 : ℚ) ≤ ((⌊y * 100 + 1 / 2⌋ : ℤ) : ℚ) := by exact_mod_cast h1
  have h2' : ((⌊y * 100 + 1 / 2⌋ : ℤ) : ℚ) ≤ 400 := by exact_mod_cast h2
  constructor
  · positivity
  · rw [div_le_iff₀ (by norm_num)]
    linarith

theorem foldl_addResultPoints_snd (courses : List Course) (rs : List ResultRecord)
    (acc : Option ℚ × ℤ) :
    (rs.foldl (addResultPoints courses) acc).2 =
      acc.2 + (rs.map (fun r =>
        match courses.find? (fun c => c.id == r.courseId) with
        | some course => creditsOrDefault course.credits
        | none => 0)).sum := by
  induction rs generalizing acc with
  | nil => simp
  | cons r rs ih =>
    rw [List.foldl_cons, ih, List.map_cons, List.sum_cons, ← add_assoc]
    congr 1
    unfold addResultPoints
    cases courses.find? (fun c => c.id == r.courseId) <;> simp

theorem getStudentGPA_totalCredits (st : Store) (studentId : String) :
    (getStudentGPA st studentId).totalCredits =
      ((getStudentResults st studentId).map (fun r =>
        match (st.courses.getD []).find? (fun c => c.id == r.courseId) with
        | some course => creditsOrDefault course.credits
        | none => 0)).sum := by
  unfold getStudentGPA
  simp only []
  by_cases h : (getStudentResults st studentId).length = 0
  · rw [if_pos h, List.length_eq_zero.mp h]
    rfl
  · rw [if_neg h]
    simp only []
    rw [foldl_addResultPoints_snd]
    simp

/-- A total of points is a binary64 value, or NaN, after every prefix of the results. -/
theorem foldl_addResultPoints_fst (courses : List Course) (rs : List ResultRecord)
    (acc : Option ℚ × ℤ) (h : ∀ t, acc.1 = some t → fl t = t) :
    ∀ t, (rs.foldl (addResultPoints courses) acc).1 = some t → fl t = t := by
  induction rs generalizing acc with
  | nil => exact h
  | cons r rs ih =>
    rw [List.foldl_cons]
    apply ih
    intro t ht
    unfold addResultPoints at ht
    cases hf : courses.find? (fun c => c.id == r.courseId) with
    | none =>
      rw [hf] at ht
      exact h t ht
    | some course =>
      rw [hf] at ht
      simp only at ht
      unfold addNumbers at ht
      split at ht
      · simp only [Option.some.injEq] at ht
        rw [← ht]
        exact fl_fl _
      · exact absurd ht (by simp)

theorem addResultPoints_of_unknown_grade (courses : List Course) (acc : Option ℚ × ℤ)
    (r : ResultRecord) (course : Course) (h : ∀ t, acc.1 = some t → fl t = t)
    (hf : courses.find? (fun c => c.id == r.courseId) = some course)
    (hg : gradePoints r.grade = none) (hi : r.grade ∉ inheritedProperties) :
    addResultPoints courses acc r = (acc.1, acc.2 + creditsOrDefault course.credits) := by
  unfold addResultPoints
  rw [hf]
  simp only
  rw [pointsTimesCredits_of_not_inherited _ _ hi, hg]
  cases ha : acc.1 with
  | none => rfl
  | some t =>
    simp only [addNumbers, Option.getD_none, jsMul, jsAdd, zero_mul, fl_zero, add_zero,
      h t ha]

/-- Claim C30, as stated, fails on a result whose grade names a property that every
object inherits: the store holds one course, of 3 credits, and one result of the student,
in that course, with the grade `constructor`, which is not one of the eleven known grades.
The lookup `gradePoints['constructor']` gives a function, the product with the credits is
NaN, and `getStudentGPA` returns the gpa `NaN` with `totalCredits = 3`: the gpa is not a
number between 0 and 4, and the result did not contribute 0 points. -/
theorem getStudentGPA_of_inherited_grade :
    getStudentGPA inheritedGradeStore "student001" = { gpa := none, totalCredits := 3 } ∧
    gradePoints "constructor" = none ∧
    (∀ c ∈ inheritedGradeStore.courses.getD [], c.credits = some 3) ∧
    (∃ r ∈ getStudentResults inheritedGradeStore "student001",
      ∃ c ∈ inheritedGradeStore.courses.getD [], c.id = r.courseId) := by
  decide

/-- Claim C30, amended: suppose every existing course has positive credits (or none, which
counts as 3), the student has at least one result in an existing course, none of the
student's results in an existing course has a grade that names a property every object
inherits (such as `constructor`), and four times the credit total is below `2 ^ 53`, the
range in which the credit sum of the code is exact. Then the gpa `getStudentGPA` returns
is a number between 0 and 4 inclusive and `totalCredits` is positive. A result in an
existing course whose grade is neither one of the eleven known grades nor the name of an
inherited property leaves the running total of points as it is and adds the credits of its
course to the running total of credits. -/
theorem getStudentGPA_bounds (st : Store) (studentId : String)
    (hc : ∀ c ∈ st.courses.getD [], ∀ v, c.credits = some v → 0 < v)
    (hr : ∃ r ∈ getStudentResults st studentId, ∃ c ∈ st.courses.getD [], c.id = r.courseId)
    (hg : ∀ r ∈ getStudentResults st studentId,
      (∃ c ∈ st.courses.getD [], c.id = r.courseId) → r.grade ∉ inheritedProperties)
    (hs : 4 * (getStudentGPA st studentId).totalCredits < 2 ^ 53) :
    (∃ g, (getStudentGPA st studentId).gpa = some g ∧ 0 ≤ g ∧ g ≤ 4) ∧
    0 < (getStudentGPA st studentId).totalCredits ∧
    (∀ (rs : List ResultRecord) (r : ResultRecord) (course : Course),
      (st.courses.getD []).find? (fun c => c.id == r.courseId) = some course →
      gradePoints r.grade = none → r.grade ∉ inheritedProperties →
      addResultPoints (st.courses.getD [])
          (rs.foldl (addResultPoints (st.courses.getD [])) (some 0, 0)) r =
        ((rs.foldl (addResultPoints (st.courses.getD [])) (some 0, 0)).1,
         (rs.foldl (addResultPoints (st.courses.getD [])) (some 0, 0)).2 +
           creditsOrDefault course.credits)) := by
  have hne : (getStudentResults st studentId).length ≠ 0 := by
    obtain ⟨r, hr', _⟩ := hr
    exact (List.length_pos_of_mem hr').ne'
  have hfold := getStudentGPA_of_fold st studentId
    ((getStudentResults st studentId).foldl (addResultPoints (st.courses.getD []))
      (some 0, 0)).1
    ((getStudentResults st studentId).foldl (addResultPoints (st.courses.getD []))
      (some 0, 0)).2
    hne rfl
  rw [hfold] at hs ⊢
  simp only at hs ⊢
  have hpos := foldl_addResultPoints_snd_pos (st.courses.getD []) hc
    (getStudentResults st studentId) (some 0, 0) le_rfl hr
  obtain ⟨t, et, b0, b4⟩ := foldl_addResultPoints_bounds (st.courses.getD []) hc
    (getStudentResults st studentId) (some 0, 0) 0 rfl le_rfl (by simp) le_rfl hg hs
  generalize (getStudentResults st studentId).foldl (addResultPoints (st.courses.getD []))
    (some 0, 0) = res at hs hpos et b0 b4 ⊢
  have hq : (0 : ℚ) < (res.2 : ℚ) := by exact_mod_cast hpos
  have hgpa : 0 ≤ toFixed2 (fl (t / (res.2 : ℚ))) ∧ toFixed2 (fl (t / (res.2 : ℚ))) ≤ 4 := by
    apply toFixed2_bounds
    · exact fl_nonneg (div_nonneg b0 hq.le)
    · have h := fl_mono (show t / (res.2 : ℚ) ≤ 4 by
        rw [div_le_iff₀ hq]
        exact b4)
      have f4 : fl 4 = 4 := by simpa using fl_natCast 4 (by norm_num)
      rwa [f4] at h
  rw [if_pos hpos, et]
  refine ⟨⟨_, rfl, hgpa.1, hgpa.2⟩, hpos, ?_⟩
  intro rs r course hf hgn hi
  exact addResultPoints_of_unknown_grade _ _ _ _
    (foldl_addResultPoints_fst (st.courses.getD []) rs (some 0, 0)
      (fun t ht => by
        simp only [Option.some.injEq] at ht
        rw [← ht]
        exact fl_zero)) hf hgn hi

theorem getStudentGPA_bounds_witness :
    (∃ g, (getStudentGPA unknownGradeStore "student001").gpa = some g ∧ 0 ≤ g ∧ g ≤ 4) ∧
    0 < (getStudentGPA unknownGradeStore "student001").totalCredits :=
  have h := getStudentGPA_bounds unknownGradeStore "student001"
    (by
      intro c hcm v hv
      simp only [unknownGradeStore, Option.getD_some, List.mem_cons, List.mem_singleton,
        List.mem_nil_iff, or_false] at hcm
      rcases hcm with rfl | rfl <;>
        · simp only [sampleCourse, Option.some.injEq] at hv
          omega)
    ⟨sampleResult "CS101" "student001" 190 "A", by decide,
      sampleCourse "CS101" (some 3), by decide, rfl⟩
    (by decide)
    (by
      rw [getStudentGPA_totalCredits]
      decide)
  ⟨h.1, h.2.1⟩

/-! ## Writes that fail -/

theorem saveResult_store_of_not_writeOk (env : Env) (st : Store) (c s : String) (m : Marks)
    (hw : env.writeOk = false) : (saveResult env st c s m).1 = st := by
  simp [saveResult, StorageManager.set, hw]

theorem markAttendance_store_of_not_writeOk (env : Env) (st : Store)
    (c s d status : String) (hw : env.writeOk = false) :
    (markAttendance env st c s d status).1 = st := by
  simp [markAttendance, StorageManager.set, hw]

theorem deleteResult_store_of_not_writeOk (env : Env) (st : Store) (c s : String)
    (hw : env.writeOk = false) : (deleteResult env st c s).1 = st := by
  simp [deleteResult, StorageManager.set, hw]

theorem attendanceFor_length_le_one_of_nodup (att : List AttendanceRecord)
    (h : (att.map (fun a => (a.courseId, a.studentId, a.date))).Nodup) (c s d : String) :
    (attendanceFor att c s d).length ≤ 1 := by
  induction att with
  | nil => simp [attendanceFor]
  | cons x att ih =>
    rw [List.map_cons, List.nodup_cons] at h
    unfold attendanceFor at ih ⊢
    by_cases hx : x.courseId = c ∧ x.studentId = s ∧ x.date = d
    · have hnil : att.filter
          (fun a => a.courseId == c && a.studentId == s && a.date == d) = [] := by
        rw [List.filter_eq_nil_iff]
        intro y hy hc
        simp only [Bool.and_eq_true, beq_iff_eq] at hc
        apply h.1
        rw [List.mem_map]
        exact ⟨y, hy, by rw [hc.1.1, hc.1.2, hc.2, hx.1, hx.2.1, hx.2.2]⟩
      rw [List.filter_cons, hnil]
      split_ifs <;> simp
    · have hf : (x.courseId == c && x.studentId == s && x.date == d) = false := by
        simp only [Bool.and_eq_false_iff, beq_eq_false_iff_ne, ne_eq]
        by_contra hc
        push_neg at hc
        exact hx ⟨hc.1.1, hc.1.2, hc.2⟩
      rw [List.filter_cons, hf]
      exact ih h.2

/-- Claim C4, as stated, fails when the write fails: on a store without a result for
`(CS101, student002)`, after `saveResult('CS101', 'student002', marks)` with a write that
does not persist, `getStudentCourseResult('student002', 'CS101')` is null. -/
theorem getStudentCourseResult_after_failed_save :
    getStudentCourseResult (saveResult failingEnv gpaStore "CS101" "student002" sampleMarks).1
      "student002" "CS101" = none := by
  rw [saveResult_store_of_not_writeOk _ _ _ _ _ rfl]
  decide

/-- Claim C5, as stated, fails when the write fails: the results collection holds at most
one record per pair, and after `saveResult('CS201', 'student002', marks)` with a write that
does not persist it holds no record for `(CS201, student002)`. -/
theorem resultsFor_after_failed_save :
    (∀ c s, (resultsFor (rankStore.results.getD []) c s).length ≤ 1) ∧
    resultsFor ((saveResult failingEnv rankStore "CS201" "student002"
      sampleMarks).1.results.getD []) "CS201" "student002" = [] := by
  refine ⟨resultsFor_length_le_one_of_nodup _ (by decide), ?_⟩
  rw [saveResult_store_of_not_writeOk _ _ _ _ _ rfl]
  decide

/-- Claim C6, as stated, fails on a collection that already holds two records for the
triple, where two identical calls whose writes persist leave two records for it, and when
the writes fail, where two identical calls on the empty store leave no record. -/
theorem attendanceFor_after_two_calls :
    (attendanceFor
      ((markAttendance sampleEnvLater (markAttendance sampleEnv frameStore "CS101" "student001"
        "2024-11-04" "present").1 "CS101" "student001" "2024-11-04"
        "present").1.attendance.getD []) "CS101" "student001" "2024-11-04").length = 2 ∧
    attendanceFor
      ((markAttendance failingEnv (markAttendance failingEnv {} "CS101" "student001"
        "2024-11-04" "present").1 "CS101" "student001" "2024-11-04"
        "present").1.attendance.getD []) "CS101" "student001" "2024-11-04" = [] := by
  decide

/-- Claim C7, as stated, fails when the write fails: the collection holds at most one
record per triple, and after `markAttendance('CS101', 'student003', '2024-11-04',
'present')` with a write that does not persist it holds no record for that triple. -/
theorem attendanceFor_after_failed_mark :
    (∀ c s d, (attendanceFor (markedStore.attendance.getD []) c s d).length ≤ 1) ∧
    attendanceFor ((markAttendance failingEnv markedStore "CS101" "student003" "2024-11-04"
      "present").1.attendance.getD []) "CS101" "student003" "2024-11-04" = [] := by
  refine ⟨attendanceFor_length_le_one_of_nodup _ (by decide), ?_⟩
  decide

/-- Claim C17, as stated, fails when the write fails: after
`deleteResult('CS101', 'student001')` with a write that does not persist the matching
record is still in the collection, and `getStudentCourseResult('student001', 'CS101')`
returns it. -/
theorem getStudentCourseResult_after_failed_delete :
    (deleteResult failingEnv gpaStore "CS101" "student001").1 = gpaStore ∧
    getStudentCourseResult (deleteResult failingEnv gpaStore "CS101" "student001").1
      "student001" "CS101" = some (sampleResult "CS101" "student001" 190 "A") ∧
    (deleteResult failingEnv gpaStore "CS101" "student001").2.success = true := by
  decide

/-- Claim C24, as stated, fails for the two writers when the write fails: with no
attendance and no results stored, `markAttendance` and `saveResult` with a write that does
not persist leave the collections absent, not holding the new record. -/
theorem writers_on_absent_collection_failed_write :
    (markAttendance failingEnv {} "CS101" "student001" "2024-11-04"
      "present").1.attendance = none ∧
    (saveResult failingEnv {} "CS101" "student001" sampleMarks).1.results = none := by
  rw [saveResult_store_of_not_writeOk _ _ _ _ _ rfl]
  decide

/-- Claim C28, as stated, fails when the write fails: the empty collection holds no record
with the triple, and after `markAttendance` with a write that does not persist the new
record is not appended and the length is still 0. -/
theorem markAttendance_length_after_failed_write :
    (∀ y ∈ (({} : Store).attendance).getD [],
      (y.courseId == "CS101" && y.studentId == "student001" && y.date == "2024-11-04") =
        false) ∧
    ((markAttendance failingEnv {} "CS101" "student001" "2024-11-04"
      "present").1.attendance.getD []).length = 0 := by
  decide

/-! ## Witnesses on stores with prior records -/

theorem saveResult_preserves_unique_witness :
    (∀ c' s', (resultsFor ((saveResult sampleEnv rankStore "CS101" "student002"
        sampleMarks).1.results.getD []) c' s').length ≤ 1) ∧
    (∃ r, resultsFor ((saveResult sampleEnv rankStore "CS101" "student002"
        sampleMarks).1.results.getD []) "CS101" "student002" = [r] ∧
      r.quiz1 = sampleMarks.quiz1.getD 0 ∧ r.quiz2 = sampleMarks.quiz2.getD 0 ∧
      r.midterm = sampleMarks.midterm.getD 0 ∧ r.final = sampleMarks.final.getD 0 ∧
      r.assignment = sampleMarks.assignment.getD 0 ∧
      r.totalMarks = calculateTotal sampleMarks ∧
      r.grade = calculateGrade (calculateTotal sampleMarks)) ∧
    resultsFor ((saveResult sampleEnv rankStore "CS101" "student002"
        sampleMarks).1.results.getD []) "CS101" "student001" =
      [sampleResult "CS101" "student001" 150 "B-"] ∧
    (resultsFor (rankStore.results.getD []) "CS101" "student002").length = 1 :=
  have h := saveResult_preserves_unique sampleEnv rankStore "CS101" "student002" sampleMarks
    rfl (resultsFor_length_le_one_of_nodup _ (by decide))
  ⟨h.1, h.2.1, (h.2.2 "CS101" "student001" (by decide)).trans (by decide), by decide⟩

theorem markAttendance_twice_witness :
    (∃ r, attendanceFor
        ((markAttendance sampleEnvLater (markAttendance sampleEnv markedStore "CS101"
          "student001" "2024-11-04" "present").1 "CS101" "student001" "2024-11-04"
          "present").1.attendance.getD []) "CS101" "student001" "2024-11-04" = [r] ∧
      r.markedAt = sampleEnvLater.now ∧ r.status = "present") ∧
    ((markAttendance sampleEnvLater (markAttendance sampleEnv markedStore "CS101"
        "student001" "2024-11-04" "present").1 "CS101" "student001" "2024-11-04"
        "present").1.attendance.getD []).length =
      ((markAttendance sampleEnv markedStore "CS101" "student001" "2024-11-04"
        "present").1.attendance.getD []).length ∧
    (attendanceFor (markedStore.attendance.getD []) "CS101" "student001"
      "2024-11-04").length = 1 :=
  have h := markAttendance_twice sampleEnv sampleEnvLater markedStore "CS101" "student001"
    "2024-11-04" "present" rfl rfl (attendanceFor_length_le_one_of_nodup _ (by decide) _ _ _)
  ⟨h.1, h.2, by decide⟩

theorem markAttendance_preserves_unique_witness :
    (∀ c' s' d', (attendanceFor ((markAttendance sampleEnv markedStore "CS101" "student001"
      "2024-11-04" "present").1.attendance.getD []) c' s' d').length ≤ 1) ∧
    (∃ r, attendanceFor ((markAttendance sampleEnv markedStore "CS101" "student001"
      "2024-11-04" "present").1.attendance.getD []) "CS101" "student001" "2024-11-04" = [r] ∧
      r.status = "present") ∧
    ((markAttendance sampleEnv markedStore "CS101" "student001" "2024-11-04"
      "present").1.attendance.getD []).length = 2 ∧
    (attendanceFor (markedStore.attendance.getD []) "CS101" "student001"
      "2024-11-04").length = 1 :=
  have h := markAttendance_preserves_unique sampleEnv markedStore "CS101" "student001"
    "2024-11-04" "present" rfl (attendanceFor_length_le_one_of_nodup _ (by decide))
  ⟨h.1, h.2.1, h.2.2.trans (by decide), by decide⟩

end Portal
